import Mathlib

/-!
# glBLAS: a shallow embedding of `glblas.c`

BLAS level-1 and level-3 routines executed as OpenGL render passes.  A device
buffer is a 2-D RGBA32F surface; every routine binds input surfaces as
textures, sets a viewport and draws one full-viewport quad whose fragment
program computes the four lanes of each output pixel.

Conventions of the embedding

* Float values are elements of an arbitrary linearly ordered commutative ring
  `R` (exact arithmetic); the concrete evaluations below take `R = ℤ`.
* A surface is the row-major array of its cells: pixel `p` (column
  `p % width`, row `p / width`) owns cells `4*p .. 4*p+3`, which is the layout
  `glTexSubImage2D` / `glReadPixels` give it with `GL_RGBA`, `GL_FLOAT`.
* One draw call reads the textures as they were before the call and replaces
  the pixels of the output surface that lie inside the viewport.
* `texture(s, coord)` uses `GL_NEAREST` (set by `glblasMalloc`).  The program
  never sets a wrap mode, so what a fetch outside `[0,1)²` returns is a
  parameter `wrap` of every routine; `gl_repeat` is OpenGL's default.
* A surface created by `glTexImage2D(..., NULL)` has unspecified contents:
  every routine that allocates a temporary takes its initial contents as a
  parameter.
* C integers are modelled without overflow (`Nat`, and `Int` where the code
  subtracts or tests the sign).  `Machine.get_texture_dimensions` is the one
  function given at the widths of the C types as well (`size_t` of 64 bits
  that wraps, `int` of 32 bits); it agrees with the unbounded
  `get_texture_dimensions` for sizes below `2^35 - 15` and widths below `2^31`
  (`machine_get_texture_dimensions_eq`).
-/

namespace GLBLAS

/-! ## Data model -/

/-- Status codes, `glblasStatus_t` of `glblas.h`. -/
inductive glblasStatus where
  | SUCCESS
  | ALLOC_FAILED
  | INVALID_VALUE
  | NOT_SUPPORTED
  | EXECUTION_FAILED
  | DIMENSION_OVERFLOW
  deriving DecidableEq

/-- Transfer directions, `glblasMemcpyKind_t` of `glblas.h`. -/
inductive glblasMemcpyKind where
  | glblasMemcpyInfer
  | glblasMemcpyDeviceToHost
  | glblasMemcpyHostToDevice
  | glblasMemcpyDeviceToDevice
  deriving DecidableEq

/-- Transpose flags, `glblasOperation_t` of `glblas.h`; as a C truth value
`GLBLAS_OP_N` is false and `GLBLAS_OP_T` is true. -/
inductive glblasOperation where
  | GLBLAS_OP_N
  | GLBLAS_OP_T
  deriving DecidableEq

/-- The truth value of a transpose flag (`transa ? .. : ..`, `uniform bool aT`). -/
def glblasOperation.toBool : glblasOperation → Bool
  | .GLBLAS_OP_N => false
  | .GLBLAS_OP_T => true

/-- The fields of `_glblas_internal_context` the routines read: the maximum
surface shape.  (The staging area `pbuffer_host` lives in `Device`.) -/
structure Context where
  pbuffer_width : Nat
  pbuffer_height : Nat
  deriving DecidableEq

/-- A device buffer, `_glblas_internal_buffer`: logical size in bytes, surface
shape in pixels, padding flag, and the contents of the surface as a row-major
array of cells.  The kernels read a cell as one float lane (4 cells a pixel);
the transfer routines read a cell as one byte (16 cells a pixel). -/
structure Buffer (α : Type) where
  size : Nat
  width : Nat
  height : Nat
  is_padded : Bool
  data : Nat → α

/-- A GLSL `vec4`. -/
structure Vec4 (R : Type) where
  r : R
  g : R
  b : R
  a : R

/-- `#define FLOATS_PER_PIXEL 4`. -/
def FLOATS_PER_PIXEL : Nat := 4

/-- `sizeof(float)`. -/
def sizeof_float : Nat := 4

section Kernels

variable {R : Type}

/-- The lane a kernel selects with `switch (xindex % 4)`. -/
def Vec4.lane (v : Vec4 R) (l : Nat) : R :=
  match l with
  | 0 => v.r
  | 1 => v.g
  | 2 => v.b
  | _ => v.a

/-- The vector whose lanes r, g, b, a are `f 0 .. f 3`: the four expansions
`kernel(0, r) .. kernel(3, a)` of a kernel macro, each of which assigns one lane. -/
def Vec4.build (f : Nat → R) : Vec4 R := ⟨f 0, f 1, f 2, f 3⟩

/-- The texel of pixel `p` of a surface. -/
def texel (t : Buffer R) (p : Nat) : Vec4 R :=
  ⟨t.data (4 * p), t.data (4 * p + 1), t.data (4 * p + 2), t.data (4 * p + 3)⟩

/-- GLSL `texture(t, vec2(un/ud, vn/vd))` with `GL_NEAREST`: the texel at
column `⌊u·width⌋`, row `⌊v·height⌋`; outside the surface the wrap mode decides. -/
def texture (wrap : Buffer R → Nat → Nat → Vec4 R) (t : Buffer R) (un ud vn vd : Nat) : Vec4 R :=
  let col := un * t.width / ud
  let row := vn * t.height / vd
  if col < t.width ∧ row < t.height then texel t (row * t.width + col) else wrap t col row

/-- The wrap mode `GL_REPEAT`, OpenGL's default. -/
def gl_repeat (t : Buffer R) (col row : Nat) : Vec4 R :=
  texel t ((row % t.height) * t.width + col % t.width)

/-- A fragment of a draw call: `x = int(gl_FragCoord.x - 0.5)`,
`y = int(gl_FragCoord.y - 0.5)`, and the viewport it is rasterised in.  Its
interpolated `TexCoord` is `((2x+1)/(2·vw), (2y+1)/(2·vh))`, the pixel centre. -/
structure Frag where
  x : Nat
  y : Nat
  vw : Nat
  vh : Nat

/-- GLSL `texture(t, TexCoord)` at a fragment. -/
def textureAt (wrap : Buffer R → Nat → Nat → Vec4 R) (t : Buffer R) (f : Frag) : Vec4 R :=
  texture wrap t (2 * f.x + 1) (2 * f.vw) (2 * f.y + 1) (2 * f.vh)

/-- The call `glViewport(0, 0, vw, vh); glBindFramebuffer(out); glDrawElements(..)`
with fragment program `fs`: every pixel of `out` inside the viewport receives
the colour `fs` computes for it, every other cell is kept. -/
def draw (vw vh : Nat) (out : Buffer R) (fs : Frag → Vec4 R) : Buffer R :=
  { out with
    data := fun e =>
      let p := e / 4
      let px := p % out.width
      let py := p / out.width
      if px < vw ∧ py < vh ∧ py < out.height then (fs ⟨px, py, vw, vh⟩).lane (e % 4)
      else out.data e }

/-- The elements a host reads back from the first `n` float cells of a surface. -/
def hostRead (b : Buffer R) (n : Nat) : List R := (List.range n).map b.data

end Kernels

/-! ## Coordinate mapper -/

/-- The value of `(float)n` for a `size_t` `n`: `n` rounded to 24 significant
bits, ties to even (IEEE-754 binary32, the default rounding mode). -/
def f32_of_nat (n : Nat) : Nat :=
  if n < 2 ^ 24 then n
  else
    let sh := Nat.log2 n + 1 - 24
    let q := n / 2 ^ sh
    let rem := n % 2 ^ sh
    let half := 2 ^ (sh - 1)
    if rem > half ∨ (rem = half ∧ q % 2 = 1) then (q + 1) * 2 ^ sh else q * 2 ^ sh

/-- The C function `get_texture_dimensions`: status, `*out_width`, `*out_height` and
`*is_padded`.  `(float)size / 16` is exact in binary32 (a division by a power of two),
and `roundf(v) != v` says that `v` is not an integer, so `*is_padded` is
`(float)size` not being a multiple of 16.  The integers are unbounded here: the function
at the widths of `size_t` and `int` is `Machine.get_texture_dimensions`. -/
def get_texture_dimensions (size max_width max_height : Nat) : glblasStatus × Nat × Nat × Bool :=
  let count := (size + (FLOATS_PER_PIXEL * sizeof_float) - 1) / (FLOATS_PER_PIXEL * sizeof_float)
  let is_padded := decide (f32_of_nat size % (FLOATS_PER_PIXEL * sizeof_float) ≠ 0)
  if count ≤ max_width then (.SUCCESS, count, 1, is_padded)
  else
    let out_width := max_width
    let out_height := (count + max_width - 1) / max_width
    (if out_width ≤ max_width ∧ out_height ≤ max_height then .SUCCESS else .DIMENSION_OVERFLOW,
      out_width, out_height, is_padded)

/-- The C function `glblasMalloc`, without the registry: `none` when `GLBLAS_ASSERT`
aborts, else the new buffer, whose surface holds the unspecified contents `init`. -/
def glblasMalloc {α : Type} (ctx : Context) (size : Nat) (init : Nat → α) : Option (Buffer α) :=
  if size ≤ ctx.pbuffer_width * ctx.pbuffer_height * sizeof_float * FLOATS_PER_PIXEL then
    let d := get_texture_dimensions size ctx.pbuffer_width ctx.pbuffer_height
    some { size := size, width := d.2.1, height := d.2.2.1, is_padded := d.2.2.2, data := init }
  else none

/-- The C function `get_op_dims`: the shape a routine renders with, `(width, height)`.
The status of `get_texture_dimensions` is dropped, the function always returns
`GLBLAS_STATUS_SUCCESS`. -/
def get_op_dims {α : Type} (N : Nat) (dev : Buffer α) (ctx : Context) : glblasStatus × Nat × Nat :=
  if N = dev.size / sizeof_float then (.SUCCESS, dev.width, dev.height)
  else
    let d := get_texture_dimensions (N * sizeof_float) ctx.pbuffer_width ctx.pbuffer_height
    (.SUCCESS, d.2.1, d.2.2.1)

/-! ## Fragment programs -/

section Shaders

variable {R : Type} [LinearOrderedCommRing R]

/-- The flat index the elementwise kernels give the first lane of a fragment:
`int(gl_FragCoord.y - 0.5) * int(dims.x) + int(gl_FragCoord.x - 0.5) * 4`. -/
def frag_index (f : Frag) (dimsx : Nat) : Nat := f.y * dimsx + f.x * 4

/-- The fetch `texture(t, vec2(float(pixel % int(dims.x)) / dims.x,
float(pixel / int(dims.x)) / dims.y))` every kernel uses to read pixel `pixel`. -/
def texturePixel (wrap : Buffer R → Nat → Nat → Vec4 R) (t : Buffer R)
    (pixel dimsx dimsy : Nat) : Vec4 R :=
  texture wrap t (pixel % dimsx) dimsx (pixel / dimsx) dimsy

/-- The source index of the strided kernels,
`(index + offs) + ((index + offs) / incy) * (incx - incy)`, in C `int` arithmetic. -/
def xindex_of (i incx incy : Nat) : Nat :=
  ((i : Int) + ((i / incy : Nat) : Int) * ((incx : Int) - (incy : Int))).toNat

/-- Lane-wise `abs(v)`. -/
def Vec4.abs (v : Vec4 R) : Vec4 R := ⟨|v.r|, |v.g|, |v.b|, |v.a|⟩

/-- The fragment program `glblas_fs_src_sscal`. -/
def fs_sscal (wrap : Buffer R → Nat → Nat → Vec4 R) (x : Buffer R) (alpha : R) (incx : Nat)
    (dimsx : Nat) (max_index : Nat) (f : Frag) : Vec4 R :=
  let index := frag_index f dimsx
  let vx := textureAt wrap x f
  Vec4.build fun offs =>
    if index + offs > max_index ∨ (index + offs) % incx ≠ 0 then vx.lane offs
    else vx.lane offs * alpha

/-- The fragment program `glblas_fs_src_scopyv2` (`OP_SCOPY`). -/
def fs_scopyv2 (wrap : Buffer R → Nat → Nat → Vec4 R) (x y : Buffer R) (incx incy : Nat)
    (dimsx dimsy : Nat) (max_index : Nat) (f : Frag) : Vec4 R :=
  let index := frag_index f dimsx
  let vy := textureAt wrap y f
  Vec4.build fun offs =>
    if index + offs < max_index ∧ (index + offs) % incy = 0 then
      let xindex := xindex_of (index + offs) incx incy
      (texturePixel wrap x (xindex / 4) dimsx dimsy).lane (xindex % 4)
    else vy.lane offs

/-- The fragment program `glblas_fs_src_saxpyv2` (`OP_SAXPY`). -/
def fs_saxpyv2 (wrap : Buffer R → Nat → Nat → Vec4 R) (x y : Buffer R) (alpha : R)
    (incx incy : Nat) (dimsx dimsy : Nat) (max_index : Nat) (f : Frag) : Vec4 R :=
  let index := frag_index f dimsx
  let vy := textureAt wrap y f
  Vec4.build fun offs =>
    if index + offs < max_index ∧ (index + offs) % incy = 0 then
      let xindex := xindex_of (index + offs) incx incy
      vy.lane offs + (texturePixel wrap x (xindex / 4) dimsx dimsy).lane (xindex % 4) * alpha
    else vy.lane offs

/-- The fragment program `glblas_fs_src_sdotv3_mul` (`OP_SDOTV2_MUL`). -/
def fs_sdotv3_mul (wrap : Buffer R → Nat → Nat → Vec4 R) (x y : Buffer R)
    (incx incy : Nat) (dimsx dimsy : Nat) (max_index : Nat) (f : Frag) : Vec4 R :=
  let index := frag_index f dimsx
  let vy := textureAt wrap y f
  Vec4.build fun offs =>
    if index + offs < max_index ∧ (index + offs) % incy = 0 then
      let xindex := xindex_of (index + offs) incx incy
      vy.lane offs * (texturePixel wrap x (xindex / 4) dimsx dimsy).lane (xindex % 4)
    else vy.lane offs

/-- The fragment program `glblas_fs_src_sdotv2_sum` (`OP_SDOTV2_SUM`).  Its `index` is the
pixel index (no `* 4`); only the terminal branch `max_index == 1` takes `abs`. -/
def fs_sdotv2_sum (wrap : Buffer R → Nat → Nat → Vec4 R) (x : Buffer R) (incx : Nat)
    (dimsx dimsy : Nat) (max_index : Nat) (f : Frag) : Vec4 R :=
  let index := f.y * dimsx + f.x
  if max_index = 1 then
    let vy := (textureAt wrap x f).abs
    if index = 0 then ⟨vy.r + vy.g + vy.b + vy.a, 0, 0, 0⟩ else ⟨1, 0, 0, 0⟩
  else
    let halfway := max_index / 4
    if index > halfway then ⟨0, 0, 0, 0⟩
    else
      let vx := texturePixel wrap x ((index + halfway) / incx) dimsx dimsy
      let vy := textureAt wrap x f
      Vec4.build fun offs =>
        if index + offs > max_index ∨ (index + offs) % incx ≠ 0 then vy.lane offs
        else vx.lane offs + vy.lane offs

/-- The fragment program `glblas_fs_src_sasum` (`OP_SASUM`): as `fs_sdotv2_sum`, with
`abs` on every fetch. -/
def fs_sasum (wrap : Buffer R → Nat → Nat → Vec4 R) (x : Buffer R) (incx : Nat)
    (dimsx dimsy : Nat) (max_index : Nat) (f : Frag) : Vec4 R :=
  let index := f.y * dimsx + f.x
  if max_index = 1 then
    let vy := (textureAt wrap x f).abs
    if index = 0 then ⟨vy.r + vy.g + vy.b + vy.a, 0, 0, 0⟩ else ⟨1, 0, 0, 0⟩
  else
    let halfway := max_index / 4
    if index > halfway then ⟨0, 0, 0, 0⟩
    else
      let vx := (texturePixel wrap x ((index + halfway) / incx) dimsx dimsy).abs
      let vy := (textureAt wrap x f).abs
      Vec4.build fun offs =>
        if index + offs > max_index ∨ (index + offs) % incx ≠ 0 then vy.lane offs
        else vx.lane offs + vy.lane offs

/-- The accumulation loop of the `kernel` macro of `glblas_fs_src_sgemm` for row `i`,
column `j`: `val` after `for (int l = 0; l < k; l++)`. -/
def sgemm_val (wrap : Buffer R → Nat → Nat → Vec4 R) (a b : Buffer R) (lda ldb : Nat)
    (aT bT : Bool) (ax ay bx by_ : Nat) (k i j : Nat) : R :=
  (List.range k).foldl (fun val l =>
    let aindex := if aT then lda * i + l else lda * l + i
    let bindex := if bT then ldb * l + j else ldb * j + l
    let va := texture wrap a ((aindex / 4) % ax) ax ((aindex / 4) / ax) ay
    let vb := texture wrap b ((bindex / 4) % bx) bx ((bindex / 4) / bx) by_
    val + va.lane (aindex % 4) * vb.lane (bindex % 4)) 0

/-- The fragment program `glblas_fs_src_sgemm` (`OP_SGEMM`).  The uniforms `ldc` and `n`
are declared and never read. -/
def fs_sgemm (wrap : Buffer R → Nat → Nat → Vec4 R) (a b c : Buffer R) (lda ldb : Nat)
    (aT bT : Bool) (alpha beta : R) (dimsx adimsx bdimsy : Nat) (m k : Nat)
    (max_index : Nat) (f : Frag) : Vec4 R :=
  let index := frag_index f dimsx
  let vy : Vec4 R := if beta ≠ 0 then textureAt wrap c f else ⟨0, 0, 0, 0⟩
  let ax := if aT then k else adimsx
  let ay := if aT then adimsx else k
  let bx := if bT then bdimsy else k
  let by_ := if bT then k else bdimsy
  Vec4.build fun offs =>
    if index + offs < max_index then
      let i := (index + offs) % m
      let j := (index + offs) / m
      alpha * sgemm_val wrap a b lda ldb aT bT ax ay bx by_ k i j + vy.lane offs * beta
    else vy.lane offs

/-- The accumulation loop of the `kernel` macro of `glblas_fs_src_sgemm4x4`:
`val` after `for (int l = 0; l < k; l += 4)`. -/
def sgemm4x4_val (wrap : Buffer R → Nat → Nat → Vec4 R) (a b : Buffer R) (lda ldb : Nat)
    (ax ay bx by_ : Nat) (k i j : Nat) : R :=
  (List.range ((k + 3) / 4)).foldl (fun val t =>
    let l := 4 * t
    let aindex := lda * i + l
    let bindex := ldb * j + l
    let va := texture wrap a ((aindex / 4) % ax) ax ((aindex / 4) / ax) ay
    let vb := texture wrap b ((bindex / 4) % bx) bx ((bindex / 4) / bx) by_
    val + (va.r * vb.r + va.g * vb.g + va.b * vb.b + va.a * vb.a)) 0

/-- The fragment program `glblas_fs_src_sgemm4x4` (`OP_SGEMM4x4`). -/
def fs_sgemm4x4 (wrap : Buffer R → Nat → Nat → Vec4 R) (a b c : Buffer R) (lda ldb : Nat)
    (aT bT : Bool) (alpha beta : R) (dimsx adimsx bdimsy : Nat) (m k : Nat)
    (max_index : Nat) (f : Frag) : Vec4 R :=
  let index := frag_index f dimsx
  let vy : Vec4 R := if beta ≠ 0 then textureAt wrap c f else ⟨0, 0, 0, 0⟩
  let ax := if aT then k else adimsx
  let ay := if aT then adimsx else k
  let bx := if bT then bdimsy else k
  let by_ := if bT then k else bdimsy
  Vec4.build fun offs =>
    if index + offs < max_index then
      let i := (index + offs) % m
      let j := (index + offs) / m
      alpha * sgemm4x4_val wrap a b lda ldb ax ay bx by_ k i j + vy.lane offs * beta
    else vy.lane offs

/-- The fragment program `glblas_fs_src_sgemm4x4_reorder` (`OP_SGEMM4x4_R`). -/
def fs_sgemm4x4_reorder (wrap : Buffer R → Nat → Nat → Vec4 R) (x : Buffer R)
    (dimsx dimsy : Nat) (max_index : Nat) (f : Frag) : Vec4 R :=
  let index := frag_index f dimsx
  let fragm := index / 4
  Vec4.build fun offs =>
    if index + offs < max_index then
      let xindex := (fragm + (max_index / 4) * offs) / 4
      (texturePixel wrap x xindex dimsx dimsy).lane (fragm % 4)
    else 0

end Shaders

/-! ## Host routines -/

section Routines

variable {R : Type} [LinearOrderedCommRing R]

/-- The C function `glblasSscal`: the status and the surface of `x` after the call. -/
def glblasSscal (wrap : Buffer R → Nat → Nat → Vec4 R) (ctx : Context) (N : Nat) (alpha : R)
    (x : Buffer R) (incx : Nat) : glblasStatus × Buffer R :=
  let d := get_op_dims N x ctx
  if d.1 ≠ .SUCCESS then (d.1, x)
  else (.SUCCESS, draw d.2.1 d.2.2 x (fs_sscal wrap x alpha incx d.2.1 N))

/-- The C function `glblasScopy`: the status and the surface of `y` after the call. -/
def glblasScopy (wrap : Buffer R → Nat → Nat → Vec4 R) (ctx : Context) (N : Nat)
    (x : Buffer R) (incx : Nat) (y : Buffer R) (incy : Nat) : glblasStatus × Buffer R :=
  let d := get_op_dims N y ctx
  if d.1 ≠ .SUCCESS then (d.1, y)
  else (.SUCCESS, draw d.2.1 d.2.2 y (fs_scopyv2 wrap x y incx incy d.2.1 d.2.2 N))

/-- The C function `glblasSaxpy`: the status and the surface of `y` after the call
(`x` is bound as a texture only and keeps its contents). -/
def glblasSaxpy (wrap : Buffer R → Nat → Nat → Vec4 R) (ctx : Context) (N : Nat) (alpha : R)
    (x : Buffer R) (incx : Nat) (y : Buffer R) (incy : Nat) : glblasStatus × Buffer R :=
  let d := get_op_dims N y ctx
  if d.1 ≠ .SUCCESS then (d.1, y)
  else (.SUCCESS, draw d.2.1 d.2.2 y (fs_saxpyv2 wrap x y alpha incx incy d.2.1 d.2.2 N))

/-- The C function `glblasSswap`: `none` when the allocation of the temporary aborts, else
the status and the surfaces of `x` and `y` after the call.  `init` is what the fresh
temporary holds. -/
def glblasSswap (wrap : Buffer R → Nat → Nat → Vec4 R) (ctx : Context) (init : Nat → R)
    (N : Nat) (x : Buffer R) (incx : Nat) (y : Buffer R) (incy : Nat) :
    Option (glblasStatus × Buffer R × Buffer R) :=
  match glblasMalloc ctx (N * sizeof_float) init with
  | none => none
  | some temp0 =>
    let temp := (glblasScopy wrap ctx N x 1 temp0 1).2
    let x1 := (glblasScopy wrap ctx N y incy x incx).2
    let y1 := (glblasScopy wrap ctx N temp incx y incy).2
    some (.SUCCESS, x1, y1)

/-- The C function `glblas_sdotv2_mul`: the surface of `y` after the call. -/
def glblas_sdotv2_mul (wrap : Buffer R → Nat → Nat → Vec4 R) (ctx : Context) (N : Nat)
    (x : Buffer R) (incx : Nat) (y : Buffer R) (incy : Nat) : Buffer R :=
  let d := get_op_dims N y ctx
  draw d.2.1 d.2.2 y (fs_sdotv3_mul wrap x y incx incy d.2.1 d.2.2 N)

/-- The reduction loop of `glblas_sdotv2_sum` and `glblasSasum`,
`for (int tN = N / 2; tN != 0; tN /= 2) { if (tN < 4) tN = 1; pass(tN); }`,
entered with the current `tN`; `pass m t` is the surface after the draw with
`max_index = m`.  `fuel` bounds the number of passes; `tN` passes are never needed. -/
def sum_loop {β : Type} (pass : Nat → β → β) : Nat → Nat → β → β
  | 0, _, temp => temp
  | fuel + 1, tN, temp =>
    if tN = 0 then temp
    else
      let m := if tN < 4 then 1 else tN
      sum_loop pass fuel (m / 2) (pass m temp)

/-- The C function `glblas_sdotv2_sum`: `none` when the allocation of the temporary aborts,
else the surface of `result` after the call. -/
def glblas_sdotv2_sum (wrap : Buffer R → Nat → Nat → Vec4 R) (ctx : Context) (init : Nat → R)
    (N : Nat) (result x : Buffer R) (incx : Nat) : Option (Buffer R) :=
  let d := get_op_dims N x ctx
  match glblasMalloc ctx (N * sizeof_float) init with
  | none => none
  | some temp0 =>
    let temp := (glblasScopy wrap ctx N x 1 temp0 1).2
    let temp := sum_loop
      (fun m t => draw d.2.1 d.2.2 t (fs_sdotv2_sum wrap t incx d.2.1 d.2.2 m)) (N / 2) (N / 2) temp
    some (glblasScopy wrap ctx 1 temp 1 result 1).2

/-- The C function `glblasSdot`: `none` when an allocation aborts, else the status and the
surface of `result` after the call.  `init1`, `init2` are what the fresh temporaries
`savedy` and `temp` hold. -/
def glblasSdot (wrap : Buffer R → Nat → Nat → Vec4 R) (ctx : Context) (init1 init2 : Nat → R)
    (N : Nat) (result x : Buffer R) (incx : Nat) (y : Buffer R) (incy : Nat) :
    Option (glblasStatus × Buffer R) :=
  match glblasMalloc ctx (N * sizeof_float) init1 with
  | none => none
  | some savedy0 =>
    let c := glblasScopy wrap ctx N y 1 savedy0 1
    if c.1 ≠ .SUCCESS then some (c.1, result)
    else
      let savedy := glblas_sdotv2_mul wrap ctx N x incx c.2 incy
      match glblas_sdotv2_sum wrap ctx init2 N result savedy 1 with
      | none => none
      | some r => some (.SUCCESS, r)

/-- The C function `glblasSasum`: `none` when the allocation of the temporary aborts, else
the status and the surface of `result` after the call. -/
def glblasSasum (wrap : Buffer R → Nat → Nat → Vec4 R) (ctx : Context) (init : Nat → R)
    (N : Nat) (result x : Buffer R) (incx : Nat) : Option (glblasStatus × Buffer R) :=
  let d := get_op_dims N x ctx
  if d.1 ≠ .SUCCESS then some (d.1, result)
  else
    match glblasMalloc ctx (N * sizeof_float) init with
    | none => none
    | some temp0 =>
      let temp := (glblasScopy wrap ctx N x 1 temp0 1).2
      let temp := sum_loop
        (fun m t => draw d.2.1 d.2.2 t (fs_sasum wrap t incx d.2.1 d.2.2 m)) (N / 2) (N / 2) temp
      some (.SUCCESS, (glblasScopy wrap ctx 1 temp 1 result 1).2)

/-- The two `GLBLAS_ASSERT_STATUS` lines that open `glblasSgemm`: `none` when both pass. -/
def sgemm_check (transa transb : glblasOperation) (M N K lda ldb ldc : Int) :
    Option glblasStatus :=
  if ¬ (M ≥ 0 ∧ N ≥ 0 ∧ K ≥ 0) then some .INVALID_VALUE
  else if ¬ (lda ≥ max 1 (if transa.toBool then K else M)
      ∨ ldb ≥ max 1 (if transb.toBool then N else K) ∨ ldc ≥ max 1 M) then
    some .DIMENSION_OVERFLOW
  else none

/-- The C function `glblasSgemm`: the status and the surface of `c` after the call.  After
the first check `M`, `N`, `K` are non-negative; the kernel is modelled for non-negative
leading dimensions (a negative `lda` or `ldb` that the second check lets through is read
as 0).  `M * N` is the exact product: the `int` product of the source is that number
whenever it is below `2^31`, and is undefined in C otherwise. -/
def glblasSgemm (wrap : Buffer R → Nat → Nat → Vec4 R) (ctx : Context)
    (transa transb : glblasOperation) (M N K : Int) (alpha : R) (a : Buffer R) (lda : Int)
    (b : Buffer R) (ldb : Int) (beta : R) (c : Buffer R) (ldc : Int) : glblasStatus × Buffer R :=
  match sgemm_check transa transb M N K lda ldb ldc with
  | some st => (st, c)
  | none =>
    let d := get_op_dims (M * N).toNat c ctx
    if d.1 ≠ .SUCCESS then (d.1, c)
    else
      (.SUCCESS, draw d.2.1 d.2.2 c
        (fs_sgemm wrap a b c lda.toNat ldb.toNat transa.toBool transb.toBool alpha beta
          d.2.1 a.width b.height M.toNat K.toNat (M * N).toNat))

/-- The C function `glblas_sgemm4x4_reorder`: the surface of `y` after the call. -/
def glblas_sgemm4x4_reorder (wrap : Buffer R → Nat → Nat → Vec4 R) (ctx : Context) (N : Nat)
    (x y : Buffer R) : Buffer R :=
  let d := get_op_dims N y ctx
  draw d.2.1 d.2.2 y (fs_sgemm4x4_reorder wrap x d.2.1 d.2.2 N)

/-- The two `GLBLAS_ASSERT_STATUS` lines that open `glblasSgemm4x4`: `none` when both pass. -/
def sgemm4x4_check (transa transb : glblasOperation) (M N K lda ldb ldc : Int) :
    Option glblasStatus :=
  if ¬ (Int.tmod M 4 = 0 ∧ Int.tmod N 4 = 0 ∧ Int.tmod K 4 = 0 ∧ M = N ∧ M = K
      ∧ M ≥ 0 ∧ N ≥ 0 ∧ K ≥ 0) then some .INVALID_VALUE
  else if ¬ (lda ≥ max 1 (if transa.toBool then K else M)
      ∨ ldb ≥ max 1 (if transb.toBool then N else K) ∨ ldc ≥ max 1 M) then
    some .DIMENSION_OVERFLOW
  else none

/-- The C function `glblasSgemm4x4`: `none` when an allocation aborts, else the status and
the surface of `c` after the call.  `inita`, `initb` are what the fresh temporaries
`reordered_a` and `reordered_b` hold. -/
def glblasSgemm4x4 (wrap : Buffer R → Nat → Nat → Vec4 R) (ctx : Context) (inita initb : Nat → R)
    (transa transb : glblasOperation) (M N K : Int) (alpha : R) (a : Buffer R) (lda : Int)
    (b : Buffer R) (ldb : Int) (beta : R) (c : Buffer R) (ldc : Int) :
    Option (glblasStatus × Buffer R) :=
  match sgemm4x4_check transa transb M N K lda ldb ldc with
  | some st => some (st, c)
  | none =>
    let d := get_op_dims (M * N).toNat c ctx
    if d.1 ≠ .SUCCESS then some (d.1, c)
    else
      let reordered_a : Option (Option (Buffer R)) :=
        if transa.toBool then some none
        else (glblasMalloc ctx ((M * K).toNat * sizeof_float) inita).map some
      let reordered_b : Option (Option (Buffer R)) :=
        if transb.toBool then (glblasMalloc ctx ((K * N).toNat * sizeof_float) initb).map some
        else some none
      match reordered_a, reordered_b with
      | some ra, some rb =>
        let u_a := match ra with
          | some t => glblas_sgemm4x4_reorder wrap ctx (M * K).toNat a t
          | none => a
        let u_b := match rb with
          | some t => glblas_sgemm4x4_reorder wrap ctx (K * N).toNat b t
          | none => b
        some (.SUCCESS, draw d.2.1 d.2.2 c
          (fs_sgemm4x4 wrap u_a u_b c lda.toNat ldb.toNat transa.toBool transb.toBool alpha beta
            d.2.1 u_a.width u_b.height M.toNat K.toNat (M * N).toNat))
      | _, _ => none

end Routines

/-! ## Host-device transfer -/

section Transfer

variable {β : Type}

/-- The state the transfer routine acts on: the registry `buffers` (the linked list, in
list order, every node with its address), the staging area `context->pbuffer_host`, and
the host memory, byte addressed.  Cells are bytes here. -/
structure Device (β : Type) where
  buffers : List (Nat × Buffer β)
  pbuffer_host : Nat → β
  host : Nat → β

/-- The walk of `get_buffer_from_address` down the list: the first node at `addr`. -/
def find_node : List (Nat × Buffer β) → Nat → Option (Buffer β)
  | [], _ => none
  | n :: rest, addr => if addr = n.1 then some n.2 else find_node rest addr

/-- The C function `get_buffer_from_address`; `none` is `NULL`. -/
def get_buffer_from_address (s : Device β) (addr : Nat) : Option (Buffer β) :=
  find_node s.buffers addr

/-- The registry after the surface of the node at `addr` has been written. -/
def store_node : List (Nat × Buffer β) → Nat → Buffer β → List (Nat × Buffer β)
  | [], _, _ => []
  | n :: rest, addr, b => if addr = n.1 then (n.1, b) :: rest else n :: store_node rest addr b

/-- The bytes one `glTexSubImage2D` / `glReadPixels` of the whole surface moves:
`width * height` pixels of `GL_RGBA`, `GL_FLOAT`. -/
def surface_bytes (buf : Buffer β) : Nat :=
  buf.width * buf.height * (FLOATS_PER_PIXEL * sizeof_float)

/-- The `case glblasMemcpyHostToDevice` of `glblasMemcpy` on the resolved buffer `buf`,
registered at `dst`. -/
def memcpy_h2d (s : Device β) (dst src size : Nat) (buf : Buffer β) : Device β :=
  if buf.is_padded ∨ buf.size ≠ size then
    let staged : Nat → β := fun i => if i < size then s.host (src + i) else s.pbuffer_host i
    { s with
      pbuffer_host := staged
      buffers := store_node s.buffers dst
        { buf with data := fun j => if j < surface_bytes buf then staged j else buf.data j } }
  else
    { s with
      buffers := store_node s.buffers dst
        { buf with data := fun j => if j < surface_bytes buf then s.host (src + j) else buf.data j } }

/-- The `case glblasMemcpyDeviceToHost` of `glblasMemcpy` on the resolved buffer `buf`. -/
def memcpy_d2h (s : Device β) (dst size : Nat) (buf : Buffer β) : Device β :=
  if buf.is_padded ∨ buf.size ≠ size then
    let staged : Nat → β := fun j => if j < surface_bytes buf then buf.data j else s.pbuffer_host j
    { s with
      pbuffer_host := staged
      host := fun a => if dst ≤ a ∧ a < dst + size then staged (a - dst) else s.host a }
  else
    { s with
      host := fun a => if dst ≤ a ∧ a < dst + surface_bytes buf then buf.data (a - dst)
        else s.host a }

/-- The C function `glblasMemcpy`: the status and the state after the call.  After the
inference `kind` is never `glblasMemcpyInfer`, so the last case of the `match` is not
reached; the device-to-device case returns before its (dead) transfer code. -/
def glblasMemcpy (s : Device β) (dst src size : Nat) (kind : glblasMemcpyKind) :
    glblasStatus × Device β :=
  let buf_dst := get_buffer_from_address s dst
  let buf_src := get_buffer_from_address s src
  if kind = .glblasMemcpyInfer ∧ ¬ (buf_dst.isSome ∨ buf_src.isSome) then (.INVALID_VALUE, s)
  else
    let kind :=
      if kind = .glblasMemcpyInfer then
        if buf_dst.isSome ∧ buf_src.isSome then glblasMemcpyKind.glblasMemcpyDeviceToDevice
        else if buf_dst.isNone then glblasMemcpyKind.glblasMemcpyDeviceToHost
        else glblasMemcpyKind.glblasMemcpyHostToDevice
      else kind
    match kind with
    | .glblasMemcpyHostToDevice =>
      match buf_dst with
      | some buf => if size ≤ buf.size then (.SUCCESS, memcpy_h2d s dst src size buf)
        else (.INVALID_VALUE, s)
      | none => (.INVALID_VALUE, s)
    | .glblasMemcpyDeviceToHost =>
      match buf_src with
      | some buf => if size ≤ buf.size then (.SUCCESS, memcpy_d2h s dst size buf)
        else (.INVALID_VALUE, s)
      | none => (.INVALID_VALUE, s)
    | .glblasMemcpyDeviceToDevice => (.NOT_SUPPORTED, s)
    | .glblasMemcpyInfer => (.INVALID_VALUE, s)

end Transfer

/-! ## The buffer registry

The routines above are the arithmetic of the kernels on the surfaces they are handed.
The definitions of this part put them back on the global list `buffers`: a handle is the
address of a node, a routine resolves its handles in the list, allocates its temporaries
at the tail and frees them, and writes the surface it renders into back to its node.
`calloc` is the environment: the address it returns is an argument of the model.  A
routine that casts a handle which is not the address of a live node reads freed memory;
the model has no result (`none`) for such a call, as for a call that `GLBLAS_ASSERT`
aborts. -/

section RegistryModel

variable {β : Type}

/-- The handles of the live buffers, in list order. -/
def Device.addrs (s : Device β) : List Nat := s.buffers.map Prod.fst

/-- The C function `dynarr_alloc` on the list `buffers` (`next_offset = 0`): the node
`node`, which `calloc` placed at `addr`, becomes the root of an empty list and is linked
behind the last node of any other. -/
def dynarr_alloc : List (Nat × Buffer β) → Nat → Buffer β → List (Nat × Buffer β)
  | [], addr, node => [(addr, node)]
  | n :: rest, addr, node => n :: dynarr_alloc rest addr node

/-- The C function `dynarr_free_element` on the list `buffers`: the walk unlinks every
node whose address is `data` and passes it to `free`.  The result is the list after the
walk and the addresses passed to `free`, in order. -/
def dynarr_free_element : List (Nat × Buffer β) → Nat → List (Nat × Buffer β) × List Nat
  | [], _ => ([], [])
  | n :: rest, data =>
    let r := dynarr_free_element rest data
    if n.1 = data then (r.1, n.1 :: r.2) else (n :: r.1, r.2)

/-- The C function `dynarr_free` on the list `buffers`: the addresses it passes to `free`,
in order (the recursion frees the tail of a node before the node).  It does not write the
root pointer. -/
def dynarr_free : List (Nat × Buffer β) → List Nat
  | [] => []
  | n :: rest => dynarr_free rest ++ [n.1]

/-- The node `calloc` returns: every field is zero, there is no surface yet (`init`
stands for it). -/
def calloc_node (init : Nat → β) : Buffer β := ⟨0, 0, 0, false, init⟩

namespace Registry

/-- The C function `glblasMalloc` on the registry.  `dynarr_alloc` links the new node
first; then `GLBLAS_ASSERT` aborts an oversized request, with the node in the list; else
the fields of the node are filled in and its address is returned.  The result is the
returned handle (`none` when the call aborts) and the state at the return or the abort. -/
def glblasMalloc (ctx : Context) (s : Device β) (addr size : Nat) (init : Nat → β) :
    Option Nat × Device β :=
  match GLBLAS.glblasMalloc ctx size init with
  | none => (none, { s with buffers := dynarr_alloc s.buffers addr (calloc_node init) })
  | some buf => (some addr, { s with buffers := dynarr_alloc s.buffers addr buf })

/-- The C function `glblasFree` on the registry (the surface goes with the node). -/
def glblasFree (s : Device β) (buf : Nat) : Device β :=
  { s with buffers := (dynarr_free_element s.buffers buf).1 }

/-- The loop of `glblasDestroy`, `for (buffer = buffers; buffer;) { b = buffer;
buffer = b->next; glblasFree(b); }`.  `chain` is what the walk has still to visit: `b->next`
is read before `b` is freed, and freeing `b` rewrites no link behind `b`, so the walk
visits the nodes the list held at the start.  The second component collects the addresses
passed to `free`. -/
def destroy_loop : List (Nat × Buffer β) → Device β × List Nat → Device β × List Nat
  | [], st => st
  | b :: rest, st =>
    destroy_loop rest (glblasFree st.1 b.1, st.2 ++ (dynarr_free_element st.1.buffers b.1).2)

/-- The C function `glblasDestroy` on the registry: the state after the call and the
addresses passed to `free`, in order.  The closing `dynarr_free` frees what the loop
left. -/
def glblasDestroy (s : Device β) : Device β × List Nat :=
  let st := destroy_loop s.buffers (s, [])
  (st.1, st.2 ++ dynarr_free st.1.buffers)

end Registry

end RegistryModel

section RegistryRoutines

variable {R : Type} [LinearOrderedCommRing R]

/-- A draw into the surface of the node at `target`: `f` is the routine on the resolved
surface. -/
def Device.render (s : Device R) (target : Nat) (f : Buffer R → Buffer R) : Option (Device R) :=
  match get_buffer_from_address s target with
  | some t => some { s with buffers := store_node s.buffers target (f t) }
  | none => none

namespace Registry

/-- The C function `glblasScopy` on the registry. -/
def glblasScopy (wrap : Buffer R → Nat → Nat → Vec4 R) (ctx : Context) (s : Device R) (N : Nat)
    (x incx y incy : Nat) : Option (glblasStatus × Device R) :=
  match get_buffer_from_address s x, get_buffer_from_address s y with
  | some bx, some b =>
    let r := GLBLAS.glblasScopy wrap ctx N bx incx b incy
    some (r.1, { s with buffers := store_node s.buffers y r.2 })
  | _, _ => none

/-- The C function `glblasSswap` on the registry; `calloc` places the temporary at
`addr`. -/
def glblasSswap (wrap : Buffer R → Nat → Nat → Vec4 R) (ctx : Context) (s : Device R)
    (addr : Nat) (init : Nat → R) (N x incx y incy : Nat) : Option (glblasStatus × Device R) :=
  match get_buffer_from_address s x with
  | none => none
  | some _ =>
    match glblasMalloc ctx s addr (N * sizeof_float) init with
    | (none, _) => none
    | (some temp, s1) =>
      (glblasScopy wrap ctx s1 N x 1 temp 1).bind fun r1 =>
      (glblasScopy wrap ctx r1.2 N y incy x incx).bind fun r2 =>
      (glblasScopy wrap ctx r2.2 N temp incx y incy).bind fun r3 =>
      some (.SUCCESS, glblasFree r3.2 temp)

/-- The C function `glblas_sdotv2_mul` on the registry. -/
def glblas_sdotv2_mul (wrap : Buffer R → Nat → Nat → Vec4 R) (ctx : Context) (s : Device R)
    (N x incx y incy : Nat) : Option (Device R) :=
  match get_buffer_from_address s x with
  | none => none
  | some bx => s.render y fun b => GLBLAS.glblas_sdotv2_mul wrap ctx N bx incx b incy

/-- The C function `glblas_sdotv2_sum` on the registry; `calloc` places the temporary at
`addr`. -/
def glblas_sdotv2_sum (wrap : Buffer R → Nat → Nat → Vec4 R) (ctx : Context) (s : Device R)
    (addr : Nat) (init : Nat → R) (N result x incx : Nat) : Option (Device R) :=
  match get_buffer_from_address s x with
  | none => none
  | some bx =>
    let d := get_op_dims N bx ctx
    match glblasMalloc ctx s addr (N * sizeof_float) init with
    | (none, _) => none
    | (some temp, s1) =>
      (glblasScopy wrap ctx s1 N x 1 temp 1).bind fun r1 =>
      (r1.2.render temp fun t => sum_loop
        (fun m t => draw d.2.1 d.2.2 t (fs_sdotv2_sum wrap t incx d.2.1 d.2.2 m))
        (N / 2) (N / 2) t).bind fun s2 =>
      (glblasScopy wrap ctx s2 1 temp 1 result 1).bind fun r3 =>
      some (glblasFree r3.2 temp)

/-- The C function `glblasSdot` on the registry; `calloc` places `savedy` at `addr1` and
the temporary of the summation at `addr2`.  The return inside `IF_NOT_SUCCESS_RETURN`
leaves `savedy` in the list. -/
def glblasSdot (wrap : Buffer R → Nat → Nat → Vec4 R) (ctx : Context) (s : Device R)
    (addr1 addr2 : Nat) (init1 init2 : Nat → R) (N result x incx y incy : Nat) :
    Option (glblasStatus × Device R) :=
  match get_buffer_from_address s y with
  | none => none
  | some _ =>
    match glblasMalloc ctx s addr1 (N * sizeof_float) init1 with
    | (none, _) => none
    | (some savedy, s1) =>
      (glblasScopy wrap ctx s1 N y 1 savedy 1).bind fun c =>
      if c.1 ≠ .SUCCESS then some (c.1, c.2)
      else
        (glblas_sdotv2_mul wrap ctx c.2 N x incx savedy incy).bind fun s2 =>
        (glblas_sdotv2_sum wrap ctx s2 addr2 init2 N result savedy 1).bind fun s3 =>
        some (.SUCCESS, glblasFree s3 savedy)

/-- The C function `glblasSasum` on the registry; `calloc` places the temporary at
`addr`. -/
def glblasSasum (wrap : Buffer R → Nat → Nat → Vec4 R) (ctx : Context) (s : Device R)
    (addr : Nat) (init : Nat → R) (N result x incx : Nat) : Option (glblasStatus × Device R) :=
  match get_buffer_from_address s x with
  | none => none
  | some bx =>
    let d := get_op_dims N bx ctx
    if d.1 ≠ .SUCCESS then some (d.1, s)
    else
      match glblasMalloc ctx s addr (N * sizeof_float) init with
      | (none, _) => none
      | (some temp, s1) =>
        (glblasScopy wrap ctx s1 N x 1 temp 1).bind fun r1 =>
        (r1.2.render temp fun t => sum_loop
          (fun m t => draw d.2.1 d.2.2 t (fs_sasum wrap t incx d.2.1 d.2.2 m))
          (N / 2) (N / 2) t).bind fun s2 =>
        (glblasScopy wrap ctx s2 1 temp 1 result 1).bind fun r3 =>
        some (.SUCCESS, glblasFree r3.2 temp)

/-- The C function `glblas_sgemm4x4_reorder` on the registry. -/
def glblas_sgemm4x4_reorder (wrap : Buffer R → Nat → Nat → Vec4 R) (ctx : Context)
    (s : Device R) (N x y : Nat) : Option (Device R) :=
  match get_buffer_from_address s x with
  | none => none
  | some bx => s.render y fun b => GLBLAS.glblas_sgemm4x4_reorder wrap ctx N bx b

/-- The C function `glblasSgemm4x4` on the registry; `calloc` places `reordered_a` at
`addra` and `reordered_b` at `addrb`.  The two status checks come before any handle is
resolved. -/
def glblasSgemm4x4 (wrap : Buffer R → Nat → Nat → Vec4 R) (ctx : Context) (s : Device R)
    (addra addrb : Nat) (inita initb : Nat → R) (transa transb : glblasOperation)
    (M N K : Int) (alpha : R) (a : Nat) (lda : Int) (b : Nat) (ldb : Int) (beta : R)
    (c : Nat) (ldc : Int) : Option (glblasStatus × Device R) :=
  match sgemm4x4_check transa transb M N K lda ldb ldc with
  | some st => some (st, s)
  | none =>
    match get_buffer_from_address s c with
    | none => none
    | some bc =>
      let d := get_op_dims (M * N).toNat bc ctx
      if d.1 ≠ .SUCCESS then some (d.1, s)
      else
        let ra : Option (Option Nat × Device R) :=
          if transa.toBool then some (none, s)
          else match glblasMalloc ctx s addra ((M * K).toNat * sizeof_float) inita with
            | (none, _) => none
            | (some t, s1) => some (some t, s1)
        ra.bind fun ra =>
        let rb : Option (Option Nat × Device R) :=
          if transb.toBool then
            match glblasMalloc ctx ra.2 addrb ((K * N).toNat * sizeof_float) initb with
            | (none, _) => none
            | (some t, s1) => some (some t, s1)
          else some (none, ra.2)
        rb.bind fun rb =>
        let s3 : Option (Device R) := match ra.1 with
          | some t => glblas_sgemm4x4_reorder wrap ctx rb.2 (M * K).toNat a t
          | none => some rb.2
        s3.bind fun s3 =>
        let s4 : Option (Device R) := match rb.1 with
          | some t => glblas_sgemm4x4_reorder wrap ctx s3 (K * N).toNat b t
          | none => some s3
        s4.bind fun s4 =>
        let u_a := ra.1.getD a
        let u_b := rb.1.getD b
        match get_buffer_from_address s4 u_a, get_buffer_from_address s4 u_b with
        | some ba, some bb =>
          (s4.render c fun bc => draw d.2.1 d.2.2 bc
            (fs_sgemm4x4 wrap ba bb bc lda.toNat ldb.toNat transa.toBool transb.toBool alpha
              beta d.2.1 ba.width bb.height M.toNat K.toNat (M * N).toNat)).bind fun s5 =>
          let s6 := match ra.1 with
            | some t => glblasFree s5 t
            | none => s5
          let s7 := match rb.1 with
            | some t => glblasFree s6 t
            | none => s6
          some (.SUCCESS, s7)
        | _, _ => none

end Registry

end RegistryRoutines

/-! ## The pass schedule of the reductions -/

/-- The `max_index` values of the passes the reduction loop of `glblasSasum` and
`glblas_sdotv2_sum` issues when entered with `tN`, in order: the loop run with a pass that
records its `max_index`. -/
def pass_trace (fuel tN : Nat) : List Nat := sum_loop (fun m l => l ++ [m]) fuel tN []

/-! ## The coordinate mapper at the widths of the C types

`get_texture_dimensions` above computes with unbounded natural numbers.  The definitions
of this part give the function at the widths of an LP64 platform: `size_t` is 64 bits wide
and its arithmetic wraps, `int` is 32 bits wide, and the conversion of a `size_t` value
that an `int` cannot hold keeps the low 32 bits (implementation-defined in C; what GCC and
Clang do). -/

namespace Machine

/-- The value of `(int)v` for a `size_t` value `v`: the low 32 bits, two's complement. -/
def to_int (v : Nat) : Int := ((v : Int) + 2 ^ 31) % 2 ^ 32 - 2 ^ 31

/-- The value of `(size_t)i` for an `int` value `i`. -/
def to_size_t (i : Int) : Nat := (i % 2 ^ 64).toNat

/-- The C function `get_texture_dimensions` with `size_t size`, `int max_width`,
`int max_height`, `int *out_width`, `int *out_height`: status, `*out_width`, `*out_height`
and `*is_padded`.  In `count <= max_width` and in `(count + max_width - 1) / max_width` the
`int` operand is converted to `size_t`, the two assignments convert the `size_t` result to
`int`, and the closing test compares `int`s.  The second division is reached with
`count ≥ 1` only; for `max_width = 0` it is a division by zero, undefined in C and 0 here. -/
def get_texture_dimensions (size : Nat) (max_width max_height : Int) :
    glblasStatus × Int × Int × Bool :=
  let count := (size % 2 ^ 64 + (FLOATS_PER_PIXEL * sizeof_float) - 1) % 2 ^ 64
    / (FLOATS_PER_PIXEL * sizeof_float)
  let is_padded := decide (f32_of_nat (size % 2 ^ 64) % (FLOATS_PER_PIXEL * sizeof_float) ≠ 0)
  if count ≤ to_size_t max_width then (.SUCCESS, to_int count, 1, is_padded)
  else
    let out_width := max_width
    let out_height := to_int ((count + to_size_t max_width - 1) % 2 ^ 64 / to_size_t max_width)
    (if out_width ≤ max_width ∧ out_height ≤ max_height then .SUCCESS else .DIMENSION_OVERFLOW,
      out_width, out_height, is_padded)

end Machine

/-! ## Concrete inputs -/

/-- The device vector a host obtains from `glblasMalloc(ctx, 4·|l|)` followed by an upload
of `l`, with float values in `ℤ`; cells past the data hold 0. -/
def device_vector (ctx : Context) (l : List Int) : Buffer Int :=
  let d := get_texture_dimensions (l.length * sizeof_float) ctx.pbuffer_width ctx.pbuffer_height
  ⟨l.length * sizeof_float, d.2.1, d.2.2.1, d.2.2.2, fun e => l.getD e 0⟩

/-- The context of `demos/sdot.c`: `glblasCreate(&ctx, 16, 16)`. -/
def ctx16 : Context := ⟨16, 16⟩

/-- A small context, `glblasCreate(&ctx, 2, 2)`: at most 2 pixels a row, so a vector of
more than 8 floats takes several rows. -/
def ctx2 : Context := ⟨2, 2⟩

/-- What the fresh temporaries of the concrete runs hold (any value would do). -/
def zero_init : Nat → Int := fun _ => 0

/-- Fresh temporaries that hold 5 in every cell. -/
def five_init : Nat → Int := fun _ => 5

/-- The context of `demos/sgemm.c`: `glblasCreate(&ctx, 128, 128)`. -/
def ctx128 : Context := ⟨128, 128⟩

/-- The 4x4 identity, column-major. -/
def ident4 : List Int := [1, 0, 0, 0, 0, 1, 0, 0, 0, 0, 1, 0, 0, 0, 0, 1]

/-- The 4x4 matrix with entries 1..16, column-major. -/
def iota16 : List Int := [1, 2, 3, 4, 5, 6, 7, 8, 9, 10, 11, 12, 13, 14, 15, 16]

/-- Sixteen zeros. -/
def zeros16 : List Int := [0, 0, 0, 0, 0, 0, 0, 0, 0, 0, 0, 0, 0, 0, 0, 0]

/-- The vector 1..12. -/
def iota12 : List Int := [1, 2, 3, 4, 5, 6, 7, 8, 9, 10, 11, 12]

/-- The vector 13..24. -/
def iota12b : List Int := [13, 14, 15, 16, 17, 18, 19, 20, 21, 22, 23, 24]

/-- Twelve zeros. -/
def zeros12 : List Int := [0, 0, 0, 0, 0, 0, 0, 0, 0, 0, 0, 0]

/-- Specification of GEMM, in the words of the claim: the value of `C[idx]` after
`C ← α·op(A)·op(B) + β·C`, with `row = idx mod M`, `col = idx / M`,
`opA(i,l) = A[i + l·lda]` (N) or `A[l + i·lda]` (T) and
`opB(l,j) = B[l + j·ldb]` (N) or `B[j + l·ldb]` (T). -/
def sgemm_spec (transa transb : Bool) (M K : Nat) (alpha : Int) (A : Nat → Int) (lda : Nat)
    (B : Nat → Int) (ldb : Nat) (beta : Int) (C_old : Nat → Int) (idx : Nat) : Int :=
  let row := idx % M
  let col := idx / M
  let opA := fun i l => if transa then A (l + i * lda) else A (i + l * lda)
  let opB := fun l j => if transb then B (j + l * ldb) else B (l + j * ldb)
  alpha * ((List.range K).map fun l => opA row l * opB l col).sum + beta * C_old idx

/-- A transfer state with one live buffer of 20 bytes (2 pixels, padded) at address 4096;
host byte `a` holds `a % 256`. -/
def dev0 : Device Nat :=
  ⟨[(4096, ⟨20, 2, 1, true, fun _ => 0⟩)], fun _ => 0, fun a => a % 256⟩

/-- A state with three live buffers of 16 floats on the 16 by 16 context: the identity at
4096, the matrix 1..16 at 8192 and zeros at 12288. -/
def dev_blas : Device Int :=
  ⟨[(4096, device_vector ctx16 ident4), (8192, device_vector ctx16 iota16),
    (12288, device_vector ctx16 zeros16)], zero_init, zero_init⟩

/-- Eight numbers, 1..8. -/
def iota8 : List Int := [1, 2, 3, 4, 5, 6, 7, 8]

/-- The numbers 1..64: an 8 by 8 matrix, column-major. -/
def iota64 : List Int := (List.range 64).map fun i => (i : Int) + 1

/-- Sixty-four zeros. -/
def zeros64 : List Int := List.replicate 64 0

/-- A transfer state on the 2 by 2 context with one live buffer of 48 bytes at 4096, as
`glblasMalloc(ctx, 48)` shapes it (3 pixels, so 2 by 2, not padded); device byte `j` holds
`j + 1`, the staging area holds zeros and host byte `a` holds `a % 256`. -/
def dev_rows : Device Nat :=
  ⟨[(4096, ⟨48, 2, 2, false, fun j => j + 1⟩)], fun _ => 0, fun a => a % 256⟩

/-- A transfer state with one live buffer of 32 bytes (2 pixels, not padded) at 4096 whose
bytes all hold 7; the staging area holds zeros, as `glblasCreate` leaves it (`calloc`),
and host byte `a` holds `a % 256`. -/
def dev_partial : Device Nat :=
  ⟨[(4096, ⟨32, 2, 1, false, fun _ => 7⟩)], fun _ => 0, fun a => a % 256⟩

/-- The 8 by 8 identity, column-major. -/
def ident8 : List Int := (List.range 64).map fun i => if i / 8 = i % 8 then 1 else 0

/-! ## Sampling and rasterisation lemmas -/

section SamplingLemmas

variable {R : Type}

theorem Vec4.lane_build (f : Nat → R) (l : Nat) (h : l < 4) : (Vec4.build f).lane l = f l := by
  interval_cases l <;> rfl

theorem texel_lane (t : Buffer R) (p l : Nat) (h : l < 4) :
    (texel t p).lane l = t.data (4 * p + l) := by
  interval_cases l <;> rfl

theorem texel_lane_mod (t : Buffer R) (e : Nat) :
    (texel t (e / 4)).lane (e % 4) = t.data e := by
  rw [texel_lane t (e / 4) (e % 4) (Nat.mod_lt _ (by norm_num)), Nat.div_add_mod]

theorem texture_inside (wrap : Buffer R → Nat → Nat → Vec4 R) (t : Buffer R) (un ud vn vd : Nat)
    (hc : un * t.width / ud < t.width) (hr : vn * t.height / vd < t.height) :
    texture wrap t un ud vn vd = texel t (vn * t.height / vd * t.width + un * t.width / ud) := by
  simp only [texture, hc, hr, and_self, if_true]

theorem centre_div (x w : Nat) (h : x < w) : (2 * x + 1) * w / (2 * w) = x := by
  apply Nat.div_eq_of_lt_le
  · nlinarith
  · nlinarith

/-- A fragment of a draw whose viewport is the shape of `t` reads its own pixel of `t`
with `texture(t, TexCoord)`. -/
theorem textureAt_own (wrap : Buffer R → Nat → Nat → Vec4 R) (t : Buffer R) (f : Frag)
    (hw : f.vw = t.width) (hh : f.vh = t.height) (hx : f.x < t.width) (hy : f.y < t.height) :
    textureAt wrap t f = texel t (f.y * t.width + f.x) := by
  unfold textureAt
  rw [hw, hh, texture_inside]
  · rw [centre_div _ _ hx, centre_div _ _ hy]
  · rw [centre_div _ _ hx]; exact hx
  · rw [centre_div _ _ hy]; exact hy

/-- The fetch by pixel index reads pixel `q` of a surface whose shape is `dims`. -/
theorem texturePixel_own (wrap : Buffer R → Nat → Nat → Vec4 R) (t : Buffer R) (q : Nat)
    (hq : q < t.width * t.height) :
    texturePixel wrap t q t.width t.height = texel t q := by
  have hW : 0 < t.width := Nat.pos_of_ne_zero (by rintro h; simp [h] at hq)
  have hH : 0 < t.height := Nat.pos_of_ne_zero (by rintro h; simp [h] at hq)
  have hrow : q / t.width < t.height := by
    rw [Nat.div_lt_iff_lt_mul hW]; rwa [Nat.mul_comm] at hq
  unfold texturePixel
  rw [texture_inside]
  · rw [Nat.mul_div_cancel _ hW, Nat.mul_div_cancel _ hH, Nat.div_add_mod']
  · rw [Nat.mul_div_cancel _ hW]; exact Nat.mod_lt _ hW
  · rw [Nat.mul_div_cancel _ hH]; exact hrow

theorem draw_data_inside (vw vh : Nat) (out : Buffer R) (fs : Frag → Vec4 R) (e : Nat)
    (hx : e / 4 % out.width < vw) (hy : e / 4 / out.width < vh)
    (hh : e / 4 / out.width < out.height) :
    (draw vw vh out fs).data e
      = (fs ⟨e / 4 % out.width, e / 4 / out.width, vw, vh⟩).lane (e % 4) := by
  simp only [draw, hx, hy, hh, and_self, if_true]

theorem draw_data_outside (vw vh : Nat) (out : Buffer R) (fs : Frag → Vec4 R) (e : Nat)
    (h : ¬ (e / 4 % out.width < vw ∧ e / 4 / out.width < vh ∧ e / 4 / out.width < out.height)) :
    (draw vw vh out fs).data e = out.data e := by
  simp only [draw, h, if_false]

@[simp] theorem draw_width (vw vh : Nat) (out : Buffer R) (fs : Frag → Vec4 R) :
    (draw vw vh out fs).width = out.width := rfl

@[simp] theorem draw_height (vw vh : Nat) (out : Buffer R) (fs : Frag → Vec4 R) :
    (draw vw vh out fs).height = out.height := rfl

@[simp] theorem draw_size (vw vh : Nat) (out : Buffer R) (fs : Frag → Vec4 R) :
    (draw vw vh out fs).size = out.size := rfl

theorem get_op_dims_full {α : Type} (N : Nat) (dev : Buffer α) (ctx : Context)
    (h : N = dev.size / sizeof_float) :
    get_op_dims N dev ctx = (.SUCCESS, dev.width, dev.height) := by
  simp only [get_op_dims, h, if_true]

theorem get_op_dims_status {α : Type} (N : Nat) (dev : Buffer α) (ctx : Context) :
    (get_op_dims N dev ctx).1 = .SUCCESS := by
  unfold get_op_dims
  split <;> rfl

theorem xindex_of_unit (i : Nat) : xindex_of i 1 1 = i := by
  simp [xindex_of]

/-- Unit-stride copy on a one-row surface: element `e < N` of `y` becomes element `e`
of `x`, when `y` holds exactly `N` elements and `x` has the shape of `y`. -/
theorem glblasScopy_row (wrap : Buffer R → Nat → Nat → Vec4 R) (ctx : Context) (N : Nat)
    (x y : Buffer R) (hsz : N = y.size / sizeof_float) (hyh : y.height = 1)
    (hxw : x.width = y.width) (hxh : x.height = 1) (hN : N ≤ 4 * y.width)
    (e : Nat) (he : e < N) :
    (glblasScopy wrap ctx N x 1 y 1).2.data e = x.data e := by
  have hp : e / 4 < y.width := by omega
  have hmod : e / 4 % y.width = e / 4 := Nat.mod_eq_of_lt hp
  have hdiv : e / 4 / y.width = 0 := Nat.div_eq_of_lt hp
  have hidx : 0 * y.width + e / 4 * 4 + e % 4 = e := by omega
  simp only [glblasScopy, get_op_dims_full N y ctx hsz, ne_eq, not_true_eq_false, if_false]
  rw [draw_data_inside _ _ _ _ _ (by rw [hmod]; exact hp) (by rw [hdiv, hyh]; norm_num)
    (by rw [hdiv, hyh]; norm_num)]
  simp only [fs_scopyv2, hmod, hdiv, frag_index]
  rw [Vec4.lane_build _ _ (Nat.mod_lt _ (by norm_num)), hidx]
  simp only [he, Nat.mod_one, and_self, if_true, xindex_of_unit]
  have := texturePixel_own wrap x (e / 4) (by rw [hxw, hxh]; omega)
  rw [hxw, hxh] at this
  rw [hyh, this, texel_lane_mod]

theorem sum_loop_zero {β : Type} (pass : Nat → β → β) (fuel : Nat) (t : β) :
    sum_loop pass fuel 0 t = t := by
  cases fuel <;> simp [sum_loop]

theorem sum_loop_step {β : Type} (pass : Nat → β → β) (fuel tN : Nat) (t : β) (h : 4 ≤ tN) :
    sum_loop pass (fuel + 1) tN t = sum_loop pass fuel (tN / 2) (pass tN t) := by
  have h0 : tN ≠ 0 := by omega
  have h4 : ¬ tN < 4 := by omega
  simp [sum_loop, h0, h4]

theorem sum_loop_last {β : Type} (pass : Nat → β → β) (fuel tN : Nat) (t : β)
    (h0 : 0 < tN) (h : tN < 4) :
    sum_loop pass (fuel + 1) tN t = pass 1 t := by
  have h0 : tN ≠ 0 := by omega
  simp [sum_loop, h0, h, sum_loop_zero]

/-- The loop does not depend on its fuel once the fuel is at least `tN`: every pass makes
`tN` smaller, so the definition never stops early in the routines, which enter it with
fuel `N / 2 = tN`. -/
theorem sum_loop_fuel {β : Type} (pass : Nat → β → β) (fuel : Nat) :
    ∀ (fuel2 tN : Nat) (t : β), tN ≤ fuel → tN ≤ fuel2 →
      sum_loop pass fuel tN t = sum_loop pass fuel2 tN t := by
  induction fuel with
  | zero =>
    intro fuel2 tN t h1 _
    have h0 : tN = 0 := by omega
    rw [h0, sum_loop_zero, sum_loop_zero]
  | succ f ih =>
    intro fuel2 tN t h1 h2
    by_cases h0 : tN = 0
    · rw [h0, sum_loop_zero, sum_loop_zero]
    · obtain ⟨g, rfl⟩ : ∃ g, fuel2 = g + 1 := ⟨fuel2 - 1, by omega⟩
      simp only [sum_loop, h0, if_false]
      apply ih
      · split <;> omega
      · split <;> omega

theorem glblasMalloc_row {α : Type} (ctx : Context) (P : Nat) (init : Nat → α)
    (hP : P ≤ ctx.pbuffer_width) (hh : 0 < ctx.pbuffer_height) :
    glblasMalloc ctx (4 * P * sizeof_float) init
      = some ⟨4 * P * sizeof_float, P, 1,
          decide (f32_of_nat (4 * P * sizeof_float) % (FLOATS_PER_PIXEL * sizeof_float) ≠ 0),
          init⟩ := by
  have hsz : 4 * P * sizeof_float
      ≤ ctx.pbuffer_width * ctx.pbuffer_height * sizeof_float * FLOATS_PER_PIXEL := by
    have : P * 1 ≤ ctx.pbuffer_width * ctx.pbuffer_height := Nat.mul_le_mul hP hh
    simp only [sizeof_float, FLOATS_PER_PIXEL]
    omega
  have hc : (4 * P * sizeof_float + FLOATS_PER_PIXEL * sizeof_float - 1)
      / (FLOATS_PER_PIXEL * sizeof_float) = P := by
    simp only [sizeof_float, FLOATS_PER_PIXEL]
    omega
  simp only [glblasMalloc, hsz, if_true, get_texture_dimensions, hc, hP]

theorem scopy_first_aux (wrap : Buffer R → Nat → Nat → Vec4 R) (x y : Buffer R) (vw vh : Nat)
    (hvw : 0 < vw) (hvh : 0 < vh) (hxw : 0 < x.width) (hxh : 0 < x.height)
    (hyh : 0 < y.height) :
    (draw vw vh y (fs_scopyv2 wrap x y 1 1 vw vh 1)).data 0 = x.data 0 := by
  rw [draw_data_inside _ _ _ _ _ (by simpa using hvw) (by simpa using hvh) (by simpa using hyh)]
  simp only [Nat.zero_div, Nat.zero_mod]
  rw [Vec4.lane]
  simp only [fs_scopyv2, Vec4.build, frag_index, Nat.zero_mul, Nat.add_zero, Nat.lt_one_iff,
    Nat.mod_one, and_self, if_true, xindex_of_unit, Nat.zero_div, Nat.zero_mod, texturePixel]
  rw [texture_inside _ _ _ _ _ _ (by simpa using hxw) (by simpa using hxh)]
  simp [texel, Vec4.lane]

/-- `glblasScopy(1, x, 1, y, 1)` puts element 0 of `x` into element 0 of `y`. -/
theorem glblasScopy_first (wrap : Buffer R → Nat → Nat → Vec4 R) (ctx : Context)
    (x y : Buffer R) (hpw : 0 < ctx.pbuffer_width) (hxw : 0 < x.width) (hxh : 0 < x.height)
    (hyw : 0 < y.width) (hyh : 0 < y.height) :
    (glblasScopy wrap ctx 1 x 1 y 1).2.data 0 = x.data 0 := by
  simp only [glblasScopy, get_op_dims_status, ne_eq, not_true_eq_false, if_false]
  by_cases h : 1 = y.size / sizeof_float
  · rw [get_op_dims_full 1 y ctx h]
    exact scopy_first_aux wrap x y _ _ hyw hyh hxw hxh hyh
  · have hd : get_op_dims 1 y ctx = (.SUCCESS, 1, 1) := by
      have h1 : 1 ≤ ctx.pbuffer_width := hpw
      rw [get_op_dims, if_neg h]
      simp [get_texture_dimensions, sizeof_float, FLOATS_PER_PIXEL, h1]
    rw [hd]
    exact scopy_first_aux wrap x y 1 1 (by norm_num) (by norm_num) hxw hxh hyh

theorem sum_loop_width (pass : Nat → Buffer R → Buffer R)
    (hp : ∀ m t, (pass m t).width = t.width) (fuel : Nat) :
    ∀ (tN : Nat) (t : Buffer R), (sum_loop pass fuel tN t).width = t.width := by
  induction fuel with
  | zero => intro tN t; rfl
  | succ f ih =>
    intro tN t
    simp only [sum_loop]
    split
    · rfl
    · rw [ih, hp]

theorem sum_loop_height (pass : Nat → Buffer R → Buffer R)
    (hp : ∀ m t, (pass m t).height = t.height) (fuel : Nat) :
    ∀ (tN : Nat) (t : Buffer R), (sum_loop pass fuel tN t).height = t.height := by
  induction fuel with
  | zero => intro tN t; rfl
  | succ f ih =>
    intro tN t
    simp only [sum_loop]
    split
    · rfl
    · rw [ih, hp]

theorem two_pow_ge (j : Nat) : j + 2 ≤ 4 * 2 ^ j := by
  induction j with
  | zero => norm_num
  | succ j ih => rw [pow_succ]; omega

/-- `glblasMalloc` of a size that fits one row: the surface is `⌈size/16⌉` pixels wide. -/
theorem glblasMalloc_one_row {α : Type} (ctx : Context) (size : Nat) (init : Nat → α)
    (hP : (size + 15) / 16 ≤ ctx.pbuffer_width) (hh : 0 < ctx.pbuffer_height) :
    glblasMalloc ctx size init
      = some ⟨size, (size + 15) / 16, 1,
          decide (f32_of_nat size % (FLOATS_PER_PIXEL * sizeof_float) ≠ 0), init⟩ := by
  have hsz : size ≤ ctx.pbuffer_width * ctx.pbuffer_height * sizeof_float * FLOATS_PER_PIXEL := by
    have : (size + 15) / 16 * 1 ≤ ctx.pbuffer_width * ctx.pbuffer_height := Nat.mul_le_mul hP hh
    simp only [sizeof_float, FLOATS_PER_PIXEL]
    omega
  have hc : (size + FLOATS_PER_PIXEL * sizeof_float - 1) / (FLOATS_PER_PIXEL * sizeof_float)
      = (size + 15) / 16 := by
    simp only [sizeof_float, FLOATS_PER_PIXEL]
    omega
  simp only [glblasMalloc, hsz, if_true, get_texture_dimensions, hc, hP]

/-- Unit-stride swap on one-row surfaces: when `x` and `y` hold exactly `N` elements in one
row, `x` ends with the elements of `y` and `y` with the elements of `x`. -/
theorem glblasSswap_row (wrap : Buffer R → Nat → Nat → Vec4 R) (ctx : Context)
    (init : Nat → R) (N : Nat) (x y : Buffer R)
    (hrow : (N + 3) / 4 ≤ ctx.pbuffer_width) (hph : 0 < ctx.pbuffer_height)
    (hxs : x.size = 4 * N) (hxw : x.width = (N + 3) / 4) (hxh : x.height = 1)
    (hys : y.size = 4 * N) (hyw : y.width = (N + 3) / 4) (hyh : y.height = 1) :
    ∀ e, e < N →
      (glblasSswap wrap ctx init N x 1 y 1).map (fun r => (r.1, r.2.1.data e, r.2.2.data e))
        = some (.SUCCESS, y.data e, x.data e) := by
  intro e he
  have hm := glblasMalloc_one_row ctx (N * sizeof_float) init
    (by simp only [sizeof_float]; omega) hph
  have hw : (N * sizeof_float + 15) / 16 = (N + 3) / 4 := by simp only [sizeof_float]; omega
  rw [hw] at hm
  have hfull : N = y.size / sizeof_float := by simp only [sizeof_float]; omega
  simp only [glblasSswap, hm, Option.map_some', Option.some.injEq, Prod.mk.injEq, true_and]
  constructor
  · exact glblasScopy_row wrap ctx N y x (by simp only [sizeof_float]; omega) hxh
      (by rw [hxw, hyw]) hyh (by omega) e he
  · rw [glblasScopy_row wrap ctx N _ y hfull hyh
      (by simp only [glblasScopy, get_op_dims_status, ne_eq, not_true_eq_false, if_false,
        draw_width, hyw])
      (by simp only [glblasScopy, get_op_dims_status, ne_eq, not_true_eq_false, if_false,
        draw_height])
      (by omega) e he]
    exact glblasScopy_row wrap ctx N x _ (by simp [sizeof_float]) rfl
      (by rw [hxw]) hxh (by simp only; omega) e he

theorem glblasScopy_width (wrap : Buffer R → Nat → Nat → Vec4 R) (ctx : Context) (N : Nat)
    (x y : Buffer R) (incx incy : Nat) :
    (glblasScopy wrap ctx N x incx y incy).2.width = y.width := by
  simp only [glblasScopy, get_op_dims_status, ne_eq, not_true_eq_false, if_false, draw_width]

theorem glblasScopy_height (wrap : Buffer R → Nat → Nat → Vec4 R) (ctx : Context) (N : Nat)
    (x y : Buffer R) (incx incy : Nat) :
    (glblasScopy wrap ctx N x incx y incy).2.height = y.height := by
  simp only [glblasScopy, get_op_dims_status, ne_eq, not_true_eq_false, if_false, draw_height]

theorem glblasScopy_size (wrap : Buffer R → Nat → Nat → Vec4 R) (ctx : Context) (N : Nat)
    (x y : Buffer R) (incx incy : Nat) :
    (glblasScopy wrap ctx N x incx y incy).2.size = y.size := by
  simp only [glblasScopy, get_op_dims_status, ne_eq, not_true_eq_false, if_false, draw_size]

theorem glblasScopy_status (wrap : Buffer R → Nat → Nat → Vec4 R) (ctx : Context) (N : Nat)
    (x y : Buffer R) (incx incy : Nat) :
    (glblasScopy wrap ctx N x incx y incy).1 = .SUCCESS := by
  simp only [glblasScopy, get_op_dims_status, ne_eq, not_true_eq_false, if_false]

end SamplingLemmas

section KernelLemmas

variable {R : Type} [LinearOrderedCommRing R]

theorem Vec4.lane_abs (v : Vec4 R) (l : Nat) : v.abs.lane l = |v.lane l| := by
  rcases l with _ | _ | _ | _ | l <;> rfl

theorem sasum_pass_mid (wrap : Buffer R → Nat → Nat → Vec4 R) (P m : Nat) (t : Buffer R)
    (hw : t.width = P) (hh : t.height = 1) (hm : 4 ≤ m) (e : Nat) (he : e / 4 < m / 4)
    (hin : e / 4 + m / 4 < P) :
    (draw P 1 t (fs_sasum wrap t 1 P 1 m)).data e = |t.data e| + |t.data (e + 4 * (m / 4))| := by
  have hp : e / 4 < t.width := by omega
  have hmod : e / 4 % t.width = e / 4 := Nat.mod_eq_of_lt hp
  have hdiv : e / 4 / t.width = 0 := Nat.div_eq_of_lt hp
  rw [draw_data_inside _ _ _ _ _ (by rw [hmod, ← hw]; exact hp) (by rw [hdiv]; norm_num)
    (by rw [hdiv, hh]; norm_num)]
  have hm1 : m ≠ 1 := by omega
  have hle : ¬ (0 * P + e / 4 > m / 4) := by omega
  have hl : ¬ (0 * P + e / 4 + e % 4 > m ∨ (0 * P + e / 4 + e % 4) % 1 ≠ 0) := by
    rw [Nat.mod_one]; omega
  simp only [fs_sasum, hmod, hdiv, hm1, if_false, hle]
  rw [Vec4.lane_build _ _ (Nat.mod_lt _ (by norm_num))]
  simp only [hl, if_false, Vec4.lane_abs, Nat.div_one]
  have h1 := texturePixel_own wrap t (0 * P + e / 4 + m / 4) (by rw [hw, hh]; omega)
  rw [hw, hh] at h1
  have h2 := textureAt_own wrap t ⟨e / 4, 0, P, 1⟩ hw.symm hh.symm hp (by rw [hh]; norm_num)
  rw [h1, h2]
  simp only [Nat.zero_mul, Nat.zero_add]
  rw [texel_lane_mod, texel_lane _ _ _ (Nat.mod_lt _ (by norm_num))]
  have : 4 * (e / 4 + m / 4) + e % 4 = e + 4 * (m / 4) := by omega
  rw [this, add_comm]

theorem sasum_pass_final (wrap : Buffer R → Nat → Nat → Vec4 R) (P : Nat) (t : Buffer R)
    (hw : t.width = P) (hh : t.height = 1) (hP : 0 < P) :
    (draw P 1 t (fs_sasum wrap t 1 P 1 1)).data 0
      = |t.data 0| + |t.data 1| + |t.data 2| + |t.data 3| := by
  have hp : 0 < t.width := by omega
  rw [draw_data_inside _ _ _ _ _ (by simpa using hP) (by simp) (by simp [hh])]
  have h2 := textureAt_own wrap t ⟨0, 0, P, 1⟩ hw.symm hh.symm hp (by rw [hh]; norm_num)
  simp only [Nat.zero_div, Nat.zero_mod] at *
  simp only [fs_sasum, if_true, h2, Nat.zero_mul, Nat.add_zero]
  rfl

theorem sum_range_fold (f : Nat → R) (n : Nat) :
    ∑ e in Finset.range (2 * n), f e = ∑ e in Finset.range n, (f e + f (e + n)) := by
  rw [two_mul, Finset.sum_range_add, Finset.sum_add_distrib]
  congr 1
  apply Finset.sum_congr rfl
  intro e _
  rw [add_comm]

theorem sasum_loop_sum (wrap : Buffer R → Nat → Nat → Vec4 R) (P : Nat) (j : Nat) :
    ∀ (fuel : Nat) (t : Buffer R), t.width = P → t.height = 1 → 2 ^ (j + 1) ≤ P →
      j + 2 ≤ fuel →
      (sum_loop (fun m t => draw P 1 t (fs_sasum wrap t 1 P 1 m)) fuel (4 * 2 ^ j) t).data 0
        = ∑ e in Finset.range (8 * 2 ^ j), |t.data e| := by
  induction j with
  | zero =>
    intro fuel t hw hh hP hf
    obtain ⟨f, rfl⟩ : ∃ f, fuel = f + 2 := ⟨fuel - 2, by omega⟩
    rw [sum_loop_step _ _ _ _ (by norm_num), sum_loop_last _ _ _ _ (by norm_num) (by norm_num)]
    rw [sasum_pass_final wrap P _ (by simpa using hw) (by simpa using hh) (by simp at hP; omega)]
    have hm : ∀ e, e < 4 → (draw P 1 t (fs_sasum wrap t 1 P 1 (4 * 2 ^ 0))).data e
        = |t.data e| + |t.data (e + 4)| := by
      intro e he
      have := sasum_pass_mid wrap P (4 * 2 ^ 0) t hw hh (by norm_num) e (by norm_num; omega)
        (by norm_num at hP ⊢; omega)
      simpa using this
    rw [hm 0 (by norm_num), hm 1 (by norm_num), hm 2 (by norm_num), hm 3 (by norm_num)]
    have habs : ∀ a b : R, |(|a| + |b|)| = |a| + |b| := fun a b =>
      abs_of_nonneg (add_nonneg (abs_nonneg a) (abs_nonneg b))
    simp only [habs]
    simp [Finset.sum_range_succ]
    ring
  | succ j ih =>
    intro fuel t hw hh hP hf
    obtain ⟨f, rfl⟩ : ∃ f, fuel = f + 1 := ⟨fuel - 1, by omega⟩
    have hpos : 0 < 2 ^ j := Nat.pow_pos (by norm_num)
    have e1 : 2 ^ (j + 1) = 2 * 2 ^ j := by ring
    have e2 : 2 ^ (j + 1 + 1) = 4 * 2 ^ j := by ring
    rw [sum_loop_step _ _ _ _ (by omega)]
    have hhalf : 4 * 2 ^ (j + 1) / 2 = 4 * 2 ^ j := by omega
    rw [hhalf, ih f _ (by simpa using hw) (by simpa using hh) (by omega) (by omega)]
    have hm : ∀ e, e ∈ Finset.range (8 * 2 ^ j) →
        |(draw P 1 t (fs_sasum wrap t 1 P 1 (4 * 2 ^ (j + 1)))).data e|
          = |t.data e| + |t.data (e + 8 * 2 ^ j)| := by
      intro e he
      rw [Finset.mem_range] at he
      have hq : 4 * 2 ^ (j + 1) / 4 = 2 * 2 ^ j := by omega
      have := sasum_pass_mid wrap P (4 * 2 ^ (j + 1)) t hw hh (by omega) e (by omega) (by omega)
      rw [this, hq, abs_of_nonneg (add_nonneg (abs_nonneg (t.data e)) (abs_nonneg _))]
      congr 3
      ring
    rw [Finset.sum_congr rfl hm]
    have : 8 * 2 ^ (j + 1) = 2 * (8 * 2 ^ j) := by ring
    rw [this, sum_range_fold]

/-- Scaling on a one-row surface that holds exactly `N` elements: every element `e < N`
with `e mod incx = 0` is multiplied by `alpha`, the other elements below `N` are kept. -/
theorem glblasSscal_row (wrap : Buffer R → Nat → Nat → Vec4 R) (ctx : Context) (N : Nat)
    (alpha : R) (x : Buffer R) (incx : Nat) (hsz : N = x.size / sizeof_float)
    (hxh : x.height = 1) (hN : N ≤ 4 * x.width) (e : Nat) (he : e < N) :
    (glblasSscal wrap ctx N alpha x incx).2.data e
      = if e % incx = 0 then x.data e * alpha else x.data e := by
  have hp : e / 4 < x.width := by omega
  have hmod : e / 4 % x.width = e / 4 := Nat.mod_eq_of_lt hp
  have hdiv : e / 4 / x.width = 0 := Nat.div_eq_of_lt hp
  have hidx : 0 * x.width + e / 4 * 4 + e % 4 = e := by omega
  simp only [glblasSscal, get_op_dims_full N x ctx hsz, ne_eq, not_true_eq_false, if_false]
  rw [draw_data_inside _ _ _ _ _ (by rw [hmod]; exact hp) (by rw [hdiv, hxh]; norm_num)
    (by rw [hdiv, hxh]; norm_num)]
  simp only [fs_sscal, hmod, hdiv, frag_index]
  rw [Vec4.lane_build _ _ (Nat.mod_lt _ (by norm_num)), hidx]
  have h2 := textureAt_own wrap x ⟨e / 4, 0, x.width, x.height⟩ rfl rfl hp
    (by rw [hxh]; norm_num)
  have hgt : ¬ e > N := by omega
  simp only [h2, Nat.zero_mul, Nat.zero_add, texel_lane_mod, hgt, false_or]
  by_cases hm : e % incx = 0 <;> simp [hm]

/-- Unit-stride axpy on a one-row surface: element `e < N` of `y` becomes
`y[e] + x[e] * alpha`, when `y` holds exactly `N` elements and `x` has the shape of `y`. -/
theorem glblasSaxpy_row (wrap : Buffer R → Nat → Nat → Vec4 R) (ctx : Context) (N : Nat)
    (alpha : R) (x y : Buffer R) (hsz : N = y.size / sizeof_float) (hyh : y.height = 1)
    (hxw : x.width = y.width) (hxh : x.height = 1) (hN : N ≤ 4 * y.width)
    (e : Nat) (he : e < N) :
    (glblasSaxpy wrap ctx N alpha x 1 y 1).2.data e = y.data e + x.data e * alpha := by
  have hp : e / 4 < y.width := by omega
  have hmod : e / 4 % y.width = e / 4 := Nat.mod_eq_of_lt hp
  have hdiv : e / 4 / y.width = 0 := Nat.div_eq_of_lt hp
  have hidx : 0 * y.width + e / 4 * 4 + e % 4 = e := by omega
  simp only [glblasSaxpy, get_op_dims_full N y ctx hsz, ne_eq, not_true_eq_false, if_false]
  rw [draw_data_inside _ _ _ _ _ (by rw [hmod]; exact hp) (by rw [hdiv, hyh]; norm_num)
    (by rw [hdiv, hyh]; norm_num)]
  simp only [fs_saxpyv2, hmod, hdiv, frag_index]
  rw [Vec4.lane_build _ _ (Nat.mod_lt _ (by norm_num)), hidx]
  simp only [he, Nat.mod_one, and_self, if_true, xindex_of_unit]
  have h1 := texturePixel_own wrap x (e / 4) (by rw [hxw, hxh]; omega)
  rw [hxw, hxh] at h1
  have h2 := textureAt_own wrap y ⟨e / 4, 0, y.width, y.height⟩ rfl rfl hp
    (by rw [hyh]; norm_num)
  rw [hyh] at h2 ⊢
  rw [h1, h2]
  simp only [Nat.zero_mul, Nat.zero_add, texel_lane_mod]

/-- The multiply step of `glblasSdot` on a one-row surface: element `e < N` of `y` becomes
`y[e] * x[e]`. -/
theorem glblas_sdotv2_mul_row (wrap : Buffer R → Nat → Nat → Vec4 R) (ctx : Context) (N : Nat)
    (x y : Buffer R) (hsz : N = y.size / sizeof_float) (hyh : y.height = 1)
    (hxw : x.width = y.width) (hxh : x.height = 1) (hN : N ≤ 4 * y.width)
    (e : Nat) (he : e < N) :
    (glblas_sdotv2_mul wrap ctx N x 1 y 1).data e = y.data e * x.data e := by
  have hp : e / 4 < y.width := by omega
  have hmod : e / 4 % y.width = e / 4 := Nat.mod_eq_of_lt hp
  have hdiv : e / 4 / y.width = 0 := Nat.div_eq_of_lt hp
  have hidx : 0 * y.width + e / 4 * 4 + e % 4 = e := by omega
  simp only [glblas_sdotv2_mul, get_op_dims_full N y ctx hsz]
  rw [draw_data_inside _ _ _ _ _ (by rw [hmod]; exact hp) (by rw [hdiv, hyh]; norm_num)
    (by rw [hdiv, hyh]; norm_num)]
  simp only [fs_sdotv3_mul, hmod, hdiv, frag_index]
  rw [Vec4.lane_build _ _ (Nat.mod_lt _ (by norm_num)), hidx]
  simp only [he, Nat.mod_one, and_self, if_true, xindex_of_unit]
  have h1 := texturePixel_own wrap x (e / 4) (by rw [hxw, hxh]; omega)
  rw [hxw, hxh] at h1
  have h2 := textureAt_own wrap y ⟨e / 4, 0, y.width, y.height⟩ rfl rfl hp
    (by rw [hyh]; norm_num)
  rw [hyh] at h2 ⊢
  rw [h1, h2]
  simp only [Nat.zero_mul, Nat.zero_add, texel_lane_mod]

theorem sdot_pass_mid (wrap : Buffer R → Nat → Nat → Vec4 R) (P m : Nat) (t : Buffer R)
    (hw : t.width = P) (hh : t.height = 1) (hm : 4 ≤ m) (e : Nat) (he : e / 4 < m / 4)
    (hin : e / 4 + m / 4 < P) :
    (draw P 1 t (fs_sdotv2_sum wrap t 1 P 1 m)).data e = t.data e + t.data (e + 4 * (m / 4)) := by
  have hp : e / 4 < t.width := by omega
  have hmod : e / 4 % t.width = e / 4 := Nat.mod_eq_of_lt hp
  have hdiv : e / 4 / t.width = 0 := Nat.div_eq_of_lt hp
  rw [draw_data_inside _ _ _ _ _ (by rw [hmod, ← hw]; exact hp) (by rw [hdiv]; norm_num)
    (by rw [hdiv, hh]; norm_num)]
  have hm1 : m ≠ 1 := by omega
  have hle : ¬ (0 * P + e / 4 > m / 4) := by omega
  have hl : ¬ (0 * P + e / 4 + e % 4 > m ∨ (0 * P + e / 4 + e % 4) % 1 ≠ 0) := by
    rw [Nat.mod_one]; omega
  simp only [fs_sdotv2_sum, hmod, hdiv, hm1, if_false, hle]
  rw [Vec4.lane_build _ _ (Nat.mod_lt _ (by norm_num))]
  simp only [hl, if_false, Nat.div_one]
  have h1 := texturePixel_own wrap t (0 * P + e / 4 + m / 4) (by rw [hw, hh]; omega)
  rw [hw, hh] at h1
  have h2 := textureAt_own wrap t ⟨e / 4, 0, P, 1⟩ hw.symm hh.symm hp (by rw [hh]; norm_num)
  rw [h1, h2]
  simp only [Nat.zero_mul, Nat.zero_add]
  rw [texel_lane_mod, texel_lane _ _ _ (Nat.mod_lt _ (by norm_num))]
  have : 4 * (e / 4 + m / 4) + e % 4 = e + 4 * (m / 4) := by omega
  rw [this, add_comm]

theorem sdot_pass_final (wrap : Buffer R → Nat → Nat → Vec4 R) (P : Nat) (t : Buffer R)
    (hw : t.width = P) (hh : t.height = 1) (hP : 0 < P) :
    (draw P 1 t (fs_sdotv2_sum wrap t 1 P 1 1)).data 0
      = |t.data 0| + |t.data 1| + |t.data 2| + |t.data 3| := by
  have hp : 0 < t.width := by omega
  rw [draw_data_inside _ _ _ _ _ (by simpa using hP) (by simp) (by simp [hh])]
  have h2 := textureAt_own wrap t ⟨0, 0, P, 1⟩ hw.symm hh.symm hp (by rw [hh]; norm_num)
  simp only [Nat.zero_div, Nat.zero_mod] at *
  simp only [fs_sdotv2_sum, if_true, h2, Nat.zero_mul, Nat.add_zero]
  rfl

/-- What the reduction loop of `glblas_sdotv2_sum` leaves in cell 0 of a one-row surface
of `2^(j+1)` live pixels: the sum over the four lanes of the absolute value of the lane's
sum. -/
theorem sdot_loop_sum (wrap : Buffer R → Nat → Nat → Vec4 R) (P : Nat) (j : Nat) :
    ∀ (fuel : Nat) (t : Buffer R), t.width = P → t.height = 1 → 2 ^ (j + 1) ≤ P →
      j + 2 ≤ fuel →
      (sum_loop (fun m t => draw P 1 t (fs_sdotv2_sum wrap t 1 P 1 m)) fuel (4 * 2 ^ j) t).data 0
        = ∑ l in Finset.range 4, |∑ p in Finset.range (2 ^ (j + 1)), t.data (4 * p + l)| := by
  induction j with
  | zero =>
    intro fuel t hw hh hP hf
    obtain ⟨f, rfl⟩ : ∃ f, fuel = f + 2 := ⟨fuel - 2, by omega⟩
    rw [sum_loop_step _ _ _ _ (by norm_num), sum_loop_last _ _ _ _ (by norm_num) (by norm_num)]
    rw [sdot_pass_final wrap P _ (by simpa using hw) (by simpa using hh) (by simp at hP; omega)]
    have hm : ∀ e, e < 4 → (draw P 1 t (fs_sdotv2_sum wrap t 1 P 1 (4 * 2 ^ 0))).data e
        = t.data e + t.data (e + 4) := by
      intro e he
      have := sdot_pass_mid wrap P (4 * 2 ^ 0) t hw hh (by norm_num) e (by norm_num; omega)
        (by norm_num at hP ⊢; omega)
      simpa using this
    rw [hm 0 (by norm_num), hm 1 (by norm_num), hm 2 (by norm_num), hm 3 (by norm_num)]
    simp [Finset.sum_range_succ]
  | succ j ih =>
    intro fuel t hw hh hP hf
    obtain ⟨f, rfl⟩ : ∃ f, fuel = f + 1 := ⟨fuel - 1, by omega⟩
    have hpos : 0 < 2 ^ j := Nat.pow_pos (by norm_num)
    have e1 : 2 ^ (j + 1) = 2 * 2 ^ j := by ring
    have e2 : 2 ^ (j + 1 + 1) = 4 * 2 ^ j := by ring
    rw [sum_loop_step _ _ _ _ (by omega)]
    have hhalf : 4 * 2 ^ (j + 1) / 2 = 4 * 2 ^ j := by omega
    rw [hhalf, ih f _ (by simpa using hw) (by simpa using hh) (by omega) (by omega)]
    apply Finset.sum_congr rfl
    intro l hl
    rw [Finset.mem_range] at hl
    congr 1
    have hm : ∀ p, p ∈ Finset.range (2 ^ (j + 1)) →
        (draw P 1 t (fs_sdotv2_sum wrap t 1 P 1 (4 * 2 ^ (j + 1)))).data (4 * p + l)
          = t.data (4 * p + l) + t.data (4 * (p + 2 ^ (j + 1)) + l) := by
      intro p hp
      rw [Finset.mem_range] at hp
      have hq : 4 * 2 ^ (j + 1) / 4 = 2 * 2 ^ j := by omega
      have := sdot_pass_mid wrap P (4 * 2 ^ (j + 1)) t hw hh (by omega) (4 * p + l) (by omega)
        (by omega)
      rw [this, hq]
      congr 2
      omega
    rw [Finset.sum_congr rfl hm]
    have : 2 ^ (j + 1 + 1) = 2 * 2 ^ (j + 1) := by ring
    rw [this, sum_range_fold]

/-- What `glblas_sdotv2_sum` stores in element 0 of `result` for a one-row operand of
`4 * 2^j` elements: the sum over the four lanes of the absolute value of the lane's sum. -/
theorem glblas_sdotv2_sum_pow2 (wrap : Buffer R → Nat → Nat → Vec4 R) (ctx : Context)
    (init : Nat → R) (j : Nat) (result s : Buffer R)
    (hP : 2 ^ j ≤ ctx.pbuffer_width) (hph : 0 < ctx.pbuffer_height)
    (hss : s.size = 4 * 2 ^ (j + 2)) (hsw : s.width = 2 ^ j) (hsh : s.height = 1)
    (hrw : 0 < result.width) (hrh : 0 < result.height) :
    (glblas_sdotv2_sum wrap ctx init (2 ^ (j + 2)) result s 1).map (fun r => r.data 0)
      = some (∑ l in Finset.range 4, |∑ p in Finset.range (2 ^ j), s.data (4 * p + l)|) := by
  have hpos : 0 < 2 ^ j := Nat.pow_pos (by norm_num)
  have hN : 2 ^ (j + 2) = 4 * 2 ^ j := by ring
  have hfull : 2 ^ (j + 2) = s.size / sizeof_float := by simp only [sizeof_float]; omega
  have ht0 := glblasMalloc_row ctx (2 ^ j) init hP hph
  rw [← hN] at ht0
  generalize hb : (decide (f32_of_nat (2 ^ (j + 2) * sizeof_float)
    % (FLOATS_PER_PIXEL * sizeof_float) ≠ 0)) = pad at ht0
  set t0 : Buffer R := ⟨2 ^ (j + 2) * sizeof_float, 2 ^ j, 1, pad, init⟩ with ht0def
  have hcopy : ∀ e, e < 2 ^ (j + 2) →
      (glblasScopy wrap ctx (2 ^ (j + 2)) s 1 t0 1).2.data e = s.data e := by
    intro e he
    exact glblasScopy_row wrap ctx _ s t0 (by simp [t0, sizeof_float]) rfl
      (by rw [hsw]) hsh (by simp only [t0]; omega) e he
  have hcw : (glblasScopy wrap ctx (2 ^ (j + 2)) s 1 t0 1).2.width = 2 ^ j :=
    glblasScopy_width _ _ _ _ _ _ _
  have hch : (glblasScopy wrap ctx (2 ^ (j + 2)) s 1 t0 1).2.height = 1 :=
    glblasScopy_height _ _ _ _ _ _ _
  have hsum : ∑ l in Finset.range 4, |∑ p in Finset.range (2 ^ j), s.data (4 * p + l)|
      = ∑ l in Finset.range 4, |∑ p in Finset.range (2 ^ j),
          (glblasScopy wrap ctx (2 ^ (j + 2)) s 1 t0 1).2.data (4 * p + l)| := by
    apply Finset.sum_congr rfl
    intro l hl
    rw [Finset.mem_range] at hl
    congr 1
    apply Finset.sum_congr rfl
    intro p hp
    rw [Finset.mem_range] at hp
    rw [hcopy _ (by omega)]
  simp only [glblas_sdotv2_sum, ht0, Option.map_some', Option.some.injEq]
  rw [get_op_dims_full _ s ctx hfull, hsw, hsh, hsum]
  simp only
  generalize (glblasScopy wrap ctx (2 ^ (j + 2)) s 1 t0 1).2 = T at hcw hch ⊢
  have hlw := sum_loop_width (fun m t => draw (2 ^ j) 1 t (fs_sdotv2_sum wrap t 1 (2 ^ j) 1 m))
    (fun _ _ => rfl) (2 ^ (j + 2) / 2) (2 ^ (j + 2) / 2) T
  have hlh := sum_loop_height (fun m t => draw (2 ^ j) 1 t (fs_sdotv2_sum wrap t 1 (2 ^ j) 1 m))
    (fun _ _ => rfl) (2 ^ (j + 2) / 2) (2 ^ (j + 2) / 2) T
  rw [glblasScopy_first wrap ctx _ result (by omega) (by rw [hlw, hcw]; exact hpos)
    (by rw [hlh, hch]; norm_num) hrw hrh]
  clear hlw hlh
  cases j with
  | zero =>
    have h2 : 2 ^ (0 + 2) / 2 = 1 + 1 := by norm_num
    rw [h2, sum_loop_last _ _ _ _ (by norm_num) (by norm_num),
      sdot_pass_final wrap _ T hcw hch (by norm_num)]
    simp [Finset.sum_range_succ]
  | succ i =>
    have h2 : 2 ^ (i + 1 + 2) / 2 = 4 * 2 ^ i := by
      have : 2 ^ (i + 1 + 2) = 2 * (4 * 2 ^ i) := by ring
      omega
    rw [h2, sdot_loop_sum wrap (2 ^ (i + 1)) i _ T hcw hch le_rfl (two_pow_ge i)]

/-- What `glblasSdot` computes for a power of two `N = 2^k ≥ 4` on one-row operands of
exactly `N` elements: not the dot product but the sum over the four lanes of the absolute
value of the lane's partial dot product. -/
theorem glblasSdot_pow2 (wrap : Buffer R → Nat → Nat → Vec4 R) (ctx : Context)
    (init1 init2 : Nat → R) (k : Nat) (result x y : Buffer R)
    (hk : 2 ≤ k) (hrow : 2 ^ k ≤ 4 * ctx.pbuffer_width) (hph : 0 < ctx.pbuffer_height)
    (hxw : x.width = 2 ^ k / 4) (hxh : x.height = 1)
    (hyw : y.width = 2 ^ k / 4) (hyh : y.height = 1)
    (hrw : 0 < result.width) (hrh : 0 < result.height) :
    (glblasSdot wrap ctx init1 init2 (2 ^ k) result x 1 y 1).map (fun r => (r.1, r.2.data 0))
      = some (.SUCCESS, ∑ l in Finset.range 4,
          |∑ p in Finset.range (2 ^ k / 4), y.data (4 * p + l) * x.data (4 * p + l)|) := by
  obtain ⟨j, rfl⟩ : ∃ j, k = j + 2 := ⟨k - 2, by omega⟩
  have hpos : 0 < 2 ^ j := Nat.pow_pos (by norm_num)
  have hN : 2 ^ (j + 2) = 4 * 2 ^ j := by ring
  have hdiv : 2 ^ (j + 2) / 4 = 2 ^ j := by omega
  have hP : 2 ^ j ≤ ctx.pbuffer_width := by omega
  rw [hdiv] at hxw hyw ⊢
  have ht0 := glblasMalloc_row ctx (2 ^ j) init1 hP hph
  rw [← hN] at ht0
  generalize hb : (decide (f32_of_nat (2 ^ (j + 2) * sizeof_float)
    % (FLOATS_PER_PIXEL * sizeof_float) ≠ 0)) = pad at ht0
  set t0 : Buffer R := ⟨2 ^ (j + 2) * sizeof_float, 2 ^ j, 1, pad, init1⟩ with ht0def
  have hfull0 : 2 ^ (j + 2) = t0.size / sizeof_float := by simp [t0, sizeof_float]
  have hcopy : ∀ e, e < 2 ^ (j + 2) →
      (glblasScopy wrap ctx (2 ^ (j + 2)) y 1 t0 1).2.data e = y.data e := by
    intro e he
    exact glblasScopy_row wrap ctx _ y t0 hfull0 rfl (by rw [hyw]) hyh
      (by simp only [t0]; omega) e he
  have hcw : (glblasScopy wrap ctx (2 ^ (j + 2)) y 1 t0 1).2.width = 2 ^ j :=
    glblasScopy_width _ _ _ _ _ _ _
  have hch : (glblasScopy wrap ctx (2 ^ (j + 2)) y 1 t0 1).2.height = 1 :=
    glblasScopy_height _ _ _ _ _ _ _
  have hcs : (glblasScopy wrap ctx (2 ^ (j + 2)) y 1 t0 1).2.size = 2 ^ (j + 2) * sizeof_float :=
    glblasScopy_size _ _ _ _ _ _ _
  simp only [glblasSdot, ht0, glblasScopy_status, ne_eq, not_true_eq_false, if_false]
  generalize (glblasScopy wrap ctx (2 ^ (j + 2)) y 1 t0 1).2 = c at hcopy hcw hch hcs ⊢
  have hcfull : 2 ^ (j + 2) = c.size / sizeof_float := by rw [hcs]; simp [sizeof_float]
  have hmul : ∀ e, e < 2 ^ (j + 2) →
      (glblas_sdotv2_mul wrap ctx (2 ^ (j + 2)) x 1 c 1).data e = y.data e * x.data e := by
    intro e he
    rw [glblas_sdotv2_mul_row wrap ctx _ x c hcfull hch (by rw [hxw, hcw]) hxh (by omega) e he,
      hcopy e he]
  have hmw : (glblas_sdotv2_mul wrap ctx (2 ^ (j + 2)) x 1 c 1).width = 2 ^ j := by
    simp only [glblas_sdotv2_mul, draw_width, hcw]
  have hmh : (glblas_sdotv2_mul wrap ctx (2 ^ (j + 2)) x 1 c 1).height = 1 := by
    simp only [glblas_sdotv2_mul, draw_height, hch]
  have hms : (glblas_sdotv2_mul wrap ctx (2 ^ (j + 2)) x 1 c 1).size = 4 * 2 ^ (j + 2) := by
    simp only [glblas_sdotv2_mul, draw_size, hcs, sizeof_float]
    omega
  have hsum := glblas_sdotv2_sum_pow2 wrap ctx init2 j result
    (glblas_sdotv2_mul wrap ctx (2 ^ (j + 2)) x 1 c 1) hP hph hms hmw hmh hrw hrh
  have hinner : ∑ l in Finset.range 4, |∑ p in Finset.range (2 ^ j),
        (glblas_sdotv2_mul wrap ctx (2 ^ (j + 2)) x 1 c 1).data (4 * p + l)|
      = ∑ l in Finset.range 4, |∑ p in Finset.range (2 ^ j),
          y.data (4 * p + l) * x.data (4 * p + l)| := by
    apply Finset.sum_congr rfl
    intro l hl
    rw [Finset.mem_range] at hl
    congr 1
    apply Finset.sum_congr rfl
    intro p hp
    rw [Finset.mem_range] at hp
    rw [hmul _ (by omega)]
  rw [hinner] at hsum
  cases hres : glblas_sdotv2_sum wrap ctx init2 (2 ^ (j + 2)) result
      (glblas_sdotv2_mul wrap ctx (2 ^ (j + 2)) x 1 c 1) 1 with
  | none => rw [hres] at hsum; simp at hsum
  | some r =>
    rw [hres] at hsum
    simp only [Option.map_some', Option.some.injEq] at hsum
    simp only [Option.map_some', hsum]

end KernelLemmas

section TransferLemmas

variable {β : Type}

theorem find_node_store (l : List (Nat × Buffer β)) (addr : Nat) (b b' : Buffer β)
    (h : find_node l addr = some b) : find_node (store_node l addr b') addr = some b' := by
  induction l with
  | nil => simp [find_node] at h
  | cons n rest ih =>
    by_cases hn : addr = n.1
    · simp [store_node, find_node, hn]
    · simp only [find_node, hn, if_false] at h
      simp [store_node, find_node, hn, ih h]

theorem glblasMalloc_capacity (ctx : Context) (size : Nat) (init : Nat → β) (b : Buffer β)
    (h : glblasMalloc ctx size init = some b) : b.size ≤ surface_bytes b := by
  unfold glblasMalloc at h
  split at h
  · rename_i hsz
    simp only [Option.some.injEq] at h
    subst h
    simp only [surface_bytes, get_texture_dimensions, FLOATS_PER_PIXEL, sizeof_float] at hsz ⊢
    split
    · simp only
      omega
    · rename_i hc
      simp only
      have hw : 0 < ctx.pbuffer_width := by
        rcases Nat.eq_zero_or_pos ctx.pbuffer_width with h0 | h0
        · rw [h0] at hsz; simp at hsz; subst hsz; simp at hc
        · exact h0
      have h2 : (size + 4 * 4 - 1) / (4 * 4) ≤ ctx.pbuffer_width
          * (((size + 4 * 4 - 1) / (4 * 4) + ctx.pbuffer_width - 1) / ctx.pbuffer_width) := by
        have h3 := @Nat.lt_div_mul_add ((size + 4 * 4 - 1) / (4 * 4) + ctx.pbuffer_width - 1)
          ctx.pbuffer_width hw
        rw [Nat.mul_comm ctx.pbuffer_width]
        omega
      omega
  · simp at h

end TransferLemmas

section GemmLemmas

variable {R : Type} [LinearOrderedCommRing R]

theorem sgemm_check_ldc (transa transb : glblasOperation) (M N K : Nat) (lda ldb ldc : Int)
    (hldc : max 1 (M : Int) ≤ ldc) :
    sgemm_check transa transb M N K lda ldb ldc = none := by
  have h1 : ((M : Int) ≥ 0 ∧ (N : Int) ≥ 0 ∧ (K : Int) ≥ 0) := ⟨by omega, by omega, by omega⟩
  have h2 : lda ≥ max 1 (if transa.toBool then (K : Int) else M)
      ∨ ldb ≥ max 1 (if transb.toBool then (N : Int) else K) ∨ ldc ≥ max 1 (M : Int) :=
    Or.inr (Or.inr hldc)
  unfold sgemm_check
  rw [if_neg (not_not.mpr h1), if_neg (not_not.mpr h2)]

/-- The shape a routine renders with for `n` elements is the shape of `dev`, when `dev` is
one row of `⌈n/4⌉` pixels that fits the context. -/
theorem get_op_dims_one_row {α : Type} (n : Nat) (dev : Buffer α) (ctx : Context)
    (hw : dev.width = (n + 3) / 4) (hh : dev.height = 1)
    (hrow : (n + 3) / 4 ≤ ctx.pbuffer_width) :
    get_op_dims n dev ctx = (.SUCCESS, dev.width, dev.height) := by
  unfold get_op_dims
  split
  · rfl
  · have hc : (n * sizeof_float + FLOATS_PER_PIXEL * sizeof_float - 1)
        / (FLOATS_PER_PIXEL * sizeof_float) = (n + 3) / 4 := by
      simp only [sizeof_float, FLOATS_PER_PIXEL]
      omega
    simp only [get_texture_dimensions, hc, hrow, if_true, hw, hh]

theorem glblasSgemm_packed_aux (wrap : Buffer R → Nat → Nat → Vec4 R) (ctx : Context)
    (transa transb : glblasOperation) (M N K lda ldb : Nat) (ldc : Int) (alpha beta : R)
    (a b c : Buffer R) (hldc : max 1 (M : Int) ≤ ldc)
    (hcw : c.width = (M * N + 3) / 4) (hch : c.height = 1)
    (hrow : (M * N + 3) / 4 ≤ ctx.pbuffer_width) :
    glblasSgemm wrap ctx transa transb M N K alpha a lda b ldb beta c ldc
      = (.SUCCESS, draw c.width c.height c
        (fs_sgemm wrap a b c lda ldb transa.toBool transb.toBool alpha beta
          c.width a.width b.height M K (M * N))) := by
  have hmn : ((M : Int) * (N : Int)).toNat = M * N := by
    rw [← Int.natCast_mul, Int.toNat_ofNat]
  simp only [glblasSgemm, sgemm_check_ldc transa transb M N K lda ldb ldc hldc, hmn,
    get_op_dims_one_row _ c ctx hcw hch hrow, ne_eq, not_true_eq_false, if_false,
    Int.toNat_ofNat]

end GemmLemmas

/-! ## The examples of the spec, on one-row surfaces -/

section SpecExamples

open glblasOperation

/-- `sscal(N=4, alpha=2, x=[1,2,3,4])` yields `[2,4,6,8]`. -/
theorem sscal_example :
    hostRead (glblasSscal gl_repeat ctx16 4 2 (device_vector ctx16 [1, 2, 3, 4]) 1).2 4
      = [2, 4, 6, 8] := by
  decide

/-- `saxpy(N=4, alpha=2, x=[1,1,1,1], y=[1,1,1,1])` yields `y=[3,3,3,3]`. -/
theorem saxpy_example :
    hostRead (glblasSaxpy gl_repeat ctx16 4 2 (device_vector ctx16 [1, 1, 1, 1]) 1
      (device_vector ctx16 [1, 1, 1, 1]) 1).2 4 = [3, 3, 3, 3] := by
  decide

/-- `sasum` over `x = [1,-2,3,-4]` yields 10. -/
theorem sasum_example :
    (glblasSasum gl_repeat ctx16 zero_init 4 (device_vector ctx16 [0])
      (device_vector ctx16 [1, -2, 3, -4]) 1).map (fun r => (r.1, r.2.data 0))
      = some (.SUCCESS, 10) := by
  decide

/-- `sswap` of `x = [1,2,3,4]`, `y = [5,6,7,8]` exchanges them. -/
theorem sswap_example :
    (glblasSswap gl_repeat ctx16 zero_init 4 (device_vector ctx16 [1, 2, 3, 4]) 1
      (device_vector ctx16 [5, 6, 7, 8]) 1).map
      (fun r => (r.1, hostRead r.2.1 4, hostRead r.2.2 4))
      = some (.SUCCESS, [5, 6, 7, 8], [1, 2, 3, 4]) := by
  decide

/-- GEMM with both flags N, `A` the 4x4 identity, `alpha = 1`, `beta = 0` yields `C = B`,
with the generic and with the tiled routine. -/
theorem sgemm_identity_example :
    hostRead (glblasSgemm gl_repeat ctx128 GLBLAS_OP_N GLBLAS_OP_N 4 4 4 1
      (device_vector ctx128 ident4) 4 (device_vector ctx128 iota16) 4 0
      (device_vector ctx128 zeros16) 4).2 16 = iota16
    ∧ (glblasSgemm4x4 gl_repeat ctx128 zero_init zero_init GLBLAS_OP_N GLBLAS_OP_N 4 4 4 1
      (device_vector ctx128 ident4) 4 (device_vector ctx128 iota16) 4 0
      (device_vector ctx128 zeros16) 4).map (fun r => (r.1, hostRead r.2 16))
      = some (.SUCCESS, iota16) := by
  decide

end SpecExamples

/-! ## The coordinate mapper -/

section MapperLemmas

theorem ceil_div_le_iff (c w h : Nat) (hw : 0 < w) : (c + w - 1) / w ≤ h ↔ c ≤ w * h := by
  rw [← Nat.lt_succ_iff, Nat.div_lt_iff_lt_mul hw, Nat.succ_mul, Nat.mul_comm h w]
  omega

theorem le_ceil_div_mul (c w : Nat) (hw : 0 < w) : c ≤ w * ((c + w - 1) / w) :=
  (ceil_div_le_iff c w _ hw).mp (le_refl _)

theorem pixel_count_le_iff (size n : Nat) : (size + 4 * 4 - 1) / (4 * 4) ≤ n ↔ size ≤ n * 16 := by
  omega

theorem get_texture_dimensions_status (size mw mh : Nat) (hw : 1 ≤ mw) (hh : 1 ≤ mh) :
    (get_texture_dimensions size mw mh).1 = .DIMENSION_OVERFLOW ↔ mw * mh * 16 < size := by
  simp only [get_texture_dimensions, FLOATS_PER_PIXEL, sizeof_float]
  have hc := pixel_count_le_iff size (mw * mh)
  have hcw := pixel_count_le_iff size mw
  have hm : mw ≤ mw * mh := Nat.le_mul_of_pos_right mw hh
  split
  · rename_i h1
    simp only [reduceCtorEq, false_iff, not_lt]
    have := Nat.mul_le_mul_right 16 hm
    omega
  · rename_i h1
    have hcd := ceil_div_le_iff ((size + 4 * 4 - 1) / (4 * 4)) mw mh hw
    simp only [le_refl, true_and]
    split
    · rename_i h2
      simp only [reduceCtorEq, false_iff, not_lt]
      exact hc.mp (hcd.mp h2)
    · rename_i h2
      simp only [true_iff]
      by_contra h3
      exact h2 (hcd.mpr (hc.mpr (not_lt.mp h3)))

theorem get_texture_dimensions_fits (size mw mh : Nat) (hw : 1 ≤ mw) (hh : 1 ≤ mh)
    (hcap : size ≤ mw * mh * 16) :
    (get_texture_dimensions size mw mh).1 = .SUCCESS
    ∧ size ≤ (get_texture_dimensions size mw mh).2.1 * (get_texture_dimensions size mw mh).2.2.1 * 16
    ∧ (size + 15) / 16
      ≤ (get_texture_dimensions size mw mh).2.1 * (get_texture_dimensions size mw mh).2.2.1
    ∧ (get_texture_dimensions size mw mh).2.1 ≤ mw
    ∧ (get_texture_dimensions size mw mh).2.2.1 ≤ mh := by
  simp only [get_texture_dimensions, FLOATS_PER_PIXEL, sizeof_float]
  have hc := pixel_count_le_iff size (mw * mh)
  split
  · rename_i h1
    refine ⟨rfl, ?_, ?_, h1, hh⟩
    · simp only; omega
    · simp only; omega
  · rename_i h1
    have hcd := ceil_div_le_iff ((size + 4 * 4 - 1) / (4 * 4)) mw mh hw
    have h2 : ((size + 4 * 4 - 1) / (4 * 4) + mw - 1) / mw ≤ mh := hcd.mpr (hc.mpr hcap)
    have h3 := le_ceil_div_mul ((size + 4 * 4 - 1) / (4 * 4)) mw hw
    refine ⟨?_, ?_, ?_, le_refl _, h2⟩
    · simp only [le_refl, true_and, if_pos h2]
    · simp only
      exact (pixel_count_le_iff size _).mp h3
    · simp only
      omega

end MapperLemmas

/-! ## The registry -/

section RegistryLemmas

variable {β : Type}

theorem dynarr_alloc_eq (l : List (Nat × Buffer β)) (addr : Nat) (node : Buffer β) :
    dynarr_alloc l addr node = l ++ [(addr, node)] := by
  induction l with
  | nil => rfl
  | cons n rest ih => simp [dynarr_alloc, ih]

theorem dynarr_free_element_fst (l : List (Nat × Buffer β)) (data : Nat) :
    (dynarr_free_element l data).1 = l.filter (fun n => decide (n.1 ≠ data)) := by
  induction l with
  | nil => rfl
  | cons n rest ih =>
    by_cases h : n.1 = data
    · simp [dynarr_free_element, h, ih]
    · simp [dynarr_free_element, h, ih]

theorem dynarr_free_element_snd (l : List (Nat × Buffer β)) (data : Nat) :
    (dynarr_free_element l data).2
      = (l.filter (fun n => decide (n.1 = data))).map Prod.fst := by
  induction l with
  | nil => rfl
  | cons n rest ih =>
    by_cases h : n.1 = data
    · simp [dynarr_free_element, h, ih]
    · simp [dynarr_free_element, h, ih]

theorem find_node_eq_none (l : List (Nat × Buffer β)) (addr : Nat) :
    find_node l addr = none ↔ addr ∉ l.map Prod.fst := by
  induction l with
  | nil => simp [find_node]
  | cons n rest ih =>
    by_cases h : addr = n.1
    · simp [find_node, h]
    · simp [find_node, h, ih]

theorem find_node_append (l : List (Nat × Buffer β)) (addr a : Nat) (node : Buffer β) :
    find_node (l ++ [(a, node)]) addr
      = match find_node l addr with
        | some b => some b
        | none => if addr = a then some node else none := by
  induction l with
  | nil => simp [find_node]
  | cons n rest ih =>
    by_cases h : addr = n.1
    · simp [find_node, h]
    · simp [find_node, h, ih]

theorem find_node_filter_ne (l : List (Nat × Buffer β)) (addr a : Nat) (h : addr ≠ a) :
    find_node (l.filter (fun n => decide (n.1 ≠ a))) addr = find_node l addr := by
  induction l with
  | nil => rfl
  | cons n rest ih =>
    simp only [ne_eq, decide_not] at ih
    by_cases hn : n.1 = a
    · simp [find_node, hn, ih, h]
    · by_cases ha : addr = n.1
      · simp [find_node, hn, ha]
      · simp [find_node, hn, ha, ih]

theorem find_node_filter_self (l : List (Nat × Buffer β)) (a : Nat) :
    find_node (l.filter (fun n => decide (n.1 ≠ a))) a = none := by
  rw [find_node_eq_none]
  simp [List.mem_filter]

theorem store_node_addrs (l : List (Nat × Buffer β)) (addr : Nat) (b : Buffer β) :
    (store_node l addr b).map Prod.fst = l.map Prod.fst := by
  induction l with
  | nil => rfl
  | cons n rest ih =>
    by_cases h : addr = n.1
    · simp [store_node, h]
    · simp [store_node, h, ih]

theorem filter_ne_append_fresh (l : List Nat) (a : Nat) (h : a ∉ l) :
    (l ++ [a]).filter (fun n => decide (n ≠ a)) = l := by
  rw [List.filter_append]
  simp only [ne_eq, decide_not, List.filter_cons, decide_True, Bool.not_true, Bool.false_eq_true,
    if_false, List.filter_nil, List.append_nil]
  rw [List.filter_eq_self]
  intro x hx
  have : x ≠ a := fun e => h (e ▸ hx)
  simp [this]

theorem get_buffer_from_address_eq_none (s : Device β) (a : Nat) :
    get_buffer_from_address s a = none ↔ a ∉ s.addrs :=
  find_node_eq_none s.buffers a

theorem get_buffer_from_address_live (s : Device β) (a : Nat) (h : a ∈ s.addrs) :
    ∃ b, get_buffer_from_address s a = some b := by
  cases hb : get_buffer_from_address s a with
  | none => exact absurd h ((get_buffer_from_address_eq_none s a).mp hb)
  | some b => exact ⟨b, rfl⟩

theorem glblasMalloc_addrs (ctx : Context) (s : Device β) (addr size : Nat) (init : Nat → β) :
    (Registry.glblasMalloc ctx s addr size init).2.addrs = s.addrs ++ [addr] := by
  unfold Registry.glblasMalloc
  split <;> simp [Device.addrs, dynarr_alloc_eq]

theorem glblasMalloc_handle (ctx : Context) (s : Device β) (addr size : Nat) (init : Nat → β)
    (t : Nat) (h : (Registry.glblasMalloc ctx s addr size init).1 = some t) : t = addr := by
  unfold Registry.glblasMalloc at h
  split at h
  · simp at h
  · simpa using h.symm

theorem glblasMalloc_some (ctx : Context) (s s1 : Device β) (addr size t : Nat)
    (init : Nat → β) (h : Registry.glblasMalloc ctx s addr size init = (some t, s1)) :
    t = addr ∧ s1.addrs = s.addrs ++ [addr] := by
  refine ⟨glblasMalloc_handle ctx s addr size init t (by rw [h]), ?_⟩
  have := glblasMalloc_addrs ctx s addr size init
  rw [h] at this
  exact this

theorem glblasMalloc_aborts (ctx : Context) (s : Device β) (addr size : Nat) (init : Nat → β) :
    (Registry.glblasMalloc ctx s addr size init).1 = none
      ↔ ctx.pbuffer_width * ctx.pbuffer_height * 16 < size := by
  unfold Registry.glblasMalloc GLBLAS.glblasMalloc
  simp only [sizeof_float, FLOATS_PER_PIXEL]
  split
  · rename_i h
    split at h
    · simp at h
    · rename_i h2
      simp only [true_iff]
      omega
  · rename_i buf h
    split at h
    · rename_i h2
      simp only [reduceCtorEq, false_iff, not_lt]
      omega
    · simp at h

theorem glblasMalloc_returns (ctx : Context) (s : Device β) (addr size : Nat) (init : Nat → β)
    (h : size ≤ ctx.pbuffer_width * ctx.pbuffer_height * 16) :
    ∃ s1, Registry.glblasMalloc ctx s addr size init = (some addr, s1)
      ∧ s1.addrs = s.addrs ++ [addr] := by
  have h1 : (Registry.glblasMalloc ctx s addr size init).1 ≠ none :=
    fun e => absurd ((glblasMalloc_aborts ctx s addr size init).mp e) (Nat.not_lt.mpr h)
  cases hm : Registry.glblasMalloc ctx s addr size init with
  | mk t s1 =>
    rw [hm] at h1
    cases t with
    | none => exact absurd rfl h1
    | some t =>
      obtain ⟨e1, e2⟩ := glblasMalloc_some _ _ _ _ _ _ _ hm
      subst e1
      exact ⟨s1, rfl, e2⟩

theorem glblasFree_addrs (s : Device β) (buf : Nat) :
    (Registry.glblasFree s buf).addrs = s.addrs.filter (fun n => decide (n ≠ buf)) := by
  simp only [Registry.glblasFree, Device.addrs, dynarr_free_element_fst, List.filter_map]
  rfl

theorem destroy_loop_spec (chain : List (Nat × Buffer β)) (st : Device β × List Nat)
    (h : ∀ a ∈ st.1.addrs, a ∈ chain.map Prod.fst) :
    (Registry.destroy_loop chain st).1.buffers = []
    ∧ ∀ a, (Registry.destroy_loop chain st).2.count a = st.2.count a + st.1.addrs.count a := by
  induction chain generalizing st with
  | nil =>
    have hnil : st.1.buffers = [] := by
      cases hb : st.1.buffers with
      | nil => rfl
      | cons n rest =>
        have := h n.1 (by simp [Device.addrs, hb])
        simp at this
    refine ⟨hnil, fun a => ?_⟩
    simp [Registry.destroy_loop, Device.addrs, hnil]
  | cons b rest ih =>
    have hstep : ∀ a ∈ (Registry.glblasFree st.1 b.1).addrs, a ∈ rest.map Prod.fst := by
      intro a ha
      rw [glblasFree_addrs, List.mem_filter] at ha
      have hb := h a ha.1
      simp only [List.map_cons, List.mem_cons] at hb
      rcases hb with hb | hb
      · simp [hb] at ha
      · exact hb
    have := ih (Registry.glblasFree st.1 b.1, st.2 ++ (dynarr_free_element st.1.buffers b.1).2)
      hstep
    refine ⟨this.1, fun a => ?_⟩
    rw [Registry.destroy_loop, this.2 a, glblasFree_addrs, dynarr_free_element_snd]
    simp only [List.count_append, Device.addrs]
    have hsplit : ∀ l : List (Nat × Buffer β),
        (List.map Prod.fst (List.filter (fun n => decide (n.1 = b.1)) l)).count a
          + (List.filter (fun n => decide (n ≠ b.1)) (List.map Prod.fst l)).count a
        = (List.map Prod.fst l).count a := by
      intro l
      induction l with
      | nil => rfl
      | cons n l ihl =>
        by_cases hn : n.1 = b.1
        · simp only [List.filter_cons, hn, decide_True, if_true, List.map_cons, ne_eq,
            not_true_eq_false, decide_False, Bool.false_eq_true, if_false, List.count_cons]
          simp only [ne_eq] at ihl
          omega
        · simp only [List.filter_cons, hn, decide_False, Bool.false_eq_true, if_false,
            List.map_cons, ne_eq, not_false_eq_true, decide_True, if_true, List.count_cons]
          simp only [ne_eq] at ihl
          omega
    have := hsplit st.1.buffers
    omega

theorem glblasDestroy_spec (s : Device β) :
    (Registry.glblasDestroy s).1.buffers = []
    ∧ ∀ a, (Registry.glblasDestroy s).2.count a = s.addrs.count a := by
  have h := destroy_loop_spec s.buffers (s, []) (fun a ha => ha)
  unfold Registry.glblasDestroy
  refine ⟨h.1, fun a => ?_⟩
  simp only [h.1, dynarr_free, List.append_nil, h.2 a, List.count_nil, Nat.zero_add]

theorem render_addrs (s s' : Device β) (target : Nat) (f : Buffer β → Buffer β)
    (h : s.render target f = some s') : s'.addrs = s.addrs := by
  unfold Device.render at h
  split at h
  · simp only [Option.some.injEq] at h
    subst h
    simp [Device.addrs, store_node_addrs]
  · simp at h

theorem render_returns (s : Device β) (target : Nat) (f : Buffer β → Buffer β)
    (h : target ∈ s.addrs) : ∃ s', s.render target f = some s' ∧ s'.addrs = s.addrs := by
  obtain ⟨b, hb⟩ := get_buffer_from_address_live s target h
  have : s.render target f = some { s with buffers := store_node s.buffers target (f b) } := by
    simp [Device.render, hb]
  exact ⟨_, this, render_addrs _ _ _ _ this⟩

theorem render_bind_returns {α : Type} (s : Device β) (target : Nat) (f : Buffer β → Buffer β)
    (g : Device β → α) (h : target ∈ s.addrs) :
    ∃ r, (s.render target f).bind (fun a => some (g a)) = some r := by
  obtain ⟨s', e, _⟩ := render_returns s target f h
  exact ⟨g s', by rw [e]; rfl⟩

theorem glblasScopy_addrs (wrap : Buffer β → Nat → Nat → Vec4 β) (ctx : Context) (s : Device β)
    (N x incx y incy : Nat) (r : glblasStatus × Device β)
    (h : Registry.glblasScopy wrap ctx s N x incx y incy = some r) :
    r.1 = .SUCCESS ∧ r.2.addrs = s.addrs := by
  unfold Registry.glblasScopy at h
  split at h
  · simp only [Option.some.injEq] at h
    subst h
    exact ⟨glblasScopy_status _ _ _ _ _ _ _, by simp [Device.addrs, store_node_addrs]⟩
  · simp at h

theorem glblasScopy_returns (wrap : Buffer β → Nat → Nat → Vec4 β) (ctx : Context) (s : Device β)
    (N x incx y incy : Nat) (hx : x ∈ s.addrs) (hy : y ∈ s.addrs) :
    ∃ r, Registry.glblasScopy wrap ctx s N x incx y incy = some r ∧ r.1 = .SUCCESS
      ∧ r.2.addrs = s.addrs := by
  obtain ⟨bx, hbx⟩ := get_buffer_from_address_live s x hx
  obtain ⟨b, hb⟩ := get_buffer_from_address_live s y hy
  have : ∃ r, Registry.glblasScopy wrap ctx s N x incx y incy = some r := by
    simp [Registry.glblasScopy, hbx, hb]
  obtain ⟨r, hr⟩ := this
  exact ⟨r, hr, glblasScopy_addrs _ _ _ _ _ _ _ _ _ hr⟩

theorem glblasSswap_addrs (wrap : Buffer β → Nat → Nat → Vec4 β) (ctx : Context) (s : Device β)
    (addr : Nat) (init : Nat → β) (N x incx y incy : Nat) (r : glblasStatus × Device β)
    (hfresh : addr ∉ s.addrs)
    (h : Registry.glblasSswap wrap ctx s addr init N x incx y incy = some r) :
    r.2.addrs = s.addrs := by
  unfold Registry.glblasSswap at h
  split at h
  · simp at h
  · split at h
    · simp at h
    · rename_i temp s1 hm
      have ht : temp = addr := glblasMalloc_handle ctx s addr _ init temp (by rw [hm])
      have hs1 : s1.addrs = s.addrs ++ [addr] := by
        have := glblasMalloc_addrs ctx s addr (N * sizeof_float) init
        rw [hm] at this
        exact this
      subst ht
      simp only [Option.bind_eq_some, Option.some.injEq] at h
      obtain ⟨r1, h1, r2, h2, r3, h3, hr⟩ := h
      subst hr
      rw [glblasFree_addrs, (glblasScopy_addrs _ _ _ _ _ _ _ _ _ h3).2,
        (glblasScopy_addrs _ _ _ _ _ _ _ _ _ h2).2, (glblasScopy_addrs _ _ _ _ _ _ _ _ _ h1).2,
        hs1, filter_ne_append_fresh _ _ hfresh]

theorem glblasSswap_returns (wrap : Buffer β → Nat → Nat → Vec4 β) (ctx : Context)
    (s : Device β) (addr : Nat) (init : Nat → β) (N x incx y incy : Nat)
    (hx : x ∈ s.addrs) (hy : y ∈ s.addrs)
    (hN : N * 4 ≤ ctx.pbuffer_width * ctx.pbuffer_height * 16) :
    ∃ r, Registry.glblasSswap wrap ctx s addr init N x incx y incy = some r := by
  obtain ⟨bx, hbx⟩ := get_buffer_from_address_live s x hx
  obtain ⟨s1, hm, hs1⟩ := glblasMalloc_returns ctx s addr (N * sizeof_float) init hN
  have ht : addr ∈ s1.addrs := by rw [hs1]; simp
  have hx1 : x ∈ s1.addrs := by rw [hs1]; simp [hx]
  have hy1 : y ∈ s1.addrs := by rw [hs1]; simp [hy]
  obtain ⟨r1, e1, _, a1⟩ := glblasScopy_returns wrap ctx s1 N x 1 addr 1 hx1 ht
  obtain ⟨r2, e2, _, a2⟩ := glblasScopy_returns wrap ctx r1.2 N y incy x incx
    (by rw [a1]; exact hy1) (by rw [a1]; exact hx1)
  obtain ⟨r3, e3, _, a3⟩ := glblasScopy_returns wrap ctx r2.2 N addr incx y incy
    (by rw [a2, a1]; exact ht) (by rw [a2, a1]; exact hy1)
  refine ⟨(.SUCCESS, Registry.glblasFree r3.2 addr), ?_⟩
  unfold Registry.glblasSswap
  simp only [hbx, hm, e1, e2, e3, Option.bind_some, Option.some_bind]

end RegistryLemmas

section RegistryRoutineLemmas

variable {R : Type} [LinearOrderedCommRing R]

theorem glblas_sdotv2_mul_addrs (wrap : Buffer R → Nat → Nat → Vec4 R) (ctx : Context)
    (s s' : Device R) (N x incx y incy : Nat)
    (h : Registry.glblas_sdotv2_mul wrap ctx s N x incx y incy = some s') :
    s'.addrs = s.addrs := by
  unfold Registry.glblas_sdotv2_mul at h
  split at h
  · simp at h
  · exact render_addrs _ _ _ _ h

theorem glblas_sgemm4x4_reorder_addrs (wrap : Buffer R → Nat → Nat → Vec4 R) (ctx : Context)
    (s s' : Device R) (N x y : Nat)
    (h : Registry.glblas_sgemm4x4_reorder wrap ctx s N x y = some s') :
    s'.addrs = s.addrs := by
  unfold Registry.glblas_sgemm4x4_reorder at h
  split at h
  · simp at h
  · exact render_addrs _ _ _ _ h

theorem glblas_sgemm4x4_reorder_returns (wrap : Buffer R → Nat → Nat → Vec4 R) (ctx : Context)
    (s : Device R) (N x y : Nat) (hx : x ∈ s.addrs) (hy : y ∈ s.addrs) :
    ∃ s', Registry.glblas_sgemm4x4_reorder wrap ctx s N x y = some s' ∧ s'.addrs = s.addrs := by
  obtain ⟨bx, hbx⟩ := get_buffer_from_address_live s x hx
  obtain ⟨s', e, a⟩ := render_returns s y
    (fun b => GLBLAS.glblas_sgemm4x4_reorder wrap ctx N bx b) hy
  exact ⟨s', by simp only [Registry.glblas_sgemm4x4_reorder, hbx, e], a⟩

theorem glblas_sdotv2_sum_addrs (wrap : Buffer R → Nat → Nat → Vec4 R) (ctx : Context)
    (s s' : Device R) (addr : Nat) (init : Nat → R) (N result x incx : Nat)
    (hfresh : addr ∉ s.addrs)
    (h : Registry.glblas_sdotv2_sum wrap ctx s addr init N result x incx = some s') :
    s'.addrs = s.addrs := by
  unfold Registry.glblas_sdotv2_sum at h
  split at h
  · simp at h
  · simp only at h
    split at h
    · simp at h
    · rename_i temp s1 hm
      have ht : temp = addr := glblasMalloc_handle ctx s addr _ init temp (by rw [hm])
      have hs1 : s1.addrs = s.addrs ++ [addr] := by
        have := glblasMalloc_addrs ctx s addr (N * sizeof_float) init
        rw [hm] at this
        exact this
      subst ht
      simp only [Option.bind_eq_some, Option.some.injEq] at h
      obtain ⟨r1, h1, s2, h2, r3, h3, hr⟩ := h
      subst hr
      rw [glblasFree_addrs, (glblasScopy_addrs _ _ _ _ _ _ _ _ _ h3).2,
        render_addrs _ _ _ _ h2, (glblasScopy_addrs _ _ _ _ _ _ _ _ _ h1).2,
        hs1, filter_ne_append_fresh _ _ hfresh]

theorem glblas_sdotv2_sum_returns (wrap : Buffer R → Nat → Nat → Vec4 R) (ctx : Context)
    (s : Device R) (addr : Nat) (init : Nat → R) (N result x incx : Nat)
    (hx : x ∈ s.addrs) (hr : result ∈ s.addrs)
    (hN : N * 4 ≤ ctx.pbuffer_width * ctx.pbuffer_height * 16) :
    ∃ s', Registry.glblas_sdotv2_sum wrap ctx s addr init N result x incx = some s' := by
  obtain ⟨bx, hbx⟩ := get_buffer_from_address_live s x hx
  obtain ⟨s1, hm, hs1⟩ := glblasMalloc_returns ctx s addr (N * sizeof_float) init hN
  have ht : addr ∈ s1.addrs := by rw [hs1]; simp
  have hx1 : x ∈ s1.addrs := by rw [hs1]; simp [hx]
  have hr1 : result ∈ s1.addrs := by rw [hs1]; simp [hr]
  obtain ⟨r1, e1, _, a1⟩ := glblasScopy_returns wrap ctx s1 N x 1 addr 1 hx1 ht
  obtain ⟨s2, e2, a2⟩ := render_returns r1.2 addr (fun t => sum_loop
      (fun m t => draw (get_op_dims N bx ctx).2.1 (get_op_dims N bx ctx).2.2 t
        (fs_sdotv2_sum wrap t incx (get_op_dims N bx ctx).2.1 (get_op_dims N bx ctx).2.2 m))
      (N / 2) (N / 2) t) (by rw [a1]; exact ht)
  obtain ⟨r3, e3, _, a3⟩ := glblasScopy_returns wrap ctx s2 1 addr 1 result 1
    (by rw [a2, a1]; exact ht) (by rw [a2, a1]; exact hr1)
  refine ⟨Registry.glblasFree r3.2 addr, ?_⟩
  unfold Registry.glblas_sdotv2_sum
  simp only [hbx, hm, e1, e2, e3, Option.bind_some, Option.some_bind]

theorem glblasSdot_addrs (wrap : Buffer R → Nat → Nat → Vec4 R) (ctx : Context) (s : Device R)
    (addr1 addr2 : Nat) (init1 init2 : Nat → R) (N result x incx y incy : Nat)
    (r : glblasStatus × Device R) (h1 : addr1 ∉ s.addrs) (h2 : addr2 ∉ s.addrs)
    (h12 : addr2 ≠ addr1)
    (h : Registry.glblasSdot wrap ctx s addr1 addr2 init1 init2 N result x incx y incy = some r) :
    r.2.addrs = s.addrs := by
  unfold Registry.glblasSdot at h
  split at h
  · simp at h
  · split at h
    · simp at h
    · rename_i savedy s1 hm
      have ht : savedy = addr1 := glblasMalloc_handle ctx s addr1 _ init1 savedy (by rw [hm])
      have hs1 : s1.addrs = s.addrs ++ [addr1] := by
        have := glblasMalloc_addrs ctx s addr1 (N * sizeof_float) init1
        rw [hm] at this
        exact this
      subst ht
      simp only [Option.bind_eq_some] at h
      obtain ⟨c, hc, h⟩ := h
      have hcs := glblasScopy_addrs _ _ _ _ _ _ _ _ _ hc
      rw [if_neg (not_not.mpr hcs.1)] at h
      simp only [Option.bind_eq_some, Option.some.injEq] at h
      obtain ⟨s2, hs2, s3, hs3, hr⟩ := h
      subst hr
      have hf2 : addr2 ∉ s2.addrs := by
        rw [glblas_sdotv2_mul_addrs _ _ _ _ _ _ _ _ _ hs2, hcs.2, hs1]
        simp [h2, h12]
      rw [glblasFree_addrs, glblas_sdotv2_sum_addrs _ _ _ _ _ _ _ _ _ _ hf2 hs3,
        glblas_sdotv2_mul_addrs _ _ _ _ _ _ _ _ _ hs2, hcs.2, hs1,
        filter_ne_append_fresh _ _ h1]

theorem glblasSdot_returns (wrap : Buffer R → Nat → Nat → Vec4 R) (ctx : Context) (s : Device R)
    (addr1 addr2 : Nat) (init1 init2 : Nat → R) (N result x incx y incy : Nat)
    (hx : x ∈ s.addrs) (hy : y ∈ s.addrs) (hr : result ∈ s.addrs)
    (hN : N * 4 ≤ ctx.pbuffer_width * ctx.pbuffer_height * 16) :
    ∃ r, Registry.glblasSdot wrap ctx s addr1 addr2 init1 init2 N result x incx y incy
      = some r := by
  obtain ⟨b, hb⟩ := get_buffer_from_address_live s y hy
  obtain ⟨s1, hm, hs1⟩ := glblasMalloc_returns ctx s addr1 (N * sizeof_float) init1 hN
  have ht : addr1 ∈ s1.addrs := by rw [hs1]; simp
  have hx1 : x ∈ s1.addrs := by rw [hs1]; simp [hx]
  have hy1 : y ∈ s1.addrs := by rw [hs1]; simp [hy]
  have hr1 : result ∈ s1.addrs := by rw [hs1]; simp [hr]
  obtain ⟨c, e1, c1, a1⟩ := glblasScopy_returns wrap ctx s1 N y 1 addr1 1 hy1 ht
  obtain ⟨bx, hbx⟩ := get_buffer_from_address_live c.2 x (by rw [a1]; exact hx1)
  obtain ⟨s2, e2, a2⟩ := render_returns c.2 addr1
    (fun b => GLBLAS.glblas_sdotv2_mul wrap ctx N bx incx b incy) (by rw [a1]; exact ht)
  have e2' : Registry.glblas_sdotv2_mul wrap ctx c.2 N x incx addr1 incy = some s2 := by
    simp only [Registry.glblas_sdotv2_mul, hbx, e2]
  obtain ⟨s3, e3⟩ := glblas_sdotv2_sum_returns wrap ctx s2 addr2 init2 N result addr1 1
    (by rw [a2, a1]; exact ht) (by rw [a2, a1]; exact hr1) hN
  refine ⟨(.SUCCESS, Registry.glblasFree s3 addr1), ?_⟩
  unfold Registry.glblasSdot
  simp only [hb, hm, e1, e2', e3, c1, Option.bind_some, Option.some_bind, ne_eq,
    not_true_eq_false, if_false]

theorem glblasSasum_addrs (wrap : Buffer R → Nat → Nat → Vec4 R) (ctx : Context) (s : Device R)
    (addr : Nat) (init : Nat → R) (N result x incx : Nat) (r : glblasStatus × Device R)
    (hfresh : addr ∉ s.addrs)
    (h : Registry.glblasSasum wrap ctx s addr init N result x incx = some r) :
    r.2.addrs = s.addrs := by
  unfold Registry.glblasSasum at h
  split at h
  · simp at h
  · simp only [get_op_dims_status, ne_eq, not_true_eq_false, if_false] at h
    split at h
    · simp at h
    · rename_i temp s1 hm
      have ht : temp = addr := glblasMalloc_handle ctx s addr _ init temp (by rw [hm])
      have hs1 : s1.addrs = s.addrs ++ [addr] := by
        have := glblasMalloc_addrs ctx s addr (N * sizeof_float) init
        rw [hm] at this
        exact this
      subst ht
      simp only [Option.bind_eq_some, Option.some.injEq] at h
      obtain ⟨r1, h1, s2, h2, r3, h3, hr⟩ := h
      subst hr
      rw [glblasFree_addrs, (glblasScopy_addrs _ _ _ _ _ _ _ _ _ h3).2,
        render_addrs _ _ _ _ h2, (glblasScopy_addrs _ _ _ _ _ _ _ _ _ h1).2,
        hs1, filter_ne_append_fresh _ _ hfresh]

theorem glblasSasum_returns (wrap : Buffer R → Nat → Nat → Vec4 R) (ctx : Context)
    (s : Device R) (addr : Nat) (init : Nat → R) (N result x incx : Nat)
    (hx : x ∈ s.addrs) (hr : result ∈ s.addrs)
    (hN : N * 4 ≤ ctx.pbuffer_width * ctx.pbuffer_height * 16) :
    ∃ r, Registry.glblasSasum wrap ctx s addr init N result x incx = some r := by
  obtain ⟨bx, hbx⟩ := get_buffer_from_address_live s x hx
  obtain ⟨s1, hm, hs1⟩ := glblasMalloc_returns ctx s addr (N * sizeof_float) init hN
  have ht : addr ∈ s1.addrs := by rw [hs1]; simp
  have hx1 : x ∈ s1.addrs := by rw [hs1]; simp [hx]
  have hr1 : result ∈ s1.addrs := by rw [hs1]; simp [hr]
  obtain ⟨r1, e1, _, a1⟩ := glblasScopy_returns wrap ctx s1 N x 1 addr 1 hx1 ht
  obtain ⟨s2, e2, a2⟩ := render_returns r1.2 addr (fun t => sum_loop
      (fun m t => draw (get_op_dims N bx ctx).2.1 (get_op_dims N bx ctx).2.2 t
        (fs_sasum wrap t incx (get_op_dims N bx ctx).2.1 (get_op_dims N bx ctx).2.2 m))
      (N / 2) (N / 2) t) (by rw [a1]; exact ht)
  obtain ⟨r3, e3, _, a3⟩ := glblasScopy_returns wrap ctx s2 1 addr 1 result 1
    (by rw [a2, a1]; exact ht) (by rw [a2, a1]; exact hr1)
  refine ⟨(.SUCCESS, Registry.glblasFree r3.2 addr), ?_⟩
  unfold Registry.glblasSasum
  simp only [hbx, hm, e1, e2, e3, Option.bind_some, Option.some_bind, get_op_dims_status,
    ne_eq, not_true_eq_false, if_false]

theorem glblasSgemm4x4_addrs (wrap : Buffer R → Nat → Nat → Vec4 R) (ctx : Context)
    (s : Device R) (addra addrb : Nat) (inita initb : Nat → R)
    (transa transb : glblasOperation) (M N K : Int) (alpha : R) (a : Nat) (lda : Int) (b : Nat)
    (ldb : Int) (beta : R) (c : Nat) (ldc : Int) (r : glblasStatus × Device R)
    (ha : addra ∉ s.addrs) (hb : addrb ∉ s.addrs) (hab : addra ≠ addrb)
    (h : Registry.glblasSgemm4x4 wrap ctx s addra addrb inita initb transa transb M N K alpha a
      lda b ldb beta c ldc = some r) :
    r.2.addrs = s.addrs := by
  unfold Registry.glblasSgemm4x4 at h
  split at h
  · simp only [Option.some.injEq] at h
    subst h
    rfl
  · split at h
    · simp at h
    · simp only [get_op_dims_status, ne_eq, not_true_eq_false, if_false] at h
      simp only [Option.bind_eq_some] at h
      obtain ⟨ra, hra, rb, hrb, s3, hs3, s4, hs4, h⟩ := h
      split at h
      · rename_i ba bb hba hbb
        simp only [Option.bind_eq_some, Option.some.injEq] at h
        obtain ⟨s5, hs5, hr⟩ := h
        subst hr
        have h5 := render_addrs _ _ _ _ hs5
        -- the first temporary
        have hra' : (ra.1 = none ∧ ra.2.addrs = s.addrs)
            ∨ (ra.1 = some addra ∧ ra.2.addrs = s.addrs ++ [addra]) := by
          split at hra
          · simp only [Option.some.injEq] at hra
            subst hra
            exact Or.inl ⟨rfl, rfl⟩
          · split at hra
            · simp at hra
            · rename_i t s1 hm
              simp only [Option.some.injEq] at hra
              subst hra
              obtain ⟨e1, e2⟩ := glblasMalloc_some _ _ _ _ _ _ _ hm
              subst e1
              exact Or.inr ⟨rfl, e2⟩
        have hrb' : (rb.1 = none ∧ rb.2.addrs = ra.2.addrs)
            ∨ (rb.1 = some addrb ∧ rb.2.addrs = ra.2.addrs ++ [addrb]) := by
          split at hrb
          · split at hrb
            · simp at hrb
            · rename_i t s1 hm
              simp only [Option.some.injEq] at hrb
              subst hrb
              obtain ⟨e1, e2⟩ := glblasMalloc_some _ _ _ _ _ _ _ hm
              subst e1
              exact Or.inr ⟨rfl, e2⟩
          · simp only [Option.some.injEq] at hrb
            subst hrb
            exact Or.inl ⟨rfl, rfl⟩
        have h3 : s3.addrs = rb.2.addrs := by
          split at hs3
          · exact glblas_sgemm4x4_reorder_addrs _ _ _ _ _ _ _ hs3
          · simp only [Option.some.injEq] at hs3
            rw [hs3]
        have h4 : s4.addrs = s3.addrs := by
          split at hs4
          · exact glblas_sgemm4x4_reorder_addrs _ _ _ _ _ _ _ hs4
          · simp only [Option.some.injEq] at hs4
            rw [hs4]
        rcases hra' with ⟨e1, e2⟩ | ⟨e1, e2⟩ <;> rcases hrb' with ⟨f1, f2⟩ | ⟨f1, f2⟩
        · simp only [e1, f1]
          rw [h5, h4, h3, f2, e2]
        · simp only [e1, f1]
          rw [glblasFree_addrs, h5, h4, h3, f2, e2, filter_ne_append_fresh _ _ hb]
        · simp only [e1, f1]
          rw [glblasFree_addrs, h5, h4, h3, f2, e2, filter_ne_append_fresh _ _ ha]
        · simp only [e1, f1]
          rw [glblasFree_addrs, glblasFree_addrs, h5, h4, h3, f2, e2, List.filter_append,
            filter_ne_append_fresh _ _ ha]
          have : List.filter (fun n => decide (n ≠ addra)) [addrb] = [addrb] := by
            simp [Ne.symm hab]
          rw [this, filter_ne_append_fresh _ _ hb]
      · simp at h

theorem glblasSgemm4x4_returns (wrap : Buffer R → Nat → Nat → Vec4 R) (ctx : Context)
    (s : Device R) (addra addrb : Nat) (inita initb : Nat → R)
    (transa transb : glblasOperation) (M N K : Int) (alpha : R) (a : Nat) (lda : Int) (b : Nat)
    (ldb : Int) (beta : R) (c : Nat) (ldc : Int)
    (ha : a ∈ s.addrs) (hb : b ∈ s.addrs) (hc : c ∈ s.addrs)
    (hA : (M * K).toNat * 4 ≤ ctx.pbuffer_width * ctx.pbuffer_height * 16)
    (hB : (K * N).toNat * 4 ≤ ctx.pbuffer_width * ctx.pbuffer_height * 16) :
    ∃ r, Registry.glblasSgemm4x4 wrap ctx s addra addrb inita initb transa transb M N K alpha a
      lda b ldb beta c ldc = some r := by
  unfold Registry.glblasSgemm4x4
  cases hchk : sgemm4x4_check transa transb M N K lda ldb ldc with
  | some st => exact ⟨_, rfl⟩
  | none =>
    obtain ⟨bc, hbc⟩ := get_buffer_from_address_live s c hc
    simp only [hbc, get_op_dims_status, ne_eq, not_true_eq_false, if_false]
    -- the first temporary
    have hra : ∃ ra : Option Nat × Device R,
        (if transa.toBool = true then some (none, s)
          else match Registry.glblasMalloc ctx s addra ((M * K).toNat * sizeof_float) inita with
            | (none, _) => none
            | (some t, s1) => some (some t, s1)) = some ra
        ∧ a ∈ ra.2.addrs ∧ b ∈ ra.2.addrs ∧ c ∈ ra.2.addrs
        ∧ (∀ t, ra.1 = some t → t ∈ ra.2.addrs) := by
      by_cases hta : transa.toBool = true
      · exact ⟨(none, s), by rw [if_pos hta], ha, hb, hc, fun t e => by simp at e⟩
      · obtain ⟨s1, hm, hs1⟩ := glblasMalloc_returns ctx s addra ((M * K).toNat * sizeof_float)
          inita hA
        refine ⟨(some addra, s1), by rw [if_neg hta, hm], ?_, ?_, ?_, ?_⟩
        · rw [hs1]; simp [ha]
        · rw [hs1]; simp [hb]
        · rw [hs1]; simp [hc]
        · intro t e
          simp only [Option.some.injEq] at e
          subst e
          rw [hs1]; simp
    obtain ⟨ra, era, ha1, hb1, hc1, ht1⟩ := hra
    have hrb : ∃ rb : Option Nat × Device R,
        (if transb.toBool = true then
          match Registry.glblasMalloc ctx ra.2 addrb ((K * N).toNat * sizeof_float) initb with
            | (none, _) => none
            | (some t, s1) => some (some t, s1)
          else some (none, ra.2)) = some rb
        ∧ a ∈ rb.2.addrs ∧ b ∈ rb.2.addrs ∧ c ∈ rb.2.addrs
        ∧ (∀ t, ra.1 = some t → t ∈ rb.2.addrs)
        ∧ (∀ t, rb.1 = some t → t ∈ rb.2.addrs) := by
      by_cases htb : transb.toBool = true
      · obtain ⟨s1, hm, hs1⟩ := glblasMalloc_returns ctx ra.2 addrb
          ((K * N).toNat * sizeof_float) initb hB
        refine ⟨(some addrb, s1), by rw [if_pos htb, hm], ?_, ?_, ?_, ?_, ?_⟩
        · rw [hs1]; simp [ha1]
        · rw [hs1]; simp [hb1]
        · rw [hs1]; simp [hc1]
        · intro t e
          rw [hs1]; simp [ht1 t e]
        · intro t e
          simp only [Option.some.injEq] at e
          subst e
          rw [hs1]; simp
      · exact ⟨(none, ra.2), by rw [if_neg htb], ha1, hb1, hc1, ht1, fun t e => by simp at e⟩
    obtain ⟨rb, erb, ha2, hb2, hc2, ht2, hu2⟩ := hrb
    have hs3 : ∃ s3 : Device R,
        (match ra.1 with
          | some t => Registry.glblas_sgemm4x4_reorder wrap ctx rb.2 (M * K).toNat a t
          | none => some rb.2) = some s3 ∧ s3.addrs = rb.2.addrs := by
      cases h1 : ra.1 with
      | none => exact ⟨rb.2, rfl, rfl⟩
      | some t => exact glblas_sgemm4x4_reorder_returns wrap ctx rb.2 _ a t ha2 (ht2 t h1)
    obtain ⟨s3, es3, as3⟩ := hs3
    have hs4 : ∃ s4 : Device R,
        (match rb.1 with
          | some t => Registry.glblas_sgemm4x4_reorder wrap ctx s3 (K * N).toNat b t
          | none => some s3) = some s4 ∧ s4.addrs = s3.addrs := by
      cases h1 : rb.1 with
      | none => exact ⟨s3, rfl, rfl⟩
      | some t =>
        exact glblas_sgemm4x4_reorder_returns wrap ctx s3 _ b t (by rw [as3]; exact hb2)
          (by rw [as3]; exact hu2 t h1)
    obtain ⟨s4, es4, as4⟩ := hs4
    have hua : ra.1.getD a ∈ s4.addrs := by
      rw [as4, as3]
      cases h1 : ra.1 with
      | none => exact ha2
      | some t => exact ht2 t h1
    have hub : rb.1.getD b ∈ s4.addrs := by
      rw [as4, as3]
      cases h1 : rb.1 with
      | none => exact hb2
      | some t => exact hu2 t h1
    obtain ⟨ba, hba⟩ := get_buffer_from_address_live s4 _ hua
    obtain ⟨bb, hbb⟩ := get_buffer_from_address_live s4 _ hub
    simp only [era, erb, es3, es4, Option.bind_some, Option.some_bind, hba, hbb]
    exact render_bind_returns s4 c _ _ (by rw [as4, as3]; exact hc2)

end RegistryRoutineLemmas

section GemmChecks

theorem sgemm4x4_check_invalid (transa transb : glblasOperation) (M N K lda ldb ldc : Int) :
    sgemm4x4_check transa transb M N K lda ldb ldc = some .INVALID_VALUE
      ↔ ¬ (M = N ∧ N = K ∧ 0 ≤ M ∧ (4 : Int) ∣ M) := by
  unfold sgemm4x4_check
  have key : (Int.tmod M 4 = 0 ∧ Int.tmod N 4 = 0 ∧ Int.tmod K 4 = 0 ∧ M = N ∧ M = K
      ∧ M ≥ 0 ∧ N ≥ 0 ∧ K ≥ 0) ↔ (M = N ∧ N = K ∧ 0 ≤ M ∧ (4 : Int) ∣ M) := by
    constructor
    · rintro ⟨h1, _, _, h4, h5, h6, _, _⟩
      exact ⟨h4, h4 ▸ h5, h6, Int.dvd_of_tmod_eq_zero h1⟩
    · rintro ⟨h1, h2, h3, h4⟩
      subst h1
      subst h2
      have := Int.tmod_eq_zero_of_dvd h4
      exact ⟨this, this, this, rfl, rfl, h3, h3, h3⟩
  by_cases hP : (Int.tmod M 4 = 0 ∧ Int.tmod N 4 = 0 ∧ Int.tmod K 4 = 0 ∧ M = N ∧ M = K
      ∧ M ≥ 0 ∧ N ≥ 0 ∧ K ≥ 0)
  · rw [if_neg (not_not.mpr hP)]
    refine ⟨fun e => ?_, fun hn => absurd (key.mp hP) hn⟩
    split at e
    · simp at e
    · simp at e
  · rw [if_pos hP]
    simp only [true_iff]
    exact fun h' => hP (key.mpr h')

end GemmChecks

/-! ## Concrete runs on the registry -/

section RegistryExamples

open glblasOperation

/-- The four routines on the state `dev_blas`: each returns `SUCCESS` with the three
handles registered as before; the swap has exchanged the surfaces at 4096 and 8192, the sum
of `|1|, …, |16|` is 136. -/
theorem registry_runs_example :
    (Registry.glblasSswap gl_repeat ctx16 dev_blas 16384 zero_init 16 4096 1 8192 1).map
        (fun r => (r.1, r.2.addrs, (get_buffer_from_address r.2 4096).map (hostRead · 16)))
      = some (.SUCCESS, [4096, 8192, 12288], some iota16)
    ∧ (Registry.glblasSdot gl_repeat ctx16 dev_blas 16384 20480 zero_init zero_init 16 12288
        4096 1 8192 1).map (fun r => (r.1, r.2.addrs))
      = some (.SUCCESS, [4096, 8192, 12288])
    ∧ (Registry.glblasSasum gl_repeat ctx16 dev_blas 16384 zero_init 16 12288 8192 1).map
        (fun r => (r.1, r.2.addrs, (get_buffer_from_address r.2 12288).map (·.data 0)))
      = some (.SUCCESS, [4096, 8192, 12288], some 136)
    ∧ (Registry.glblasSgemm4x4 gl_repeat ctx16 dev_blas 16384 20480 zero_init zero_init
        GLBLAS_OP_N GLBLAS_OP_T 4 4 4 1 4096 4 8192 4 0 12288 4).map (fun r => (r.1, r.2.addrs))
      = some (.SUCCESS, [4096, 8192, 12288])
    ∧ ((Registry.glblasDestroy dev_blas).1.addrs, (Registry.glblasDestroy dev_blas).2)
      = ([], [4096, 8192, 12288]) := by
  decide

end RegistryExamples

/-! ## Padding flag, strides and pass schedule -/

section PaddingLemmas

theorem f32_of_nat_small (n : Nat) (h : n < 2 ^ 24) : f32_of_nat n = n := by
  unfold f32_of_nat
  rw [if_pos h]

theorem get_texture_dimensions_padded (size mw mh : Nat) :
    (get_texture_dimensions size mw mh).2.2.2 = decide (f32_of_nat size % 16 ≠ 0) := by
  unfold get_texture_dimensions
  simp only [FLOATS_PER_PIXEL, sizeof_float]
  split <;> rfl

theorem get_texture_dimensions_padded_small (size mw mh : Nat) (h : size < 2 ^ 24) :
    (get_texture_dimensions size mw mh).2.2.2 = decide (size % 16 ≠ 0) := by
  rw [get_texture_dimensions_padded, f32_of_nat_small size h]

theorem f32_of_nat_example : f32_of_nat 16777217 = 16777216 := by
  have hlog : Nat.log2 16777217 = 24 := by
    rw [Nat.log2_eq_log_two, Nat.log_eq_iff (Or.inl (by norm_num))]
    norm_num
  simp only [f32_of_nat, hlog]
  norm_num

theorem f32_of_nat_large (n : Nat) (h : 2 ^ 27 ≤ n) : f32_of_nat n % 16 = 0 := by
  have hn : n ≠ 0 := by
    have : 0 < 2 ^ 27 := by norm_num
    omega
  have hlog : 27 ≤ Nat.log2 n := (Nat.le_log2 hn).mpr h
  have h24 : ¬ n < 2 ^ 24 := by
    have : (2 : Nat) ^ 24 ≤ 2 ^ 27 := by norm_num
    omega
  obtain ⟨s, hs⟩ : ∃ s, Nat.log2 n + 1 - 24 = s + 4 := ⟨Nat.log2 n + 1 - 24 - 4, by omega⟩
  simp only [f32_of_nat, h24, if_false, hs]
  split
  · rw [pow_add]
    have : (2 : Nat) ^ 4 = 16 := by norm_num
    rw [this, ← Nat.mul_assoc]
    exact Nat.mul_mod_left _ _
  · rw [pow_add]
    have : (2 : Nat) ^ 4 = 16 := by norm_num
    rw [this, ← Nat.mul_assoc]
    exact Nat.mul_mod_left _ _

theorem get_texture_dimensions_padded_large (size mw mh : Nat) (h : 2 ^ 27 ≤ size) :
    (get_texture_dimensions size mw mh).2.2.2 = false := by
  rw [get_texture_dimensions_padded, f32_of_nat_large size h]
  rfl

end PaddingLemmas

section ScheduleLemmas

theorem sum_loop_record (fuel : Nat) : ∀ (tN : Nat) (acc : List Nat),
    sum_loop (fun m l => l ++ [m]) fuel tN acc = acc ++ pass_trace fuel tN := by
  induction fuel with
  | zero => intro tN acc; simp [pass_trace, sum_loop]
  | succ f ih =>
    intro tN acc
    unfold pass_trace
    by_cases h0 : tN = 0
    · simp [sum_loop, h0]
    · simp only [sum_loop, h0, if_false]
      rw [ih _ (acc ++ _), ih _ ([] ++ _)]
      simp

theorem pass_trace_zero (fuel : Nat) : pass_trace fuel 0 = [] := by
  unfold pass_trace
  exact sum_loop_zero _ _ _

theorem pass_trace_succ (fuel tN : Nat) (h : tN ≠ 0) :
    pass_trace (fuel + 1) tN
      = (if tN < 4 then 1 else tN) :: pass_trace fuel ((if tN < 4 then 1 else tN) / 2) := by
  unfold pass_trace
  simp only [sum_loop, h, if_false]
  rw [sum_loop_record]
  rfl

theorem sum_loop_eq_foldl {β : Type} (pass : Nat → β → β) (fuel : Nat) : ∀ (tN : Nat) (t : β),
    sum_loop pass fuel tN t = (pass_trace fuel tN).foldl (fun t m => pass m t) t := by
  induction fuel with
  | zero => intro tN t; simp [pass_trace, sum_loop]
  | succ f ih =>
    intro tN t
    by_cases h0 : tN = 0
    · rw [h0, sum_loop_zero, pass_trace_zero]; rfl
    · rw [pass_trace_succ f tN h0, List.foldl_cons, ← ih]
      simp only [sum_loop, h0, if_false]

theorem pass_trace_props (fuel : Nat) : ∀ tN : Nat, 0 < tN → tN ≤ fuel →
    (pass_trace fuel tN).length ≤ Nat.log 2 (2 * tN)
    ∧ (pass_trace fuel tN).head? = some (if tN < 4 then 1 else tN)
    ∧ (pass_trace fuel tN).getLast? = some 1
    ∧ List.Chain' (fun a b => b = if a / 2 < 4 then 1 else a / 2) (pass_trace fuel tN)
    ∧ ∀ m ∈ pass_trace fuel tN, m = 1 ∨ 4 ≤ m := by
  induction fuel with
  | zero => intro tN h0 h; omega
  | succ f ih =>
    intro tN h0 hf
    rw [pass_trace_succ f tN (by omega)]
    by_cases h4 : tN < 4
    · simp only [h4, if_true]
      have : (1 : Nat) / 2 = 0 := by norm_num
      rw [this, pass_trace_zero]
      refine ⟨?_, rfl, rfl, List.chain'_singleton _, ?_⟩
      · have : 1 ≤ Nat.log 2 (2 * tN) := by
          rw [← Nat.pow_le_iff_le_log (by norm_num) (by omega)]
          omega
        simpa using this
      · intro m hm
        simp at hm
        exact Or.inl hm
    · simp only [h4, if_false]
      have hpos : 0 < tN / 2 := by omega
      obtain ⟨i1, i2, i3, i4, i5⟩ := ih (tN / 2) hpos (by omega)
      have hne : pass_trace f (tN / 2) ≠ [] := by
        intro e
        rw [e] at i2
        simp at i2
      refine ⟨?_, rfl, ?_, ?_, ?_⟩
      · have h1 : Nat.log 2 (2 * (tN / 2)) ≤ Nat.log 2 tN :=
          Nat.log_mono_right (by omega)
        have h2 : Nat.log 2 (2 * tN) = Nat.log 2 tN + 1 := by
          rw [Nat.mul_comm, Nat.log_mul_base (by norm_num) (by omega)]
        simp only [List.length_cons]
        omega
      · cases hl : pass_trace f (tN / 2) with
        | nil => exact absurd hl hne
        | cons a rest => rw [List.getLast?_cons_cons, ← hl]; exact i3
      · rw [List.chain'_cons']
        refine ⟨fun y hy => ?_, i4⟩
        rw [i2] at hy
        simp only [Option.mem_def, Option.some.injEq] at hy
        exact hy.symm
      · intro m hm
        simp only [List.mem_cons] at hm
        rcases hm with hm | hm
        · right; omega
        · exact i5 m hm

end ScheduleLemmas

section IndexLemmas

variable {R : Type}

/-- The flat index of the elementwise kernels agrees with the row-major position of the
lane exactly on row 0 (or on a surface of width 0). -/
theorem frag_index_row_major_iff (f : Frag) (W l : Nat) :
    frag_index f W + l = 4 * (f.y * W + f.x) + l ↔ f.y * W = 0 := by
  unfold frag_index
  constructor <;> intro h <;> omega

theorem xindex_of_selected (i incx incy : Nat) (h : i % incy = 0) :
    xindex_of i incx incy = i / incy * incx := by
  unfold xindex_of
  have hmul : i / incy * incy = i := Nat.div_mul_cancel (Nat.dvd_of_mod_eq_zero h)
  have : (i : Int) + ((i / incy : Nat) : Int) * ((incx : Int) - (incy : Int))
      = ((i / incy * incx : Nat) : Int) := by
    have h2 : ((i / incy : Nat) : Int) * (incy : Int) = (i : Int) := by
      rw [← Nat.cast_mul, hmul]
    push_cast
    linarith
  rw [this, Int.toNat_natCast]

/-- Strided copy on a one-row surface: when `y` holds exactly `N` elements, `x` has the
shape of `y` and the source index `(e / incy) * incx` lies in that row, a selected element
`e` of `y` becomes element `(e / incy) * incx` of `x`; an element that is not selected is
kept. -/
theorem glblasScopy_strided_row (wrap : Buffer R → Nat → Nat → Vec4 R) (ctx : Context) (N : Nat)
    (x y : Buffer R) (incx incy : Nat) (hsz : N = y.size / sizeof_float) (hyh : y.height = 1)
    (hxw : x.width = y.width) (hxh : x.height = 1) (hN : N ≤ 4 * y.width)
    (e : Nat) (he : e < N) :
    (glblasScopy wrap ctx N x incx y incy).2.data e
      = if e % incy = 0 then
          (if e / incy * incx < 4 * y.width then x.data (e / incy * incx)
            else (texturePixel wrap x (e / incy * incx / 4) y.width 1).lane
              (e / incy * incx % 4))
        else y.data e := by
  have hp : e / 4 < y.width := by omega
  have hmod : e / 4 % y.width = e / 4 := Nat.mod_eq_of_lt hp
  have hdiv : e / 4 / y.width = 0 := Nat.div_eq_of_lt hp
  have hidx : 0 * y.width + e / 4 * 4 + e % 4 = e := by omega
  simp only [glblasScopy, get_op_dims_full N y ctx hsz, ne_eq, not_true_eq_false, if_false]
  rw [draw_data_inside _ _ _ _ _ (by rw [hmod]; exact hp) (by rw [hdiv, hyh]; norm_num)
    (by rw [hdiv, hyh]; norm_num)]
  simp only [fs_scopyv2, hmod, hdiv, frag_index]
  rw [Vec4.lane_build _ _ (Nat.mod_lt _ (by norm_num)), hidx]
  by_cases hsel : e % incy = 0
  · simp only [he, hsel, and_self, if_true, xindex_of_selected e incx incy hsel, hyh]
    split
    · rename_i hj
      have := texturePixel_own wrap x (e / incy * incx / 4) (by rw [hxw, hxh]; omega)
      rw [hxw, hxh] at this
      rw [this, texel_lane_mod]
    · rfl
  · simp only [hsel, and_false, if_false]
    have h2 := textureAt_own wrap y ⟨e / 4, 0, y.width, y.height⟩ rfl rfl hp
      (by rw [hyh]; norm_num)
    simp only [h2, Nat.zero_mul, Nat.zero_add, texel_lane_mod]

end IndexLemmas

section StrideLemmas

variable {R : Type} [LinearOrderedCommRing R]

/-- Scaling on a one-row surface of `⌈N/4⌉` pixels: the bound is inclusive, element `e` is
multiplied by `alpha` when `e ≤ N` and `e mod incx = 0`, and kept otherwise. -/
theorem glblasSscal_row_inclusive (wrap : Buffer R → Nat → Nat → Vec4 R) (ctx : Context)
    (N : Nat) (alpha : R) (x : Buffer R) (incx : Nat) (hxw : x.width = (N + 3) / 4)
    (hxh : x.height = 1) (hrow : (N + 3) / 4 ≤ ctx.pbuffer_width) (e : Nat)
    (he : e < 4 * x.width) :
    (glblasSscal wrap ctx N alpha x incx).2.data e
      = if e ≤ N ∧ e % incx = 0 then x.data e * alpha else x.data e := by
  have hp : e / 4 < x.width := by omega
  have hmod : e / 4 % x.width = e / 4 := Nat.mod_eq_of_lt hp
  have hdiv : e / 4 / x.width = 0 := Nat.div_eq_of_lt hp
  have hidx : 0 * x.width + e / 4 * 4 + e % 4 = e := by omega
  simp only [glblasSscal, get_op_dims_one_row N x ctx hxw hxh hrow, ne_eq, not_true_eq_false,
    if_false]
  rw [draw_data_inside _ _ _ _ _ (by rw [hmod]; exact hp) (by rw [hdiv, hxh]; norm_num)
    (by rw [hdiv, hxh]; norm_num)]
  simp only [fs_sscal, hmod, hdiv, frag_index]
  rw [Vec4.lane_build _ _ (Nat.mod_lt _ (by norm_num)), hidx]
  have h2 := textureAt_own wrap x ⟨e / 4, 0, x.width, x.height⟩ rfl rfl hp
    (by rw [hxh]; norm_num)
  simp only [h2, Nat.zero_mul, Nat.zero_add, texel_lane_mod]
  by_cases h1 : e ≤ N <;> by_cases hm : e % incx = 0 <;> simp [h1, hm, Nat.not_lt.mpr]

theorem glblasSscal_status (wrap : Buffer R → Nat → Nat → Vec4 R) (ctx : Context) (N : Nat)
    (alpha : R) (x : Buffer R) (incx : Nat) :
    (glblasSscal wrap ctx N alpha x incx).1 = .SUCCESS := by
  simp only [glblasSscal, get_op_dims_status, ne_eq, not_true_eq_false, if_false]

theorem glblasSaxpy_status (wrap : Buffer R → Nat → Nat → Vec4 R) (ctx : Context) (N : Nat)
    (alpha : R) (x : Buffer R) (incx : Nat) (y : Buffer R) (incy : Nat) :
    (glblasSaxpy wrap ctx N alpha x incx y incy).1 = .SUCCESS := by
  simp only [glblasSaxpy, get_op_dims_status, ne_eq, not_true_eq_false, if_false]

/-- The reorder pre-pass on one-row surfaces of `T / 4` pixels (`T` a multiple of 16):
`out[4p + lane] = in[p + lane * (T / 4)]`. -/
theorem glblas_sgemm4x4_reorder_row (wrap : Buffer R → Nat → Nat → Vec4 R) (ctx : Context)
    (m : Nat) (x y : Buffer R) (hsz : 16 * m = y.size / sizeof_float) (hyw : y.width = 4 * m)
    (hyh : y.height = 1) (hxw : x.width = 4 * m) (hxh : x.height = 1)
    (p lane : Nat) (hp : p < 4 * m) (hl : lane < 4) :
    (glblas_sgemm4x4_reorder wrap ctx (16 * m) x y).data (4 * p + lane)
      = x.data (p + lane * (4 * m)) := by
  have he4 : (4 * p + lane) / 4 = p := by omega
  have hem : (4 * p + lane) % 4 = lane := by omega
  have hmod : p % y.width = p := Nat.mod_eq_of_lt (by omega)
  have hdiv : p / y.width = 0 := Nat.div_eq_of_lt (by omega)
  simp only [glblas_sgemm4x4_reorder, get_op_dims_full (16 * m) y ctx hsz]
  rw [draw_data_inside _ _ _ _ _ (by rw [he4, hmod]; omega) (by rw [he4, hdiv, hyh]; norm_num)
    (by rw [he4, hdiv, hyh]; norm_num)]
  simp only [fs_sgemm4x4_reorder, he4, hem, hmod, hdiv, frag_index]
  rw [Vec4.lane_build _ _ hl]
  have hidx : (0 * y.width + p * 4) / 4 = p := by omega
  have hlt : 0 * y.width + p * 4 + lane < 16 * m := by omega
  have h4 : 16 * m / 4 = 4 * m := by omega
  simp only [hidx, hlt, if_true, h4]
  have hq : (p + 4 * m * lane) / 4 < x.width * x.height := by
    rw [hxw, hxh, Nat.mul_one, Nat.div_lt_iff_lt_mul (by norm_num)]
    have : 4 * m * lane ≤ 4 * m * 3 := Nat.mul_le_mul_left _ (by omega)
    omega
  have := texturePixel_own wrap x ((p + 4 * m * lane) / 4) hq
  rw [hxw, hxh] at this
  rw [hyw, hyh, this, texel_lane _ _ _ (Nat.mod_lt _ (by norm_num))]
  congr 1
  have h1 : 4 * m * lane = lane * (4 * m) := Nat.mul_comm _ _
  have h2 : lane * (4 * m) = 4 * (lane * m) := by ring
  omega

end StrideLemmas

section UploadLemmas

variable {β : Type}

/-- A partial host-to-device transfer uploads the staging area over the whole surface:
the device bytes from `size` on become what the staging area held. -/
theorem glblasMemcpy_partial_upload (s : Device β) (dst src size : Nat) (b : Buffer β)
    (hb : get_buffer_from_address s dst = some b) (hsize : size < b.size) :
    (glblasMemcpy s dst src size .glblasMemcpyHostToDevice).1 = .SUCCESS
    ∧ ∀ j, size ≤ j → j < surface_bytes b →
      (get_buffer_from_address (glblasMemcpy s dst src size .glblasMemcpyHostToDevice).2
        dst).map (fun b' => b'.data j) = some (s.pbuffer_host j) := by
  have hne : b.size ≠ size := by omega
  have hle : size ≤ b.size := by omega
  have hrun : glblasMemcpy s dst src size .glblasMemcpyHostToDevice
      = (.SUCCESS, memcpy_h2d s dst src size b) := by
    simp [glblasMemcpy, hb, hle]
  rw [hrun]
  refine ⟨rfl, fun j h1 h2 => ?_⟩
  have hnl : ¬ j < size := by omega
  simp only [memcpy_h2d, hne, ne_eq, not_false_eq_true, or_true, if_true,
    get_buffer_from_address]
  rw [find_node_store _ _ _ _ hb]
  simp [h2, hnl]

/-- A buffer of a whole number of pixels that fits one row has a surface of exactly
`byte_size` bytes. -/
theorem surface_bytes_one_row (ctx : Context) (size : Nat) (init : Nat → β) (b : Buffer β)
    (hP : (size + 15) / 16 ≤ ctx.pbuffer_width) (hh : 0 < ctx.pbuffer_height)
    (h16 : size % 16 = 0) (hb : glblasMalloc ctx size init = some b) :
    surface_bytes b = size := by
  rw [glblasMalloc_one_row ctx size init hP hh, Option.some.injEq] at hb
  subst hb
  simp only [surface_bytes, FLOATS_PER_PIXEL, sizeof_float]
  omega

/-- A buffer of a whole number of pixels that takes several rows, the last of them not
full, has a surface of more than `byte_size` bytes. -/
theorem surface_bytes_rows (ctx : Context) (size : Nat) (init : Nat → β) (b : Buffer β)
    (h16 : size % 16 = 0) (hrows : ctx.pbuffer_width < size / 16)
    (hrem : size / 16 % ctx.pbuffer_width ≠ 0) (hb : glblasMalloc ctx size init = some b) :
    size < surface_bytes b := by
  unfold glblasMalloc at hb
  split at hb
  · rename_i hsz
    simp only [Option.some.injEq] at hb
    subst hb
    have hc : (size + FLOATS_PER_PIXEL * sizeof_float - 1) / (FLOATS_PER_PIXEL * sizeof_float)
        = size / 16 := by
      simp only [FLOATS_PER_PIXEL, sizeof_float]
      omega
    have hnle : ¬ size / 16 ≤ ctx.pbuffer_width := by omega
    simp only [surface_bytes, get_texture_dimensions, hc, hnle, if_false]
    simp only [FLOATS_PER_PIXEL, sizeof_float]
    have hw : 0 < ctx.pbuffer_width := by
      rcases Nat.eq_zero_or_pos ctx.pbuffer_width with h0 | h0
      · rw [h0] at hsz
        simp only [FLOATS_PER_PIXEL, sizeof_float, Nat.zero_mul] at hsz
        omega
      · exact h0
    have h1 := le_ceil_div_mul (size / 16) ctx.pbuffer_width hw
    have h2 : ctx.pbuffer_width * ((size / 16 + ctx.pbuffer_width - 1) / ctx.pbuffer_width)
        ≠ size / 16 := by
      intro e
      apply hrem
      rw [← e]
      exact Nat.mul_mod_right _ _
    omega
  · simp at hb

end UploadLemmas

/-! ## The widths of the C types, and what a transfer moves -/

/-- A `size_t` value below `2^31` is converted to `int` unchanged. -/
theorem to_int_of_lt (v : Nat) (h : v < 2 ^ 31) : Machine.to_int v = (v : Int) := by
  unfold Machine.to_int
  norm_num at h ⊢
  omega

/-- A non-negative `int` is converted to `size_t` unchanged. -/
theorem to_size_t_natCast (n : Nat) (h : n < 2 ^ 64) : Machine.to_size_t (n : Int) = n := by
  unfold Machine.to_size_t
  norm_num at h ⊢
  omega

/-- For a size below `2^35 - 15` and `1 ≤ max_width < 2^31` nothing wraps and nothing is
truncated: the function at the widths of the C types returns what the unbounded
`get_texture_dimensions` returns. -/
theorem machine_get_texture_dimensions_eq (size max_width max_height : Nat)
    (hs : size < 2 ^ 35 - 15) (hw : 1 ≤ max_width) (hwb : max_width < 2 ^ 31) :
    Machine.get_texture_dimensions size max_width max_height
      = ((get_texture_dimensions size max_width max_height).1,
         ((get_texture_dimensions size max_width max_height).2.1 : Int),
         ((get_texture_dimensions size max_width max_height).2.2.1 : Int),
         (get_texture_dimensions size max_width max_height).2.2.2) := by
  have hs1 : size % 2 ^ 64 = size := Nat.mod_eq_of_lt (by norm_num at hs ⊢; omega)
  have hs2 : (size + (FLOATS_PER_PIXEL * sizeof_float) - 1) % 2 ^ 64
      = size + (FLOATS_PER_PIXEL * sizeof_float) - 1 :=
    Nat.mod_eq_of_lt (by simp only [FLOATS_PER_PIXEL, sizeof_float]; norm_num at hs ⊢; omega)
  have hmw : Machine.to_size_t (max_width : Int) = max_width :=
    to_size_t_natCast _ (by norm_num at hwb ⊢; omega)
  have hc : (size + (FLOATS_PER_PIXEL * sizeof_float) - 1) / (FLOATS_PER_PIXEL * sizeof_float)
      < 2 ^ 31 := by
    simp only [FLOATS_PER_PIXEL, sizeof_float]; norm_num at hs ⊢; omega
  unfold Machine.get_texture_dimensions get_texture_dimensions
  simp only [hs1, hs2, hmw]
  generalize hcount : (size + (FLOATS_PER_PIXEL * sizeof_float) - 1)
    / (FLOATS_PER_PIXEL * sizeof_float) = count at hc ⊢
  by_cases hle : count ≤ max_width
  · simp only [if_pos hle]
    rw [to_int_of_lt _ hc]
    simp
  · simp only [if_neg hle]
    have hh : (count + max_width - 1) / max_width ≤ count := by
      rw [Nat.div_le_iff_le_mul_add_pred (by omega)]
      have : count * 1 ≤ max_width * count := by
        rw [Nat.mul_comm max_width]; exact Nat.mul_le_mul_left _ hw
      omega
    have h3 : (count + max_width - 1) % 2 ^ 64 = count + max_width - 1 :=
      Nat.mod_eq_of_lt (by norm_num at hc hwb ⊢; omega)
    rw [h3, to_int_of_lt _ (lt_of_le_of_lt hh hc)]
    simp only [le_refl, true_and, Nat.cast_le, Nat.cast_one]

/-- In that range the status is `DIMENSION_OVERFLOW` exactly when the size exceeds the
capacity `max_width * max_height * 16`. -/
theorem machine_get_texture_dimensions_status (size max_width max_height : Nat)
    (hs : size < 2 ^ 35 - 15) (hw : 1 ≤ max_width) (hwb : max_width < 2 ^ 31)
    (hh : 1 ≤ max_height) :
    (Machine.get_texture_dimensions size max_width max_height).1 = .DIMENSION_OVERFLOW
      ↔ size > max_width * max_height * 16 := by
  rw [machine_get_texture_dimensions_eq size max_width max_height hs hw hwb]
  exact get_texture_dimensions_status size max_width max_height hw hh

section TransferEffect

variable {β : Type}

open glblasMemcpyKind

/-- A host-to-device `glblasMemcpy` of `size` bytes into the live buffer `b` at `dst`
returns `SUCCESS`, leaves host memory as it was, and afterwards byte `j < size` of the
surface of the buffer at `dst` is host byte `src + j`. -/
theorem glblasMemcpy_h2d_transfers (s : Device β) (dst src size : Nat) (b : Buffer β)
    (hlive : get_buffer_from_address s dst = some b) (hsize : size ≤ b.size)
    (hcap : b.size ≤ surface_bytes b) :
    glblasMemcpy s dst src size glblasMemcpyHostToDevice
      = (.SUCCESS, memcpy_h2d s dst src size b)
    ∧ (memcpy_h2d s dst src size b).host = s.host
    ∧ ∀ j, j < size →
        (get_buffer_from_address (memcpy_h2d s dst src size b) dst).map (fun b1 => b1.data j)
          = some (s.host (src + j)) := by
  refine ⟨by simp [glblasMemcpy, hlive, hsize], ?_, fun j hj => ?_⟩
  · unfold memcpy_h2d
    split <;> rfl
  · have hjs : j < surface_bytes b := by omega
    by_cases hst : b.is_padded ∨ b.size ≠ size
    · simp only [memcpy_h2d, hst, if_true, get_buffer_from_address]
      rw [find_node_store _ _ _ _ hlive]
      simp only [Option.map_some', hjs, hj, if_true]
    · simp only [memcpy_h2d, hst, if_false, get_buffer_from_address]
      rw [find_node_store _ _ _ _ hlive]
      simp only [Option.map_some', hjs, if_true]

/-- A device-to-host `glblasMemcpy` of `size` bytes from the live buffer `b` at `src`
returns `SUCCESS`, leaves the registry and the surfaces as they were, and afterwards host
byte `dst + j` is byte `j` of the surface of `b`, for `j < size`. -/
theorem glblasMemcpy_d2h_transfers (s : Device β) (dst src size : Nat) (b : Buffer β)
    (hlive : get_buffer_from_address s src = some b) (hsize : size ≤ b.size)
    (hcap : b.size ≤ surface_bytes b) :
    glblasMemcpy s dst src size glblasMemcpyDeviceToHost
      = (.SUCCESS, memcpy_d2h s dst size b)
    ∧ (memcpy_d2h s dst size b).buffers = s.buffers
    ∧ ∀ j, j < size → (memcpy_d2h s dst size b).host (dst + j) = b.data j := by
  refine ⟨by simp [glblasMemcpy, hlive, hsize], ?_, fun j hj => ?_⟩
  · unfold memcpy_d2h
    split <;> rfl
  · have hjs : j < surface_bytes b := by omega
    by_cases hst : b.is_padded ∨ b.size ≠ size
    · simp only [memcpy_d2h, hst, if_true]
      have hd : dst ≤ dst + j ∧ dst + j < dst + size := by omega
      simp only [hd, and_self, if_true, Nat.add_sub_cancel_left, hjs]
    · simp only [memcpy_d2h, hst, if_false]
      have hd : dst ≤ dst + j ∧ dst + j < dst + surface_bytes b := by omega
      simp only [hd, and_self, if_true, Nat.add_sub_cancel_left]

end TransferEffect

/-! ## The claims -/

section Claims

open glblasOperation glblasMemcpyKind

variable {R : Type} [LinearOrderedCommRing R] {β : Type}

/-- Claim C1 (defect in the code): `glblasSdot(N, result, x, 1, y, 1)` should leave the dot
product in element 0 of `result` for values of either sign.  The terminal pass of
`glblas_fs_src_sdotv2_sum` takes `abs` of the four lane sums: for `x = [1,1,1,1]`,
`y = [2,2,2,2]` the result is 8, and for `y = [-2,-2,-2,-2]` it is 8 again, not -8. -/
theorem glblasSdot_terminal_abs :
    (glblasSdot gl_repeat ctx16 zero_init zero_init 4 (device_vector ctx16 [0])
        (device_vector ctx16 [1, 1, 1, 1]) 1 (device_vector ctx16 [2, 2, 2, 2]) 1).map
      (fun r => (r.1, r.2.data 0)) = some (.SUCCESS, 8)
    ∧ (glblasSdot gl_repeat ctx16 zero_init zero_init 4 (device_vector ctx16 [0])
        (device_vector ctx16 [1, 1, 1, 1]) 1 (device_vector ctx16 [-2, -2, -2, -2]) 1).map
      (fun r => (r.1, r.2.data 0)) = some (.SUCCESS, 8)
    ∧ (∑ i in Finset.range 4, (device_vector ctx16 [1, 1, 1, 1]).data i
        * (device_vector ctx16 [-2, -2, -2, -2]).data i) = -8 := by
  decide

/-- Claim C2 (defect in the code): `glblasSasum(N, result, x, 1)` should store
`Σ_{i<N} |x[i]|` in element 0 of `result` for every `N ≥ 1`.  For `N = 12` (a multiple of
4, not a power of two) and `x` twelve ones the call returns `SUCCESS` with 8, not 12: the
halving loop never folds the third pixel into pixel 0.  For `N = 1` and `x = [-1]` no pass
runs and the result is -1, not 1.  For `N = 2` and `x = [1, 1]` the terminal pass adds the
two lanes of the temporary that the copy did not write: with a fresh temporary holding 5
the result is 12, not 2. -/
theorem glblasSasum_not_every_length :
    (glblasSasum gl_repeat ctx16 zero_init 12 (device_vector ctx16 [0])
        (device_vector ctx16 [1, 1, 1, 1, 1, 1, 1, 1, 1, 1, 1, 1]) 1).map
      (fun r => (r.1, r.2.data 0)) = some (.SUCCESS, 8)
    ∧ (∑ i in Finset.range 12,
        |(device_vector ctx16 [1, 1, 1, 1, 1, 1, 1, 1, 1, 1, 1, 1]).data i|) = 12
    ∧ (glblasSasum gl_repeat ctx16 zero_init 1 (device_vector ctx16 [0])
        (device_vector ctx16 [-1]) 1).map
      (fun r => (r.1, r.2.data 0)) = some (.SUCCESS, -1)
    ∧ (∑ i in Finset.range 1, |(device_vector ctx16 [-1]).data i|) = 1
    ∧ (glblasSasum gl_repeat ctx16 five_init 2 (device_vector ctx16 [0])
        (device_vector ctx16 [1, 1]) 1).map
      (fun r => (r.1, r.2.data 0)) = some (.SUCCESS, 12)
    ∧ (∑ i in Finset.range 2, |(device_vector ctx16 [1, 1]).data i|) = 2 := by
  decide

/-- The lengths on which the halving loop of `glblasSasum` does visit every pixel: for every
`N = 2^k` with `k ≥ 2` that fits one row of the context (`N ≤ 4 * max_width`) and every
device vector `x` holding exactly `N` elements (its surface is `N/4` pixels wide and one row
high), `glblasSasum(N, result, x, 1)` returns `SUCCESS` and stores `Σ_{i<N} |x[i]|` in
element 0 of `result`, whatever the wrap mode and whatever the fresh temporary held. -/
theorem glblasSasum_pow2 (wrap : Buffer R → Nat → Nat → Vec4 R) (ctx : Context)
    (init : Nat → R) (k : Nat) (result x : Buffer R)
    (hk : 2 ≤ k) (hrow : 2 ^ k ≤ 4 * ctx.pbuffer_width) (hph : 0 < ctx.pbuffer_height)
    (hxs : x.size = 4 * 2 ^ k) (hxw : x.width = 2 ^ k / 4) (hxh : x.height = 1)
    (hrw : 0 < result.width) (hrh : 0 < result.height) :
    (glblasSasum wrap ctx init (2 ^ k) result x 1).map (fun r => (r.1, r.2.data 0))
      = some (.SUCCESS, ∑ i in Finset.range (2 ^ k), |x.data i|) := by
  obtain ⟨j, rfl⟩ : ∃ j, k = j + 2 := ⟨k - 2, by omega⟩
  have hpos : 0 < 2 ^ j := Nat.pow_pos (by norm_num)
  have hN : 2 ^ (j + 2) = 4 * 2 ^ j := by ring
  have hP : 2 ^ j ≤ ctx.pbuffer_width := by omega
  have hxw' : x.width = 2 ^ j := by omega
  have hfull : 2 ^ (j + 2) = x.size / sizeof_float := by simp only [sizeof_float]; omega
  have ht0 := glblasMalloc_row ctx (2 ^ j) init hP hph
  rw [← hN] at ht0
  generalize hb : (decide (f32_of_nat (2 ^ (j + 2) * sizeof_float)
    % (FLOATS_PER_PIXEL * sizeof_float) ≠ 0)) = pad at ht0
  set t0 : Buffer R := ⟨2 ^ (j + 2) * sizeof_float, 2 ^ j, 1, pad, init⟩ with ht0def
  have hcopy : ∀ e, e < 2 ^ (j + 2) →
      (glblasScopy wrap ctx (2 ^ (j + 2)) x 1 t0 1).2.data e = x.data e := by
    intro e he
    exact glblasScopy_row wrap ctx _ x t0 (by simp [t0, sizeof_float]) rfl
      (by rw [hxw']) hxh (by simp only [t0]; omega) e he
  have hcw : (glblasScopy wrap ctx (2 ^ (j + 2)) x 1 t0 1).2.width = 2 ^ j := by
    simp only [glblasScopy, get_op_dims_status, ne_eq, not_true_eq_false, if_false, draw_width, t0]
  have hch : (glblasScopy wrap ctx (2 ^ (j + 2)) x 1 t0 1).2.height = 1 := by
    simp only [glblasScopy, get_op_dims_status, ne_eq, not_true_eq_false, if_false, draw_height, t0]
  have hsum : ∑ i in Finset.range (2 ^ (j + 2)), |x.data i|
      = ∑ i in Finset.range (2 ^ (j + 2)),
          |(glblasScopy wrap ctx (2 ^ (j + 2)) x 1 t0 1).2.data i| :=
    Finset.sum_congr rfl fun i hi => by rw [hcopy i (Finset.mem_range.mp hi)]
  simp only [glblasSasum, get_op_dims_status, ne_eq, not_true_eq_false, if_false, ht0,
    Option.map_some', Option.some.injEq, Prod.mk.injEq, true_and]
  rw [get_op_dims_full _ x ctx hfull, hxw', hxh, hsum]
  simp only
  generalize (glblasScopy wrap ctx (2 ^ (j + 2)) x 1 t0 1).2 = T at hcw hch ⊢
  have hlw := sum_loop_width (fun m t => draw (2 ^ j) 1 t (fs_sasum wrap t 1 (2 ^ j) 1 m))
    (fun _ _ => rfl) (2 ^ (j + 2) / 2) (2 ^ (j + 2) / 2) T
  have hlh := sum_loop_height (fun m t => draw (2 ^ j) 1 t (fs_sasum wrap t 1 (2 ^ j) 1 m))
    (fun _ _ => rfl) (2 ^ (j + 2) / 2) (2 ^ (j + 2) / 2) T
  rw [glblasScopy_first wrap ctx _ result (by omega) (by rw [hlw, hcw]; exact hpos)
    (by rw [hlh, hch]; norm_num) hrw hrh]
  clear hlw hlh
  cases j with
  | zero =>
    have h2 : 2 ^ (0 + 2) / 2 = 1 + 1 := by norm_num
    rw [h2, sum_loop_last _ _ _ _ (by norm_num) (by norm_num),
      sasum_pass_final wrap _ T hcw hch (by norm_num)]
    simp [Finset.sum_range_succ]
  | succ i =>
    have h2 : 2 ^ (i + 1 + 2) / 2 = 4 * 2 ^ i := by
      have : 2 ^ (i + 1 + 2) = 2 * (4 * 2 ^ i) := by ring
      omega
    have h3 : 2 ^ (i + 1 + 2) = 8 * 2 ^ i := by ring
    rw [h2, sasum_loop_sum wrap (2 ^ (i + 1)) i _ T hcw hch le_rfl (two_pow_ge i), h3]

/-- Witness of the hypotheses of `glblasSasum_pow2`: `N = 4`, `x = [1,-2,3,-4]` in the
context of the demos. -/
theorem glblasSasum_pow2_witness :
    2 ≤ 2 ∧ 2 ^ 2 ≤ 4 * ctx16.pbuffer_width ∧ 0 < ctx16.pbuffer_height
    ∧ (device_vector ctx16 [1, -2, 3, -4]).size = 4 * 2 ^ 2
    ∧ (device_vector ctx16 [1, -2, 3, -4]).width = 2 ^ 2 / 4
    ∧ (device_vector ctx16 [1, -2, 3, -4]).height = 1
    ∧ 0 < (device_vector ctx16 [0]).width ∧ 0 < (device_vector ctx16 [0]).height
    ∧ (glblasSasum gl_repeat ctx16 zero_init (2 ^ 2) (device_vector ctx16 [0])
        (device_vector ctx16 [1, -2, 3, -4]) 1).map (fun r => (r.1, r.2.data 0))
      = some (.SUCCESS, ∑ i in Finset.range (2 ^ 2), |(device_vector ctx16 [1, -2, 3, -4]).data i|) :=
  ⟨by decide, by decide, by decide, by decide, by decide, by decide, by decide, by decide,
    glblasSasum_pow2 gl_repeat ctx16 zero_init 2 (device_vector ctx16 [0])
      (device_vector ctx16 [1, -2, 3, -4]) (by decide) (by decide) (by decide) (by decide)
      (by decide) (by decide) (by decide) (by decide)⟩

/-- Claim C3 (defect in the code): `glblasSgemm` should set `C[idx]` to
`α·Σ_l opA(row,l)·opB(l,col) + β·C_old[idx]` for both transpose flags.  With `transb = T`
the kernel normalises the texture coordinates of `B` by `bdims.y` (the height of the
surface, 1) and `k`, and reads pixel 0 of `B` for every `l`: for `M = N = K = 4`, `A` the
identity, `B = 1..16`, `α = 1`, `β = 0` the result is `[1,1,1,1,2,2,2,2,..]` instead of the
transpose of `B`; at `idx = 1` the code stores 1 where the claim requires 5. -/
theorem glblasSgemm_transb_wrong :
    (glblasSgemm gl_repeat ctx128 GLBLAS_OP_N GLBLAS_OP_T 4 4 4 1 (device_vector ctx128 ident4) 4
        (device_vector ctx128 iota16) 4 0 (device_vector ctx128 zeros16) 4).1 = .SUCCESS
    ∧ hostRead (glblasSgemm gl_repeat ctx128 GLBLAS_OP_N GLBLAS_OP_T 4 4 4 1
        (device_vector ctx128 ident4) 4 (device_vector ctx128 iota16) 4 0
        (device_vector ctx128 zeros16) 4).2 16
      = [1, 1, 1, 1, 2, 2, 2, 2, 3, 3, 3, 3, 4, 4, 4, 4]
    ∧ (List.range 16).map (sgemm_spec false true 4 4 1 (device_vector ctx128 ident4).data 4
        (device_vector ctx128 iota16).data 4 0 (device_vector ctx128 zeros16).data)
      = [1, 5, 9, 13, 2, 6, 10, 14, 3, 7, 11, 15, 4, 8, 12, 16]
    ∧ (glblasSgemm gl_repeat ctx128 GLBLAS_OP_N GLBLAS_OP_T 4 4 4 1
        (device_vector ctx128 ident4) 4 (device_vector ctx128 iota16) 4 0
        (device_vector ctx128 zeros16) 4).2.data 1
      ≠ sgemm_spec false true 4 4 1 (device_vector ctx128 ident4).data 4
        (device_vector ctx128 iota16).data 4 0 (device_vector ctx128 zeros16).data 1 := by
  decide

/-- Claim C4 (defect in the code): `glblasSgemm` should store element `(i, j)` of the result
at flat index `i + j*ldc` of `C` and leave the other cells of `C` unchanged.  For `M = 1`,
`N = 2`, `K = 1`, `ldc = 2`, `A = [1]`, `B = [7, 8]`, `α = β = 1` and `C = [0,0,0,0]` the
call returns with `C = [7,8,0,0]`: the element `(0,1)`, of value 8, lands at flat index 1,
which should have been left unchanged, and flat index `0 + 1*2` keeps its 0. -/
theorem glblasSgemm_ignores_ldc :
    hostRead (glblasSgemm gl_repeat ctx128 GLBLAS_OP_N GLBLAS_OP_N 1 2 1 1
        (device_vector ctx128 [1]) 1 (device_vector ctx128 [7, 8]) 1 1
        (device_vector ctx128 [0, 0, 0, 0]) 2).2 4 = [7, 8, 0, 0]
    ∧ (glblasSgemm gl_repeat ctx128 GLBLAS_OP_N GLBLAS_OP_N 1 2 1 1
        (device_vector ctx128 [1]) 1 (device_vector ctx128 [7, 8]) 1 1
        (device_vector ctx128 [0, 0, 0, 0]) 2).2.data (0 + 1 * 2) ≠ 8
    ∧ (glblasSgemm gl_repeat ctx128 GLBLAS_OP_N GLBLAS_OP_N 1 2 1 1
        (device_vector ctx128 [1]) 1 (device_vector ctx128 [7, 8]) 1 1
        (device_vector ctx128 [0, 0, 0, 0]) 2).2.data 1
      ≠ (device_vector ctx128 [0, 0, 0, 0]).data 1 := by
  decide

/-- Where `glblasSgemm` does store the result: `ldc` is never read.  For every
`ldc ≥ max(1, M)` and `C` a one-row surface of `⌈M*N/4⌉` pixels, the call returns `SUCCESS`,
the element the kernel computes for `(i, j)`, `i < M`, `j < N`, which is `α·val + C_old·β`
with `val` the kernel's accumulation `sgemm_val`, is stored at flat index `i + j*M` (the
packed position, which is `i + j*ldc` only for `ldc = M` or `j = 0`), and when `β ≠ 0` every
cell at flat index `≥ M*N` is left unchanged. -/
theorem glblasSgemm_packed (wrap : Buffer R → Nat → Nat → Vec4 R) (ctx : Context)
    (transa transb : glblasOperation) (M N K lda ldb : Nat) (ldc : Int) (alpha beta : R)
    (a b c : Buffer R) (hM : 0 < M) (hldc : max 1 (M : Int) ≤ ldc)
    (hcw : c.width = (M * N + 3) / 4) (hch : c.height = 1)
    (hrow : (M * N + 3) / 4 ≤ ctx.pbuffer_width) :
    (glblasSgemm wrap ctx transa transb M N K alpha a lda b ldb beta c ldc).1 = .SUCCESS
    ∧ (∀ i j, i < M → j < N →
        (glblasSgemm wrap ctx transa transb M N K alpha a lda b ldb beta c ldc).2.data (i + j * M)
          = alpha * sgemm_val wrap a b lda ldb transa.toBool transb.toBool
              (if transa.toBool then K else a.width) (if transa.toBool then a.width else K)
              (if transb.toBool then b.height else K) (if transb.toBool then K else b.height)
              K i j
            + c.data (i + j * M) * beta)
    ∧ (beta ≠ 0 → ∀ e, M * N ≤ e →
        (glblasSgemm wrap ctx transa transb M N K alpha a lda b ldb beta c ldc).2.data e
          = c.data e) := by
  rw [glblasSgemm_packed_aux wrap ctx transa transb M N K lda ldb ldc alpha beta a b c hldc hcw
    hch hrow]
  refine ⟨rfl, ?_, ?_⟩
  · intro i j hi hj
    have he : i + j * M < M * N := by
      calc i + j * M < M + j * M := by omega
        _ = (j + 1) * M := by ring
        _ ≤ N * M := Nat.mul_le_mul_right M hj
        _ = M * N := Nat.mul_comm _ _
    have hp : (i + j * M) / 4 < c.width := by omega
    have hmod : (i + j * M) / 4 % c.width = (i + j * M) / 4 := Nat.mod_eq_of_lt hp
    have hdiv : (i + j * M) / 4 / c.width = 0 := Nat.div_eq_of_lt hp
    have hidx : 0 * c.width + (i + j * M) / 4 * 4 + (i + j * M) % 4 = i + j * M := by omega
    have hi' : (i + j * M) % M = i := by
      rw [Nat.add_mul_mod_self_right, Nat.mod_eq_of_lt hi]
    have hj' : (i + j * M) / M = j := by
      rw [Nat.add_mul_div_right _ _ hM, Nat.div_eq_of_lt hi, Nat.zero_add]
    rw [draw_data_inside _ _ _ _ _ (by rw [hmod]; exact hp) (by rw [hdiv, hch]; norm_num)
      (by rw [hdiv, hch]; norm_num)]
    simp only [fs_sgemm, hmod, hdiv, frag_index]
    rw [Vec4.lane_build _ _ (Nat.mod_lt _ (by norm_num)), hidx]
    simp only [he, if_true, hi', hj']
    congr 1
    by_cases hb : beta = 0
    · simp [hb]
    · have h2 := textureAt_own wrap c ⟨(i + j * M) / 4, 0, c.width, c.height⟩ rfl rfl hp
        (by rw [hch]; norm_num)
      simp only [ne_eq, hb, not_false_eq_true, if_true, h2, Nat.zero_mul, Nat.zero_add,
        texel_lane_mod]
  · intro hb e he
    by_cases hin : e / 4 % c.width < c.width ∧ e / 4 / c.width < c.height
        ∧ e / 4 / c.width < c.height
    · have hW : 0 < c.width := by omega
      have hrow : e / 4 / c.width = 0 := by
        have := hin.2.2
        rw [hch] at this
        exact Nat.lt_one_iff.mp this
      have hp : e / 4 < c.width := by
        rcases Nat.lt_or_ge (e / 4) c.width with h | h
        · exact h
        · have := (Nat.le_div_iff_mul_le hW).mpr (by simpa using h : 1 * c.width ≤ e / 4)
          omega
      have hmod : e / 4 % c.width = e / 4 := Nat.mod_eq_of_lt hp
      have hidx : 0 * c.width + e / 4 * 4 + e % 4 = e := by omega
      rw [draw_data_inside _ _ _ _ _ hin.1 hin.2.1 hin.2.2]
      simp only [fs_sgemm, hmod, hrow, frag_index]
      rw [Vec4.lane_build _ _ (Nat.mod_lt _ (by norm_num)), hidx]
      have hnot : ¬ e < M * N := by omega
      have h2 := textureAt_own wrap c ⟨e / 4, 0, c.width, c.height⟩ rfl rfl hp
        (by rw [hch]; norm_num)
      simp only [hnot, if_false, ne_eq, hb, not_false_eq_true, if_true, h2, Nat.zero_mul,
        Nat.zero_add, texel_lane_mod]
    · exact draw_data_outside _ _ _ _ _ hin

/-- Witness of the hypotheses of `glblasSgemm_packed`: the input of
`glblasSgemm_ignores_ldc`, `M = 1`, `N = 2`, `K = 1`, `ldc = 2`, `C` of four floats. -/
theorem glblasSgemm_packed_witness :
    0 < 1 ∧ max 1 ((1 : Nat) : Int) ≤ 2
    ∧ (device_vector ctx128 [0, 0, 0, 0]).width = (1 * 2 + 3) / 4
    ∧ (device_vector ctx128 [0, 0, 0, 0]).height = 1
    ∧ (1 * 2 + 3) / 4 ≤ ctx128.pbuffer_width
    ∧ ((glblasSgemm gl_repeat ctx128 GLBLAS_OP_N GLBLAS_OP_N (1 : Nat) (2 : Nat) (1 : Nat) 1
        (device_vector ctx128 [1]) (1 : Nat) (device_vector ctx128 [7, 8]) (1 : Nat) 1
        (device_vector ctx128 [0, 0, 0, 0]) 2).1 = .SUCCESS
      ∧ (∀ i j, i < 1 → j < 2 →
        (glblasSgemm gl_repeat ctx128 GLBLAS_OP_N GLBLAS_OP_N (1 : Nat) (2 : Nat) (1 : Nat) 1
          (device_vector ctx128 [1]) (1 : Nat) (device_vector ctx128 [7, 8]) (1 : Nat) 1
          (device_vector ctx128 [0, 0, 0, 0]) 2).2.data (i + j * 1)
          = 1 * sgemm_val gl_repeat (device_vector ctx128 [1]) (device_vector ctx128 [7, 8])
              1 1 GLBLAS_OP_N.toBool GLBLAS_OP_N.toBool
              (if GLBLAS_OP_N.toBool then 1 else (device_vector ctx128 [1]).width)
              (if GLBLAS_OP_N.toBool then (device_vector ctx128 [1]).width else 1)
              (if GLBLAS_OP_N.toBool then (device_vector ctx128 [7, 8]).height else 1)
              (if GLBLAS_OP_N.toBool then 1 else (device_vector ctx128 [7, 8]).height)
              1 i j
            + (device_vector ctx128 [0, 0, 0, 0]).data (i + j * 1) * 1)
      ∧ ((1 : Int) ≠ 0 → ∀ e, 1 * 2 ≤ e →
        (glblasSgemm gl_repeat ctx128 GLBLAS_OP_N GLBLAS_OP_N (1 : Nat) (2 : Nat) (1 : Nat) 1
          (device_vector ctx128 [1]) (1 : Nat) (device_vector ctx128 [7, 8]) (1 : Nat) 1
          (device_vector ctx128 [0, 0, 0, 0]) 2).2.data e
          = (device_vector ctx128 [0, 0, 0, 0]).data e)) :=
  ⟨by decide, by decide, by decide, by decide, by decide,
    glblasSgemm_packed gl_repeat ctx128 GLBLAS_OP_N GLBLAS_OP_N 1 2 1 1 1 2 1 1
      (device_vector ctx128 [1]) (device_vector ctx128 [7, 8])
      (device_vector ctx128 [0, 0, 0, 0]) (by decide) (by decide) (by decide) (by decide)
      (by decide)⟩

/-- Claim C5 (defect in the code): `glblasSgemm4x4` and `glblasSgemm` should leave the same
contents in `C` for every square multiple-of-4 shape and every combination of transpose flags.
Already for `n = 4`, `transa = N`, `transb = T`, `A` the identity, `B = 1..16`, `α = 1`,
`β = 0` they differ: the generic routine leaves `[1,1,1,1,2,2,2,2,..]`, the tiled one
`[1,5,9,13,1,5,9,13,..]` (and neither is the transpose of `B`). -/
theorem glblasSgemm4x4_differs :
    hostRead (glblasSgemm gl_repeat ctx128 GLBLAS_OP_N GLBLAS_OP_T 4 4 4 1
        (device_vector ctx128 ident4) 4 (device_vector ctx128 iota16) 4 0
        (device_vector ctx128 zeros16) 4).2 16
      = [1, 1, 1, 1, 2, 2, 2, 2, 3, 3, 3, 3, 4, 4, 4, 4]
    ∧ (glblasSgemm4x4 gl_repeat ctx128 zero_init zero_init GLBLAS_OP_N GLBLAS_OP_T 4 4 4 1
        (device_vector ctx128 ident4) 4 (device_vector ctx128 iota16) 4 0
        (device_vector ctx128 zeros16) 4).map (fun r => (r.1, hostRead r.2 16))
      = some (.SUCCESS, [1, 5, 9, 13, 1, 5, 9, 13, 1, 5, 9, 13, 1, 5, 9, 13])
    ∧ (glblasSgemm4x4 gl_repeat ctx128 zero_init zero_init GLBLAS_OP_N GLBLAS_OP_T 4 4 4 1
        (device_vector ctx128 ident4) 4 (device_vector ctx128 iota16) 4 0
        (device_vector ctx128 zeros16) 4).map (fun r => hostRead r.2 16)
      ≠ some (hostRead (glblasSgemm gl_repeat ctx128 GLBLAS_OP_N GLBLAS_OP_T 4 4 4 1
        (device_vector ctx128 ident4) 4 (device_vector ctx128 iota16) 4 0
        (device_vector ctx128 zeros16) 4).2 16) := by
  decide

/-- Claim C6 (defect in the code): after `glblasScopy(N, x, 1, y, 1)` a host read of `y`
should equal a host read of `x` on a surface of several rows too.  The kernels compute the
flat index of a fragment as `y * dims.x + x * 4`, which is the position of the pixel only in
row 0: in a context 2 pixels wide, `N = 12` (a 2x2 surface) and `x = 1..12`, elements 8..11 of
`y` receive elements 2..5 of `x`. -/
theorem glblasScopy_multirow :
    (glblasScopy gl_repeat ctx2 12 (device_vector ctx2 iota12) 1
        (device_vector ctx2 zeros12) 1).1 = .SUCCESS
    ∧ hostRead (glblasScopy gl_repeat ctx2 12 (device_vector ctx2 iota12) 1
        (device_vector ctx2 zeros12) 1).2 12 = [1, 2, 3, 4, 5, 6, 7, 8, 3, 4, 5, 6]
    ∧ hostRead (device_vector ctx2 iota12) 12 = [1, 2, 3, 4, 5, 6, 7, 8, 9, 10, 11, 12]
    ∧ hostRead (glblasScopy gl_repeat ctx2 12 (device_vector ctx2 iota12) 1
        (device_vector ctx2 zeros12) 1).2 12 ≠ hostRead (device_vector ctx2 iota12) 12 := by
  decide

/-- Claim C7 (defect in the code): after `glblasSswap(N, x, 1, y, 1)` `x` should hold the
original `y` and `y` the original `x`.  On a surface of several rows the three copies read
the wrong elements (the defect of claim C6): in a context 2 pixels wide, `x = 1..12`,
`y = 13..24` end as `[13..20, 15,16,17,18]` and `[1..8, 3,4,5,6]`. -/
theorem glblasSswap_multirow :
    (glblasSswap gl_repeat ctx2 zero_init 12 (device_vector ctx2 iota12) 1
        (device_vector ctx2 iota12b) 1).map
      (fun r => (r.1, hostRead r.2.1 12, hostRead r.2.2 12))
      = some (.SUCCESS, [13, 14, 15, 16, 17, 18, 19, 20, 15, 16, 17, 18],
          [1, 2, 3, 4, 5, 6, 7, 8, 3, 4, 5, 6])
    ∧ (glblasSswap gl_repeat ctx2 zero_init 12 (device_vector ctx2 iota12) 1
        (device_vector ctx2 iota12b) 1).map
      (fun r => (hostRead r.2.1 12, hostRead r.2.2 12))
      ≠ some (hostRead (device_vector ctx2 iota12b) 12, hostRead (device_vector ctx2 iota12) 12) := by
  decide

/-- Claim C8 (defect in the code): `glblasSscal(N, alpha, x, incx)` should replace `x[i]` by
`alpha*x[i]` for every `i < N` with `i mod incx = 0`.  On a surface of several rows the
kernel tests the stride on `y * dims.x + x * 4 + lane` instead of the flat index (the defect
of claim C6): in a context 2 pixels wide, `N = 12`, `alpha = 2`, `incx = 4`, `x = 1..12`,
element 8 keeps its 9 (the claim requires 18) and element 10 is doubled instead. -/
theorem glblasSscal_multirow :
    (glblasSscal gl_repeat ctx2 12 2 (device_vector ctx2 iota12) 4).1 = .SUCCESS
    ∧ hostRead (glblasSscal gl_repeat ctx2 12 2 (device_vector ctx2 iota12) 4).2 12
      = [2, 2, 3, 4, 10, 6, 7, 8, 9, 10, 22, 12]
    ∧ 8 < 12 ∧ 8 % 4 = 0
    ∧ (glblasSscal gl_repeat ctx2 12 2 (device_vector ctx2 iota12) 4).2.data 8
      ≠ 2 * (device_vector ctx2 iota12).data 8 := by
  decide

/-- Claim C9 (defect in the code): `glblasSaxpy(N, alpha, x, 1, y, 1)` should replace `y[i]`
by `alpha*x[i] + y[i]` for every `i < N`.  On a surface of several rows the kernel reads the
wrong elements of `x` (the defect of claim C6): in a context 2 pixels wide, `N = 12`,
`alpha = 2`, `x = 1..12`, `y = 0`, elements 8..11 of `y` become `6, 8, 10, 12` instead of
`18, 20, 22, 24`. -/
theorem glblasSaxpy_multirow :
    (glblasSaxpy gl_repeat ctx2 12 2 (device_vector ctx2 iota12) 1
        (device_vector ctx2 zeros12) 1).1 = .SUCCESS
    ∧ hostRead (glblasSaxpy gl_repeat ctx2 12 2 (device_vector ctx2 iota12) 1
        (device_vector ctx2 zeros12) 1).2 12 = [2, 4, 6, 8, 10, 12, 14, 16, 6, 8, 10, 12]
    ∧ (glblasSaxpy gl_repeat ctx2 12 2 (device_vector ctx2 iota12) 1
        (device_vector ctx2 zeros12) 1).2.data 8
      ≠ 2 * (device_vector ctx2 iota12).data 8 + (device_vector ctx2 zeros12).data 8 := by
  decide

/-- Claim C10: for every live device buffer `b` (registered at address `p`; padded or not,
any surface shape that holds its `byte_size`, as every shape `glblasMalloc` gives does, see
`glblasMalloc_capacity`), every `size ≤ b.size` and every host source, a host-to-device
`glblasMemcpy` of `size` bytes followed by a device-to-host `glblasMemcpy` of the same `size`
both return `SUCCESS`, and the host destination holds exactly the bytes that were uploaded. -/
theorem glblasMemcpy_roundtrip (s : Device β) (p dst src size : Nat) (b : Buffer β)
    (hlive : get_buffer_from_address s p = some b) (hsize : size ≤ b.size)
    (hcap : b.size ≤ surface_bytes b) :
    (glblasMemcpy s p src size .glblasMemcpyHostToDevice).1 = .SUCCESS
    ∧ (glblasMemcpy (glblasMemcpy s p src size .glblasMemcpyHostToDevice).2 dst p size
        .glblasMemcpyDeviceToHost).1 = .SUCCESS
    ∧ ∀ i, i < size →
        (glblasMemcpy (glblasMemcpy s p src size .glblasMemcpyHostToDevice).2 dst p size
          .glblasMemcpyDeviceToHost).2.host (dst + i) = s.host (src + i) := by
  have h1 : glblasMemcpy s p src size .glblasMemcpyHostToDevice
      = (.SUCCESS, memcpy_h2d s p src size b) := by
    simp [glblasMemcpy, hlive, hsize]
  rw [h1]
  simp only [true_and]
  by_cases hst : b.is_padded ∨ b.size ≠ size
  · -- staged path
    set b1 : Buffer β := { b with data := fun j => if j < surface_bytes b
        then (if j < size then s.host (src + j) else s.pbuffer_host j) else b.data j } with hb1
    have hlive1 : get_buffer_from_address (memcpy_h2d s p src size b) p = some b1 := by
      simp only [memcpy_h2d, hst, if_true, get_buffer_from_address]
      exact find_node_store _ _ _ _ hlive
    have h2 : glblasMemcpy (memcpy_h2d s p src size b) dst p size .glblasMemcpyDeviceToHost
        = (.SUCCESS, memcpy_d2h (memcpy_h2d s p src size b) dst size b1) := by
      simp [glblasMemcpy, hlive1, hb1, hsize]
    rw [h2]
    refine ⟨rfl, fun i hi => ?_⟩
    have hst1 : b1.is_padded ∨ b1.size ≠ size := hst
    simp only [memcpy_d2h, hst1, if_true]
    have hd : dst ≤ dst + i ∧ dst + i < dst + size := by omega
    simp only [hd, and_self, if_true, Nat.add_sub_cancel_left]
    simp only [memcpy_h2d, hst, if_true, hb1, surface_bytes, hi]
    split <;> rfl
  · -- direct path
    set b1 : Buffer β := { b with data := fun j => (if j < surface_bytes b
        then s.host (src + j) else b.data j) } with hb1
    have hlive1 : get_buffer_from_address (memcpy_h2d s p src size b) p = some b1 := by
      simp only [memcpy_h2d, hst, if_false, get_buffer_from_address]
      exact find_node_store _ _ _ _ hlive
    have h2 : glblasMemcpy (memcpy_h2d s p src size b) dst p size .glblasMemcpyDeviceToHost
        = (.SUCCESS, memcpy_d2h (memcpy_h2d s p src size b) dst size b1) := by
      simp [glblasMemcpy, hlive1, hb1, hsize]
    rw [h2]
    refine ⟨rfl, fun i hi => ?_⟩
    have hst1 : ¬ (b1.is_padded ∨ b1.size ≠ size) := hst
    have hsb : surface_bytes b1 = surface_bytes b := rfl
    simp only [memcpy_d2h, hst1, if_false, hsb]
    have hd : dst ≤ dst + i ∧ dst + i < dst + surface_bytes b := by omega
    simp only [hd, and_self, if_true, Nat.add_sub_cancel_left, hb1]
    have : i < surface_bytes b := by omega
    simp only [this, if_true]

/-- Witness of the hypotheses of `glblasMemcpy_roundtrip`: the padded 20-byte buffer of
`dev0`, 20 bytes from host address 100 to host address 200. -/
theorem glblasMemcpy_roundtrip_witness :
    get_buffer_from_address dev0 4096 = some ⟨20, 2, 1, true, fun _ => 0⟩
    ∧ 20 ≤ (⟨20, 2, 1, true, fun _ => 0⟩ : Buffer Nat).size
    ∧ (⟨20, 2, 1, true, fun _ => 0⟩ : Buffer Nat).size
        ≤ surface_bytes (⟨20, 2, 1, true, fun _ => 0⟩ : Buffer Nat)
    ∧ ((glblasMemcpy dev0 4096 100 20 glblasMemcpyHostToDevice).1 = .SUCCESS
      ∧ (glblasMemcpy (glblasMemcpy dev0 4096 100 20 glblasMemcpyHostToDevice).2 200 4096 20
          glblasMemcpyDeviceToHost).1 = .SUCCESS
      ∧ ∀ i, i < 20 →
          (glblasMemcpy (glblasMemcpy dev0 4096 100 20 glblasMemcpyHostToDevice).2 200 4096 20
            glblasMemcpyDeviceToHost).2.host (200 + i) = dev0.host (100 + i)) :=
  ⟨rfl, by decide, by decide,
    glblasMemcpy_roundtrip dev0 4096 200 100 20 ⟨20, 2, 1, true, fun _ => 0⟩ rfl (by decide)
      (by decide)⟩

/-- Claim C11: for `max_width ≥ 1`, `max_height ≥ 1` and `byte_size ≤ max_width·max_height·16`
(the bound `0 < byte_size` of the claim is not needed), `get_texture_dimensions` returns
`SUCCESS` with a shape `(width, height)` such that `width·height·16 ≥ byte_size`,
`⌈byte_size/16⌉ ≤ width·height`, `width ≤ max_width` and `height ≤ max_height`. -/
theorem get_texture_dimensions_within_capacity (byte_size max_width max_height : Nat)
    (hw : 1 ≤ max_width) (hh : 1 ≤ max_height)
    (hcap : byte_size ≤ max_width * max_height * 16) :
    (get_texture_dimensions byte_size max_width max_height).1 = .SUCCESS
    ∧ byte_size ≤ (get_texture_dimensions byte_size max_width max_height).2.1
        * (get_texture_dimensions byte_size max_width max_height).2.2.1 * 16
    ∧ (byte_size + 15) / 16 ≤ (get_texture_dimensions byte_size max_width max_height).2.1
        * (get_texture_dimensions byte_size max_width max_height).2.2.1
    ∧ (get_texture_dimensions byte_size max_width max_height).2.1 ≤ max_width
    ∧ (get_texture_dimensions byte_size max_width max_height).2.2.1 ≤ max_height :=
  get_texture_dimensions_fits byte_size max_width max_height hw hh hcap

/-- Claim C11 at a request that needs three rows of a 5 by 4 surface: 200 bytes are 13
pixels, mapped to the shape (5, 3). -/
theorem get_texture_dimensions_within_capacity_witness :
    1 ≤ 5 ∧ 1 ≤ 4 ∧ 200 ≤ 5 * 4 * 16
    ∧ ((get_texture_dimensions 200 5 4).1 = .SUCCESS
      ∧ 200 ≤ (get_texture_dimensions 200 5 4).2.1 * (get_texture_dimensions 200 5 4).2.2.1 * 16
      ∧ (200 + 15) / 16
        ≤ (get_texture_dimensions 200 5 4).2.1 * (get_texture_dimensions 200 5 4).2.2.1
      ∧ (get_texture_dimensions 200 5 4).2.1 ≤ 5
      ∧ (get_texture_dimensions 200 5 4).2.2.1 ≤ 4) :=
  ⟨by decide, by decide, by decide,
    get_texture_dimensions_within_capacity 200 5 4 (by decide) (by decide) (by decide)⟩

/-- Claim C12 (defect in the code): for `max_width ≥ 1`, `max_height ≥ 1` and every
`byte_size > 0`, `get_texture_dimensions` should return `DIMENSION_OVERFLOW` exactly when
`byte_size > max_width·max_height·16`.  At the widths of the C types it returns `SUCCESS`
for `2^36` bytes on a 1 by 1 surface (capacity 16 bytes): the height `2^32` is stored in an
`int` and becomes 0.  For `2^35` bytes the height becomes `-2^31`.  For `2^64 - 1` bytes on
a 4 by 4 surface and for `2^64 - 4` bytes (`N = -1` floats) on a 16 by 16 surface
`size + 15` wraps and the pixel count is 0.  The function computed with unbounded integers
returns `DIMENSION_OVERFLOW` for all four requests. -/
theorem get_texture_dimensions_wraps :
    (Machine.get_texture_dimensions (2 ^ 36) 1 1).1 = .SUCCESS
    ∧ (Machine.get_texture_dimensions (2 ^ 36) 1 1).2.1 = 1
    ∧ (Machine.get_texture_dimensions (2 ^ 36) 1 1).2.2.1 = 0
    ∧ 2 ^ 36 > 1 * 1 * 16
    ∧ (get_texture_dimensions (2 ^ 36) 1 1).1 = .DIMENSION_OVERFLOW
    ∧ (Machine.get_texture_dimensions (2 ^ 35) 1 1).1 = .SUCCESS
    ∧ (Machine.get_texture_dimensions (2 ^ 35) 1 1).2.2.1 = -2 ^ 31
    ∧ 2 ^ 35 > 1 * 1 * 16
    ∧ (get_texture_dimensions (2 ^ 35) 1 1).1 = .DIMENSION_OVERFLOW
    ∧ (Machine.get_texture_dimensions (2 ^ 64 - 1) 4 4).1 = .SUCCESS
    ∧ (Machine.get_texture_dimensions (2 ^ 64 - 1) 4 4).2.1 = 0
    ∧ (Machine.get_texture_dimensions (2 ^ 64 - 1) 4 4).2.2.1 = 1
    ∧ 2 ^ 64 - 1 > 4 * 4 * 16
    ∧ (get_texture_dimensions (2 ^ 64 - 1) 4 4).1 = .DIMENSION_OVERFLOW
    ∧ (Machine.get_texture_dimensions (2 ^ 64 - 4) 16 16).1 = .SUCCESS
    ∧ (Machine.get_texture_dimensions (2 ^ 64 - 4) 16 16).2.1 = 0
    ∧ (Machine.get_texture_dimensions (2 ^ 64 - 4) 16 16).2.2.1 = 1
    ∧ 2 ^ 64 - 4 > 16 * 16 * 16
    ∧ (get_texture_dimensions (2 ^ 64 - 4) 16 16).1 = .DIMENSION_OVERFLOW
    ∧ (Machine.get_texture_dimensions 321 5 4).1 = .DIMENSION_OVERFLOW
    ∧ (Machine.get_texture_dimensions 320 5 4).1 = .SUCCESS := by
  decide

/-- Claim C13 (defect in the code): `glblasSgemm` and `glblasSgemm4x4` should return
`DIMENSION_OVERFLOW`, without a dispatch, as soon as one of the three leading-dimension
conditions is violated.  The guard joins the conditions by `||`: with `M = N = K = 4`, no
transposition, `lda = 1` (below `max(1, M) = 4`) and `ldb = ldc = 4` the check passes,
`glblasSgemm` returns `SUCCESS` and has written `C`; the same holds with `lda = ldb = 1`,
and for `glblasSgemm4x4`.  `DIMENSION_OVERFLOW` is returned when all three conditions are
violated (`lda = ldb = ldc = 1`). -/
theorem glblasSgemm_single_violation_passes :
    sgemm_check GLBLAS_OP_N GLBLAS_OP_N 4 4 4 1 4 4 = none
    ∧ (glblasSgemm gl_repeat ctx16 GLBLAS_OP_N GLBLAS_OP_N 4 4 4 1 (device_vector ctx16 ident4) 1
        (device_vector ctx16 iota16) 4 0 (device_vector ctx16 zeros16) 4).1 = .SUCCESS
    ∧ hostRead (glblasSgemm gl_repeat ctx16 GLBLAS_OP_N GLBLAS_OP_N 4 4 4 1
        (device_vector ctx16 ident4) 1 (device_vector ctx16 iota16) 4 0
        (device_vector ctx16 zeros16) 4).2 16
      = [1, 0, 4, 3, 5, 0, 8, 7, 9, 0, 12, 11, 13, 0, 16, 15]
    ∧ (glblasSgemm gl_repeat ctx16 GLBLAS_OP_N GLBLAS_OP_N 4 4 4 1 (device_vector ctx16 ident4) 1
        (device_vector ctx16 iota16) 1 0 (device_vector ctx16 zeros16) 4).1 = .SUCCESS
    ∧ (glblasSgemm4x4 gl_repeat ctx16 zero_init zero_init GLBLAS_OP_N GLBLAS_OP_N 4 4 4 1
        (device_vector ctx16 ident4) 1 (device_vector ctx16 iota16) 4 0
        (device_vector ctx16 zeros16) 4).map (fun r => (r.1, hostRead r.2 16))
      = some (.SUCCESS, [1, 1, 1, 1, 5, 5, 5, 5, 9, 9, 9, 9, 13, 13, 13, 13])
    ∧ (glblasSgemm gl_repeat ctx16 GLBLAS_OP_N GLBLAS_OP_N 4 4 4 1 (device_vector ctx16 ident4) 1
        (device_vector ctx16 iota16) 1 0 (device_vector ctx16 zeros16) 1).1
      = .DIMENSION_OVERFLOW := by
  decide

/-- Claim C14: `glblasSgemm4x4` returns `INVALID_VALUE`, with the state as it was (no
temporary in the registry, no surface written), for every `(M, N, K)` that is not a triple
of equal non-negative multiples of 4, and it never returns `INVALID_VALUE` when
`M = N = K` is a non-negative multiple of 4. -/
theorem glblasSgemm4x4_invalid_value (wrap : Buffer R → Nat → Nat → Vec4 R) (ctx : Context)
    (s : Device R) (addra addrb : Nat) (inita initb : Nat → R)
    (transa transb : glblasOperation) (M N K : Int) (alpha : R) (a : Nat) (lda : Int) (b : Nat)
    (ldb : Int) (beta : R) (c : Nat) (ldc : Int) :
    (¬ (M = N ∧ N = K ∧ 0 ≤ M ∧ (4 : Int) ∣ M) →
      Registry.glblasSgemm4x4 wrap ctx s addra addrb inita initb transa transb M N K alpha a
        lda b ldb beta c ldc = some (.INVALID_VALUE, s))
    ∧ ((M = N ∧ N = K ∧ 0 ≤ M ∧ (4 : Int) ∣ M) →
      ∀ r, Registry.glblasSgemm4x4 wrap ctx s addra addrb inita initb transa transb M N K alpha
        a lda b ldb beta c ldc = some r → r.1 ≠ .INVALID_VALUE) := by
  have hchk := sgemm4x4_check_invalid transa transb M N K lda ldb ldc
  constructor
  · intro h
    unfold Registry.glblasSgemm4x4
    rw [hchk.mpr h]
  · intro h r hr
    have hne : sgemm4x4_check transa transb M N K lda ldb ldc ≠ some .INVALID_VALUE :=
      fun e => (hchk.mp e) h
    unfold Registry.glblasSgemm4x4 at hr
    split at hr
    · rename_i st hst
      simp only [Option.some.injEq] at hr
      subst hr
      intro e
      exact hne (by rw [hst]; exact congrArg some e)
    · split at hr
      · simp at hr
      · simp only [get_op_dims_status, ne_eq, not_true_eq_false, if_false] at hr
        simp only [Option.bind_eq_some] at hr
        obtain ⟨ra, _, rb, _, s3, _, s4, _, hr⟩ := hr
        split at hr
        · simp only [Option.bind_eq_some, Option.some.injEq] at hr
          obtain ⟨s5, _, hr⟩ := hr
          subst hr
          simp
        · simp at hr

/-- Claim C14 on the state `dev_blas`: `(4, 4, 3)`, `(8, 4, 4)` and `(-4, -4, -4)` are
rejected with the state untouched, `(4, 4, 4)` is not rejected and returns `SUCCESS`. -/
theorem glblasSgemm4x4_invalid_value_witness :
    Registry.glblasSgemm4x4 gl_repeat ctx16 dev_blas 16384 20480 zero_init zero_init
        GLBLAS_OP_N GLBLAS_OP_T 4 4 3 1 4096 4 8192 4 0 12288 4 = some (.INVALID_VALUE, dev_blas)
    ∧ Registry.glblasSgemm4x4 gl_repeat ctx16 dev_blas 16384 20480 zero_init zero_init
        GLBLAS_OP_N GLBLAS_OP_T 8 4 4 1 4096 4 8192 4 0 12288 4 = some (.INVALID_VALUE, dev_blas)
    ∧ Registry.glblasSgemm4x4 gl_repeat ctx16 dev_blas 16384 20480 zero_init zero_init
        GLBLAS_OP_N GLBLAS_OP_T (-4) (-4) (-4) 1 4096 4 8192 4 0 12288 4
      = some (.INVALID_VALUE, dev_blas)
    ∧ (∀ r, Registry.glblasSgemm4x4 gl_repeat ctx16 dev_blas 16384 20480 zero_init zero_init
        GLBLAS_OP_N GLBLAS_OP_T 4 4 4 1 4096 4 8192 4 0 12288 4 = some r →
        r.1 ≠ .INVALID_VALUE)
    ∧ (Registry.glblasSgemm4x4 gl_repeat ctx16 dev_blas 16384 20480 zero_init zero_init
        GLBLAS_OP_N GLBLAS_OP_T 4 4 4 1 4096 4 8192 4 0 12288 4).map (fun r => r.1)
      = some .SUCCESS :=
  ⟨(glblasSgemm4x4_invalid_value gl_repeat ctx16 dev_blas 16384 20480 zero_init zero_init
      GLBLAS_OP_N GLBLAS_OP_T 4 4 3 1 4096 4 8192 4 0 12288 4).1 (by decide),
    (glblasSgemm4x4_invalid_value gl_repeat ctx16 dev_blas 16384 20480 zero_init zero_init
      GLBLAS_OP_N GLBLAS_OP_T 8 4 4 1 4096 4 8192 4 0 12288 4).1 (by decide),
    (glblasSgemm4x4_invalid_value gl_repeat ctx16 dev_blas 16384 20480 zero_init zero_init
      GLBLAS_OP_N GLBLAS_OP_T (-4) (-4) (-4) 1 4096 4 8192 4 0 12288 4).1 (by decide),
    (glblasSgemm4x4_invalid_value gl_repeat ctx16 dev_blas 16384 20480 zero_init zero_init
      GLBLAS_OP_N GLBLAS_OP_T 4 4 4 1 4096 4 8192 4 0 12288 4).2 (by decide),
    by decide⟩

/-- Claim C15: with direction `glblasMemcpyInfer`, `glblasMemcpy` returns `NOT_SUPPORTED`
(state unchanged) when both `dst` and `src` are live device buffers and `INVALID_VALUE`
(state unchanged) when neither is.  When only `dst` is live the call is the explicit
host-to-device call, and for `size` within the buffer `b` at `dst` it returns `SUCCESS`,
leaves host memory as it was and makes byte `j < size` of the surface of `b` the host byte
`src + j`.  When only `src` is live the call is the explicit device-to-host call, and for
`size` within the buffer `b` at `src` it returns `SUCCESS`, leaves the registry and the
surfaces as they were and makes host byte `dst + j` byte `j` of the surface of `b`.  (The
surface of `b` holds its `byte_size`, as every shape `glblasMalloc` gives does, see
`glblasMalloc_capacity`.) -/
theorem glblasMemcpy_infer (s : Device β) (dst src size : Nat) :
    ((get_buffer_from_address s dst).isSome ∧ (get_buffer_from_address s src).isSome →
      glblasMemcpy s dst src size glblasMemcpyInfer = (.NOT_SUPPORTED, s))
    ∧ (get_buffer_from_address s dst = none ∧ get_buffer_from_address s src = none →
      glblasMemcpy s dst src size glblasMemcpyInfer = (.INVALID_VALUE, s))
    ∧ ((get_buffer_from_address s dst).isSome ∧ get_buffer_from_address s src = none →
      glblasMemcpy s dst src size glblasMemcpyInfer
        = glblasMemcpy s dst src size glblasMemcpyHostToDevice)
    ∧ (get_buffer_from_address s dst = none ∧ (get_buffer_from_address s src).isSome →
      glblasMemcpy s dst src size glblasMemcpyInfer
        = glblasMemcpy s dst src size glblasMemcpyDeviceToHost)
    ∧ (∀ b, get_buffer_from_address s dst = some b → get_buffer_from_address s src = none →
        size ≤ b.size → b.size ≤ surface_bytes b →
        (glblasMemcpy s dst src size glblasMemcpyInfer).1 = .SUCCESS
        ∧ (glblasMemcpy s dst src size glblasMemcpyInfer).2.host = s.host
        ∧ ∀ j, j < size →
            (get_buffer_from_address (glblasMemcpy s dst src size glblasMemcpyInfer).2 dst).map
              (fun b1 => b1.data j) = some (s.host (src + j)))
    ∧ (∀ b, get_buffer_from_address s dst = none → get_buffer_from_address s src = some b →
        size ≤ b.size → b.size ≤ surface_bytes b →
        (glblasMemcpy s dst src size glblasMemcpyInfer).1 = .SUCCESS
        ∧ (glblasMemcpy s dst src size glblasMemcpyInfer).2.buffers = s.buffers
        ∧ ∀ j, j < size →
            (glblasMemcpy s dst src size glblasMemcpyInfer).2.host (dst + j) = b.data j) := by
  have hup : (get_buffer_from_address s dst).isSome ∧ get_buffer_from_address s src = none →
      glblasMemcpy s dst src size glblasMemcpyInfer
        = glblasMemcpy s dst src size glblasMemcpyHostToDevice := by
    cases hd : get_buffer_from_address s dst <;> cases hs : get_buffer_from_address s src <;>
      simp [glblasMemcpy, hd, hs]
  have hdown : get_buffer_from_address s dst = none ∧ (get_buffer_from_address s src).isSome →
      glblasMemcpy s dst src size glblasMemcpyInfer
        = glblasMemcpy s dst src size glblasMemcpyDeviceToHost := by
    cases hd : get_buffer_from_address s dst <;> cases hs : get_buffer_from_address s src <;>
      simp [glblasMemcpy, hd, hs]
  refine ⟨?_, ?_, hup, hdown, ?_, ?_⟩
  · cases hd : get_buffer_from_address s dst <;> cases hs : get_buffer_from_address s src <;>
      simp [glblasMemcpy, hd, hs]
  · cases hd : get_buffer_from_address s dst <;> cases hs : get_buffer_from_address s src <;>
      simp [glblasMemcpy, hd, hs]
  · intro b hd hs hsize hcap
    obtain ⟨h1, h2, h3⟩ := glblasMemcpy_h2d_transfers s dst src size b hd hsize hcap
    rw [hup ⟨by rw [hd]; rfl, hs⟩, h1]
    exact ⟨rfl, h2, h3⟩
  · intro b hd hs hsize hcap
    obtain ⟨h1, h2, h3⟩ := glblasMemcpy_d2h_transfers s dst src size b hs hsize hcap
    rw [hdown ⟨hd, by rw [hs]; rfl⟩, h1]
    exact ⟨rfl, h2, h3⟩

/-- Claim C15 on the state with one live buffer of 20 bytes at 4096: the four cases of the
inference; the inferred upload of the host bytes 200..219 puts 200 in byte 0 and 219 in byte
19 of the surface, and the inferred download returns the 20 bytes of the surface. -/
theorem glblasMemcpy_infer_witness :
    glblasMemcpy dev0 4096 4096 20 glblasMemcpyInfer = (.NOT_SUPPORTED, dev0)
    ∧ glblasMemcpy dev0 100 200 20 glblasMemcpyInfer = (.INVALID_VALUE, dev0)
    ∧ glblasMemcpy dev0 4096 200 20 glblasMemcpyInfer
      = glblasMemcpy dev0 4096 200 20 glblasMemcpyHostToDevice
    ∧ glblasMemcpy dev0 200 4096 20 glblasMemcpyInfer
      = glblasMemcpy dev0 200 4096 20 glblasMemcpyDeviceToHost
    ∧ ((glblasMemcpy dev0 4096 200 20 glblasMemcpyInfer).1 = .SUCCESS
      ∧ (glblasMemcpy dev0 4096 200 20 glblasMemcpyInfer).2.host = dev0.host
      ∧ ∀ j, j < 20 →
          (get_buffer_from_address (glblasMemcpy dev0 4096 200 20 glblasMemcpyInfer).2 4096).map
            (fun b1 => b1.data j) = some (dev0.host (200 + j)))
    ∧ ((glblasMemcpy dev0 200 4096 20 glblasMemcpyInfer).1 = .SUCCESS
      ∧ (glblasMemcpy dev0 200 4096 20 glblasMemcpyInfer).2.buffers = dev0.buffers
      ∧ ∀ j, j < 20 →
          (glblasMemcpy dev0 200 4096 20 glblasMemcpyInfer).2.host (200 + j)
            = (⟨20, 2, 1, true, fun _ => 0⟩ : Buffer Nat).data j)
    ∧ (get_buffer_from_address (glblasMemcpy dev0 4096 200 20 glblasMemcpyInfer).2 4096).map
        (fun b1 => (b1.data 0, b1.data 19)) = some (200, 219) :=
  ⟨(glblasMemcpy_infer dev0 4096 4096 20).1 ⟨rfl, rfl⟩,
    (glblasMemcpy_infer dev0 100 200 20).2.1 ⟨rfl, rfl⟩,
    (glblasMemcpy_infer dev0 4096 200 20).2.2.1 ⟨rfl, rfl⟩,
    (glblasMemcpy_infer dev0 200 4096 20).2.2.2.1 ⟨rfl, rfl⟩,
    (glblasMemcpy_infer dev0 4096 200 20).2.2.2.2.1 ⟨20, 2, 1, true, fun _ => 0⟩ rfl rfl
      (by decide) (by decide),
    (glblasMemcpy_infer dev0 200 4096 20).2.2.2.2.2 ⟨20, 2, 1, true, fun _ => 0⟩ rfl rfl
      (by decide) (by decide),
    by decide⟩

/-- Claim C16: a host-to-device or device-to-host `glblasMemcpy`, explicit or inferred,
whose device-side argument is not a live buffer or whose `byte_size` exceeds the
`byte_size` of the resolved buffer returns `INVALID_VALUE` and leaves the whole state
(registry and surfaces, staging area, host memory) as it was.  An inferred transfer has
its device side at `dst` when only `dst` is live and at `src` when only `src` is. -/
theorem glblasMemcpy_rejects (s : Device β) (dst src size : Nat) :
    ((∀ buf, get_buffer_from_address s dst = some buf → buf.size < size) →
      glblasMemcpy s dst src size glblasMemcpyHostToDevice = (.INVALID_VALUE, s))
    ∧ ((∀ buf, get_buffer_from_address s src = some buf → buf.size < size) →
      glblasMemcpy s dst src size glblasMemcpyDeviceToHost = (.INVALID_VALUE, s))
    ∧ (¬ ((get_buffer_from_address s dst).isSome ∧ (get_buffer_from_address s src).isSome) →
      (∀ buf, get_buffer_from_address s dst = some buf → buf.size < size) →
      (∀ buf, get_buffer_from_address s src = some buf → buf.size < size) →
      glblasMemcpy s dst src size glblasMemcpyInfer = (.INVALID_VALUE, s)) := by
  refine ⟨?_, ?_, ?_⟩
  · intro h
    cases hd : get_buffer_from_address s dst with
    | none => simp [glblasMemcpy, hd]
    | some buf =>
      have := h buf hd
      simp [glblasMemcpy, hd, Nat.not_le.mpr this]
  · intro h
    cases hd : get_buffer_from_address s src with
    | none => simp [glblasMemcpy, hd]
    | some buf =>
      have := h buf hd
      simp [glblasMemcpy, hd, Nat.not_le.mpr this]
  · intro hb h1 h2
    cases hd : get_buffer_from_address s dst with
    | none =>
      cases hs : get_buffer_from_address s src with
      | none => simp [glblasMemcpy, hd, hs]
      | some buf =>
        have := h2 buf hs
        simp [glblasMemcpy, hd, hs, Nat.not_le.mpr this]
    | some buf =>
      cases hs : get_buffer_from_address s src with
      | none =>
        have := h1 buf hd
        simp [glblasMemcpy, hd, hs, Nat.not_le.mpr this]
      | some buf2 =>
        rw [hd, hs] at hb
        simp at hb

/-- Claim C16 on the state with one live buffer of 20 bytes at 4096: 21 bytes are too many
for it in either direction, explicit or inferred, and 100 is the address of no buffer. -/
theorem glblasMemcpy_rejects_witness :
    glblasMemcpy dev0 4096 200 21 glblasMemcpyHostToDevice = (.INVALID_VALUE, dev0)
    ∧ glblasMemcpy dev0 100 200 4 glblasMemcpyHostToDevice = (.INVALID_VALUE, dev0)
    ∧ glblasMemcpy dev0 200 4096 21 glblasMemcpyDeviceToHost = (.INVALID_VALUE, dev0)
    ∧ glblasMemcpy dev0 200 100 4 glblasMemcpyDeviceToHost = (.INVALID_VALUE, dev0)
    ∧ glblasMemcpy dev0 4096 200 21 glblasMemcpyInfer = (.INVALID_VALUE, dev0)
    ∧ glblasMemcpy dev0 200 4096 21 glblasMemcpyInfer = (.INVALID_VALUE, dev0) :=
  ⟨(glblasMemcpy_rejects dev0 4096 200 21).1 (by decide),
    (glblasMemcpy_rejects dev0 100 200 4).1 (by decide),
    (glblasMemcpy_rejects dev0 200 4096 21).2.1 (by decide),
    (glblasMemcpy_rejects dev0 200 100 4).2.1 (by decide),
    (glblasMemcpy_rejects dev0 4096 200 21).2.2 (by decide) (by decide) (by decide),
    (glblasMemcpy_rejects dev0 200 4096 21).2.2 (by decide) (by decide) (by decide)⟩

/-- Claim C17 fails: `glblasMalloc` returns a handle, never a status, and it links the new
node before it checks the size.  On a 2 by 2 context (capacity 64 bytes) a request of 80
bytes, whose derived shape `get_texture_dimensions` rejects with `DIMENSION_OVERFLOW`, does
not return (`GLBLAS_ASSERT` aborts), and at the abort the registry, which held the node at
4096, holds the new node at 8192 as well. -/
theorem glblasMalloc_oversize_example :
    (get_texture_dimensions 80 ctx2.pbuffer_width ctx2.pbuffer_height).1 = .DIMENSION_OVERFLOW
    ∧ (Registry.glblasMalloc ctx2 dev0 8192 80 (fun _ => 0)).1 = none
    ∧ dev0.addrs = [4096]
    ∧ (Registry.glblasMalloc ctx2 dev0 8192 80 (fun _ => 0)).2.addrs = [4096, 8192] := by
  decide

/-- Claim C17, as amended: a `glblasMalloc` request does not return (`GLBLAS_ASSERT` aborts
the process; no status is produced) if and only if `byte_size > max_width·max_height·16`,
and every other request returns the handle of the new node. -/
theorem glblasMalloc_oversize_aborts (ctx : Context) (s : Device β) (addr size : Nat)
    (init : Nat → β) :
    ((Registry.glblasMalloc ctx s addr size init).1 = none
      ↔ size > ctx.pbuffer_width * ctx.pbuffer_height * 16)
    ∧ (size ≤ ctx.pbuffer_width * ctx.pbuffer_height * 16 →
      (Registry.glblasMalloc ctx s addr size init).1 = some addr) := by
  refine ⟨glblasMalloc_aborts ctx s addr size init, fun h => ?_⟩
  obtain ⟨s1, hm, _⟩ := glblasMalloc_returns ctx s addr size init h
  rw [hm]

/-- Claim C18: the registry holds the buffers allocated and not yet freed.  A successful
`glblasMalloc` (a request within the capacity; `calloc` returns an address `addr` that no
live node has) returns `addr`, makes it resolvable by `get_buffer_from_address`, to the
buffer just built, resolves every other address as before and appends the node to the list;
`glblasFree(b)` makes `b` unresolvable, resolves every other address as before and keeps the
other nodes in their order. -/
theorem registry_holds_live_buffers (ctx : Context) (s : Device β) (addr size : Nat)
    (init : Nat → β) (b : Nat) (hfresh : addr ∉ s.addrs)
    (hsize : size ≤ ctx.pbuffer_width * ctx.pbuffer_height * 16) :
    (Registry.glblasMalloc ctx s addr size init).1 = some addr
    ∧ (get_buffer_from_address (Registry.glblasMalloc ctx s addr size init).2 addr).isSome
    ∧ get_buffer_from_address (Registry.glblasMalloc ctx s addr size init).2 addr
      = glblasMalloc ctx size init
    ∧ (∀ a, a ≠ addr → get_buffer_from_address (Registry.glblasMalloc ctx s addr size init).2 a
      = get_buffer_from_address s a)
    ∧ (Registry.glblasMalloc ctx s addr size init).2.addrs = s.addrs ++ [addr]
    ∧ get_buffer_from_address (Registry.glblasFree s b) b = none
    ∧ (∀ a, a ≠ b → get_buffer_from_address (Registry.glblasFree s b) a
      = get_buffer_from_address s a)
    ∧ (Registry.glblasFree s b).buffers = s.buffers.filter (fun n => decide (n.1 ≠ b)) := by
  have hnone : find_node s.buffers addr = none := (find_node_eq_none _ _).mpr hfresh
  have hpure : ∃ buf, glblasMalloc ctx size init = some buf := by
    unfold glblasMalloc
    simp only [sizeof_float, FLOATS_PER_PIXEL]
    rw [if_pos (by omega)]
    exact ⟨_, rfl⟩
  obtain ⟨buf, hbuf⟩ := hpure
  have hm : Registry.glblasMalloc ctx s addr size init
      = (some addr, { s with buffers := dynarr_alloc s.buffers addr buf }) := by
    unfold Registry.glblasMalloc
    rw [hbuf]
  have hres : get_buffer_from_address (Registry.glblasMalloc ctx s addr size init).2 addr
      = some buf := by
    rw [hm]
    simp only [get_buffer_from_address, dynarr_alloc_eq, find_node_append, hnone, if_true]
  refine ⟨by rw [hm], by rw [hres]; rfl, by rw [hres, hbuf], fun a ha => ?_,
    glblasMalloc_addrs ctx s addr size init, ?_, fun a ha => ?_, ?_⟩
  · rw [hm]
    simp only [get_buffer_from_address, dynarr_alloc_eq, find_node_append, ha, if_false]
    cases find_node s.buffers a <;> rfl
  · simp only [get_buffer_from_address, Registry.glblasFree, dynarr_free_element_fst]
    exact find_node_filter_self _ _
  · simp only [get_buffer_from_address, Registry.glblasFree, dynarr_free_element_fst]
    exact find_node_filter_ne _ _ _ ha
  · simp only [Registry.glblasFree, dynarr_free_element_fst]

/-- Claim C18 on the state with one live buffer at 4096: a request of 20 bytes that
`calloc` places at 8192, and the release of the buffer at 4096. -/
theorem registry_holds_live_buffers_witness :
    8192 ∉ dev0.addrs ∧ 20 ≤ ctx2.pbuffer_width * ctx2.pbuffer_height * 16
    ∧ ((Registry.glblasMalloc ctx2 dev0 8192 20 (fun _ => 0)).1 = some 8192
      ∧ (get_buffer_from_address (Registry.glblasMalloc ctx2 dev0 8192 20 (fun _ => 0)).2
          8192).isSome
      ∧ get_buffer_from_address (Registry.glblasMalloc ctx2 dev0 8192 20 (fun _ => 0)).2 8192
        = glblasMalloc ctx2 20 (fun _ => 0)
      ∧ (∀ a, a ≠ 8192 →
        get_buffer_from_address (Registry.glblasMalloc ctx2 dev0 8192 20 (fun _ => 0)).2 a
          = get_buffer_from_address dev0 a)
      ∧ (Registry.glblasMalloc ctx2 dev0 8192 20 (fun _ => 0)).2.addrs = dev0.addrs ++ [8192]
      ∧ get_buffer_from_address (Registry.glblasFree dev0 4096) 4096 = none
      ∧ (∀ a, a ≠ 4096 → get_buffer_from_address (Registry.glblasFree dev0 4096) a
        = get_buffer_from_address dev0 a)
      ∧ (Registry.glblasFree dev0 4096).buffers
        = dev0.buffers.filter (fun n => decide (n.1 ≠ 4096))) :=
  ⟨by decide, by decide,
    registry_holds_live_buffers ctx2 dev0 8192 20 (fun _ => 0) 4096 (by decide) (by decide)⟩

/-- Claim C19: for every registry state, after `glblasDestroy` the registry is empty and
every address has been passed to `free` as many times as the registry held it, that is
once for each registered buffer (the addresses of a registry are distinct) and never for
any other address. -/
theorem glblasDestroy_frees_all (s : Device β) :
    (Registry.glblasDestroy s).1.buffers = []
    ∧ (∀ a, (Registry.glblasDestroy s).2.count a = s.addrs.count a)
    ∧ (s.addrs.Nodup → (Registry.glblasDestroy s).2.Nodup
      ∧ ∀ a, a ∈ (Registry.glblasDestroy s).2 ↔ a ∈ s.addrs) := by
  have h := glblasDestroy_spec s
  refine ⟨h.1, h.2, fun hn => ⟨?_, fun a => ?_⟩⟩
  · rw [List.nodup_iff_count_le_one] at hn ⊢
    intro a
    rw [h.2 a]
    exact hn a
  · rw [← List.count_pos_iff, ← List.count_pos_iff, h.2 a]

/-- Claim C19 on the state with three live buffers: the three addresses are freed, each
once, and the registry is empty. -/
theorem glblasDestroy_frees_all_witness :
    dev_blas.addrs = [4096, 8192, 12288]
    ∧ (Registry.glblasDestroy dev_blas).2 = [4096, 8192, 12288]
    ∧ (Registry.glblasDestroy dev_blas).1.buffers = []
    ∧ (∀ a, (Registry.glblasDestroy dev_blas).2.count a = dev_blas.addrs.count a)
    ∧ (Registry.glblasDestroy dev_blas).2.Nodup :=
  ⟨by decide, by decide, (glblasDestroy_frees_all dev_blas).1,
    (glblasDestroy_frees_all dev_blas).2.1,
    ((glblasDestroy_frees_all dev_blas).2.2 (by decide)).1⟩

/-- Claim C20: `glblasSswap`, `glblasSdot`, `glblasSasum` and `glblasSgemm4x4` return with
the registry holding the buffers it held at the call, same handles in the same order:
every temporary has been freed and no other node removed.  `calloc` places the temporaries
at `addr1` and `addr2`, addresses of no live node.  The return inside
`IF_NOT_SUCCESS_RETURN` of `glblasSdot`, which would leave `savedy` registered, is never
taken, `glblasScopy` returns `SUCCESS` only.  The last four parts say that the routines do
return when their handles are live and their temporaries within the capacity. -/
theorem routines_restore_registry (wrap : Buffer R → Nat → Nat → Vec4 R) (ctx : Context)
    (s : Device R) (addr1 addr2 : Nat) (init1 init2 : Nat → R) (n result x incx y incy : Nat)
    (transa transb : glblasOperation) (M N K : Int) (alpha : R) (a : Nat) (lda : Int) (b : Nat)
    (ldb : Int) (beta : R) (c : Nat) (ldc : Int)
    (h1 : addr1 ∉ s.addrs) (h2 : addr2 ∉ s.addrs) (h12 : addr1 ≠ addr2) :
    (∀ r, Registry.glblasSswap wrap ctx s addr1 init1 n x incx y incy = some r →
      r.2.addrs = s.addrs)
    ∧ (∀ r, Registry.glblasSdot wrap ctx s addr1 addr2 init1 init2 n result x incx y incy
      = some r → r.2.addrs = s.addrs)
    ∧ (∀ r, Registry.glblasSasum wrap ctx s addr1 init1 n result x incx = some r →
      r.2.addrs = s.addrs)
    ∧ (∀ r, Registry.glblasSgemm4x4 wrap ctx s addr1 addr2 init1 init2 transa transb M N K
      alpha a lda b ldb beta c ldc = some r → r.2.addrs = s.addrs)
    ∧ (x ∈ s.addrs → y ∈ s.addrs → n * 4 ≤ ctx.pbuffer_width * ctx.pbuffer_height * 16 →
      (Registry.glblasSswap wrap ctx s addr1 init1 n x incx y incy).isSome)
    ∧ (x ∈ s.addrs → y ∈ s.addrs → result ∈ s.addrs →
      n * 4 ≤ ctx.pbuffer_width * ctx.pbuffer_height * 16 →
      (Registry.glblasSdot wrap ctx s addr1 addr2 init1 init2 n result x incx y
        incy).isSome)
    ∧ (x ∈ s.addrs → result ∈ s.addrs →
      n * 4 ≤ ctx.pbuffer_width * ctx.pbuffer_height * 16 →
      (Registry.glblasSasum wrap ctx s addr1 init1 n result x incx).isSome)
    ∧ (a ∈ s.addrs → b ∈ s.addrs → c ∈ s.addrs →
      (M * K).toNat * 4 ≤ ctx.pbuffer_width * ctx.pbuffer_height * 16 →
      (K * N).toNat * 4 ≤ ctx.pbuffer_width * ctx.pbuffer_height * 16 →
      (Registry.glblasSgemm4x4 wrap ctx s addr1 addr2 init1 init2 transa transb M N K alpha a
        lda b ldb beta c ldc).isSome) := by
  refine ⟨fun r h => glblasSswap_addrs wrap ctx s addr1 init1 n x incx y incy r h1 h,
    fun r h => glblasSdot_addrs wrap ctx s addr1 addr2 init1 init2 n result x incx y incy r
      h1 h2 (Ne.symm h12) h,
    fun r h => glblasSasum_addrs wrap ctx s addr1 init1 n result x incx r h1 h,
    fun r h => glblasSgemm4x4_addrs wrap ctx s addr1 addr2 init1 init2 transa transb M N K
      alpha a lda b ldb beta c ldc r h1 h2 h12 h,
    fun hx hy hn => ?_, fun hx hy hr hn => ?_, fun hx hr hn => ?_,
    fun ha hb hc hA hB => ?_⟩
  · obtain ⟨r, e⟩ := glblasSswap_returns wrap ctx s addr1 init1 n x incx y incy hx hy hn
    rw [e]; rfl
  · obtain ⟨r, e⟩ := glblasSdot_returns wrap ctx s addr1 addr2 init1 init2 n result x incx y
      incy hx hy hr hn
    rw [e]; rfl
  · obtain ⟨r, e⟩ := glblasSasum_returns wrap ctx s addr1 init1 n result x incx hx hr hn
    rw [e]; rfl
  · obtain ⟨r, e⟩ := glblasSgemm4x4_returns wrap ctx s addr1 addr2 init1 init2 transa transb
      M N K alpha a lda b ldb beta c ldc ha hb hc hA hB
    rw [e]; rfl

/-- Claim C20 on the state with three live 16-float buffers at 4096, 8192 and 12288, with
the temporaries placed at 16384 and 20480: a swap, a dot product and a sum of 16 elements
and a 4 by 4 product that allocates both of its temporaries. -/
theorem routines_restore_registry_witness :
    16384 ∉ dev_blas.addrs ∧ 20480 ∉ dev_blas.addrs ∧ 16384 ≠ 20480
    ∧ ((∀ r, Registry.glblasSswap gl_repeat ctx16 dev_blas 16384 zero_init 16 4096 1 8192 1
        = some r → r.2.addrs = dev_blas.addrs)
      ∧ (∀ r, Registry.glblasSdot gl_repeat ctx16 dev_blas 16384 20480 zero_init zero_init 16
        12288 4096 1 8192 1 = some r → r.2.addrs = dev_blas.addrs)
      ∧ (∀ r, Registry.glblasSasum gl_repeat ctx16 dev_blas 16384 zero_init 16 12288 4096 1
        = some r → r.2.addrs = dev_blas.addrs)
      ∧ (∀ r, Registry.glblasSgemm4x4 gl_repeat ctx16 dev_blas 16384 20480 zero_init zero_init
        GLBLAS_OP_N GLBLAS_OP_T 4 4 4 1 4096 4 8192 4 0 12288 4 = some r →
        r.2.addrs = dev_blas.addrs)
      ∧ (4096 ∈ dev_blas.addrs → 8192 ∈ dev_blas.addrs →
        16 * 4 ≤ ctx16.pbuffer_width * ctx16.pbuffer_height * 16 →
        (Registry.glblasSswap gl_repeat ctx16 dev_blas 16384 zero_init 16 4096 1 8192
          1).isSome)
      ∧ (4096 ∈ dev_blas.addrs → 8192 ∈ dev_blas.addrs → 12288 ∈ dev_blas.addrs →
        16 * 4 ≤ ctx16.pbuffer_width * ctx16.pbuffer_height * 16 →
        (Registry.glblasSdot gl_repeat ctx16 dev_blas 16384 20480 zero_init zero_init 16 12288
          4096 1 8192 1).isSome)
      ∧ (4096 ∈ dev_blas.addrs → 12288 ∈ dev_blas.addrs →
        16 * 4 ≤ ctx16.pbuffer_width * ctx16.pbuffer_height * 16 →
        (Registry.glblasSasum gl_repeat ctx16 dev_blas 16384 zero_init 16 12288 4096
          1).isSome)
      ∧ (4096 ∈ dev_blas.addrs → 8192 ∈ dev_blas.addrs → 12288 ∈ dev_blas.addrs →
        ((4 : Int) * 4).toNat * 4 ≤ ctx16.pbuffer_width * ctx16.pbuffer_height * 16 →
        ((4 : Int) * 4).toNat * 4 ≤ ctx16.pbuffer_width * ctx16.pbuffer_height * 16 →
        (Registry.glblasSgemm4x4 gl_repeat ctx16 dev_blas 16384 20480 zero_init zero_init
          GLBLAS_OP_N GLBLAS_OP_T 4 4 4 1 4096 4 8192 4 0 12288 4).isSome)) :=
  ⟨by decide, by decide, by decide,
    routines_restore_registry gl_repeat ctx16 dev_blas 16384 20480 zero_init zero_init 16 12288
      4096 1 8192 1 GLBLAS_OP_N GLBLAS_OP_T 4 4 4 1 4096 4 8192 4 0 12288 4 (by decide)
      (by decide) (by decide)⟩

/-- Claim C21 (defect in the code): `is_padded` should be true exactly when `byte_size` is
not a multiple of 16, also above `2^24` bytes.  A 4096 by 4096 context holds `2^28` bytes;
for `byte_size = 2^24 + 1` the conversion `(float)size` gives `2^24`, so
`roundf((float)size / 16) != (float)size / 16` is false and `is_padded` is false although
`byte_size mod 16 = 1`.  From `2^27` bytes on `(float)size` is always a multiple of 16 and
`is_padded` is false for every size (here `2^27 + 4`, a vector of `2^25 + 1` floats). -/
theorem get_texture_dimensions_padded_float :
    16777217 ≤ 4096 * 4096 * 16
    ∧ (get_texture_dimensions 16777217 4096 4096).1 = .SUCCESS
    ∧ 16777217 % 16 ≠ 0
    ∧ (get_texture_dimensions 16777217 4096 4096).2.2.2 = false
    ∧ (2 ^ 27 + 4) % 16 ≠ 0
    ∧ (get_texture_dimensions (2 ^ 27 + 4) 4096 4096).2.2.2 = false := by
  refine ⟨by norm_num, ?_, by norm_num, ?_, by norm_num, ?_⟩
  · exact (get_texture_dimensions_fits 16777217 4096 4096 (by norm_num) (by norm_num)
      (by norm_num)).1
  · rw [get_texture_dimensions_padded, f32_of_nat_example]
    decide
  · exact get_texture_dimensions_padded_large _ _ _ (by norm_num)

/-- Claim C22 (defect in the code): `glblasScopy(N, x, incx, y, incy)` should put
`x[(i / incy) * incx]` into every `y[i]` with `i < N` and `i mod incy = 0`.  The kernel
computes that source index, but turns its pixel into a texture coordinate with the shape of
the operation, which is the shape of `y`: with `N = 4`, `incx = 2`, `incy = 1`,
`x = [1..8]` and `y` of 4 elements the source pixel of `i = 2, 3` is pixel 1, outside the
1 by 1 shape, and `y` becomes `[1, 3, 1, 3]`, not `[1, 3, 5, 7]`.  With `incx = 1`,
`incy = 2` and `x`, `y` of the same shape the copy is as claimed. -/
theorem glblasScopy_strided_wrong :
    (List.range 4).map (fun i => xindex_of i 2 1) = [0, 2, 4, 6]
    ∧ (List.range 4).map (fun i => (device_vector ctx16 iota8).data (i / 1 * 2)) = [1, 3, 5, 7]
    ∧ hostRead (glblasScopy gl_repeat ctx16 4 (device_vector ctx16 iota8) 2
        (device_vector ctx16 [0, 0, 0, 0]) 1).2 4 = [1, 3, 1, 3]
    ∧ hostRead (glblasScopy gl_repeat ctx16 8 (device_vector ctx16 iota8) 1
        (device_vector ctx16 [0, 0, 0, 0, 0, 0, 0, 0]) 2).2 8 = [1, 0, 2, 0, 3, 0, 4, 0] := by
  decide

/-- Claim C23: the reduction loop of `glblasSasum` and `glblas_sdotv2_sum`, which both models
enter as `sum_loop pass (N / 2) (N / 2)`, is the fold of the pass over `pass_trace`, and
more fuel never adds a pass (the loop has ended: `tN` is 0).  For `N < 2` no pass is
issued.  For `N ≥ 2` there are between 1 and `⌊log₂ N⌋` passes, the first `max_index` is
`N / 2`, or 1 when that is below 4, each next one is half the one before, or 1 when that
half is below 4, and the last one is 1. -/
theorem reduction_loop_schedule (N : Nat) :
    (∀ fuel, N / 2 ≤ fuel → pass_trace fuel (N / 2) = pass_trace (N / 2) (N / 2))
    ∧ (∀ (β : Type) (pass : Nat → β → β) (t : β),
      sum_loop pass (N / 2) (N / 2) t
        = (pass_trace (N / 2) (N / 2)).foldl (fun t m => pass m t) t)
    ∧ (N < 2 → pass_trace (N / 2) (N / 2) = [])
    ∧ (2 ≤ N →
      1 ≤ (pass_trace (N / 2) (N / 2)).length
      ∧ (pass_trace (N / 2) (N / 2)).length ≤ Nat.log 2 N
      ∧ (pass_trace (N / 2) (N / 2)).head? = some (if N / 2 < 4 then 1 else N / 2)
      ∧ List.Chain' (fun a b => b = if a / 2 < 4 then 1 else a / 2)
          (pass_trace (N / 2) (N / 2))
      ∧ (pass_trace (N / 2) (N / 2)).getLast? = some 1) := by
  refine ⟨fun fuel hf => ?_, fun β pass t => sum_loop_eq_foldl pass _ _ t, fun h => ?_,
    fun h => ?_⟩
  · exact sum_loop_fuel _ fuel (N / 2) (N / 2) [] hf le_rfl
  · have : N / 2 = 0 := by omega
    rw [this, pass_trace_zero]
  · obtain ⟨h1, h2, h3, h4, _⟩ := pass_trace_props (N / 2) (N / 2) (by omega) le_rfl
    refine ⟨?_, ?_, h2, h4, h3⟩
    · cases hl : pass_trace (N / 2) (N / 2) with
      | nil => rw [hl] at h2; simp at h2
      | cons a l => simp
    · exact le_trans h1 (Nat.log_mono_right (by omega))

/-- Claim C23 at `N = 100` and `N = 16`: the passes have `max_index` 50, 25, 12, 6, 1 and
8, 4, 1; `N = 2` issues the single pass 1 and `N = 1` none. -/
theorem reduction_loop_schedule_witness :
    pass_trace (100 / 2) (100 / 2) = [50, 25, 12, 6, 1]
    ∧ pass_trace (16 / 2) (16 / 2) = [8, 4, 1]
    ∧ pass_trace (2 / 2) (2 / 2) = [1]
    ∧ pass_trace (1 / 2) (1 / 2) = []
    ∧ (pass_trace (100 / 2) (100 / 2)).length ≤ Nat.log 2 100
    ∧ (pass_trace (100 / 2) (100 / 2)).getLast? = some 1 :=
  ⟨by decide, by decide, by decide, by decide,
    ((reduction_loop_schedule 100).2.2.2 (by decide)).2.1,
    ((reduction_loop_schedule 100).2.2.2 (by decide)).2.2.2.2⟩

/-- Claim C24 (defect in the code): `glblasSscal(N, alpha, x, incx)` should leave every
element of flat index `≥ N` as it was, `max_index = N` being an exclusive bound.  The kernel
keeps a lane when `index > max_index`, so it scales index `N` too: with `N = 3`,
`alpha = 2`, `incx = 1` and `x = [1, 2, 3, 4]` the result is `[2, 4, 6, 8]`, and with
`N = 5` on `[1..8]` element 5 is doubled. -/
theorem glblasSscal_bound_inclusive :
    hostRead (glblasSscal gl_repeat ctx16 3 2 (device_vector ctx16 [1, 2, 3, 4]) 1).2 4
      = [2, 4, 6, 8]
    ∧ (glblasSscal gl_repeat ctx16 3 2 (device_vector ctx16 [1, 2, 3, 4]) 1).2.data 3
      ≠ (device_vector ctx16 [1, 2, 3, 4]).data 3
    ∧ hostRead (glblasSscal gl_repeat ctx16 5 2 (device_vector ctx16 iota8) 1).2 8
      = [2, 4, 6, 8, 10, 12, 7, 8] := by
  decide

/-- Claim C25 (defect in the code): an operation whose derived shape exceeds the maximum
should return `DIMENSION_OVERFLOW` without a dispatch.  `get_op_dims` drops the status of
`get_texture_dimensions`: on the 2 by 2 context `N = 20` derives the shape 2 by 3, which
`get_texture_dimensions` rejects, yet `get_op_dims` returns `SUCCESS` with that shape and
`glblasSscal`, `glblasScopy`, `glblasSaxpy` and `glblasSgemm` (`M*N = 20`) return `SUCCESS`
after a draw that has written the surface; `glblasSasum` does not return at all, the
allocation of its temporary aborts. -/
theorem get_op_dims_overflow_dispatches :
    (get_texture_dimensions (20 * sizeof_float) ctx2.pbuffer_width ctx2.pbuffer_height).1
      = .DIMENSION_OVERFLOW
    ∧ get_op_dims 20 (device_vector ctx2 [1, 2, 3, 4]) ctx2 = (.SUCCESS, 2, 3)
    ∧ (glblasSscal gl_repeat ctx2 20 2 (device_vector ctx2 [1, 2, 3, 4]) 1).1 = .SUCCESS
    ∧ hostRead (glblasSscal gl_repeat ctx2 20 2 (device_vector ctx2 [1, 2, 3, 4]) 1).2 4
      = [2, 4, 6, 8]
    ∧ (glblasScopy gl_repeat ctx2 20 (device_vector ctx2 [1, 2, 3, 4]) 1
        (device_vector ctx2 [0, 0, 0, 0]) 1).1 = .SUCCESS
    ∧ hostRead (glblasScopy gl_repeat ctx2 20 (device_vector ctx2 [1, 2, 3, 4]) 1
        (device_vector ctx2 [0, 0, 0, 0]) 1).2 4 = [1, 2, 3, 4]
    ∧ (glblasSaxpy gl_repeat ctx2 20 2 (device_vector ctx2 [1, 2, 3, 4]) 1
        (device_vector ctx2 [1, 1, 1, 1]) 1).1 = .SUCCESS
    ∧ hostRead (glblasSaxpy gl_repeat ctx2 20 2 (device_vector ctx2 [1, 2, 3, 4]) 1
        (device_vector ctx2 [1, 1, 1, 1]) 1).2 4 = [3, 5, 7, 9]
    ∧ (glblasSgemm gl_repeat ctx2 GLBLAS_OP_N GLBLAS_OP_N 5 4 1 1 (device_vector ctx2 [1, 1, 1, 1])
        5 (device_vector ctx2 [1, 1, 1, 1]) 1 0 (device_vector ctx2 [7, 7, 7, 7]) 5).1 = .SUCCESS
    ∧ hostRead (glblasSgemm gl_repeat ctx2 GLBLAS_OP_N GLBLAS_OP_N 5 4 1 1
        (device_vector ctx2 [1, 1, 1, 1]) 5 (device_vector ctx2 [1, 1, 1, 1]) 1 0
        (device_vector ctx2 [7, 7, 7, 7]) 5).2 4 = [1, 1, 1, 1]
    ∧ (glblasSasum gl_repeat ctx2 zero_init 20 (device_vector ctx2 [0])
        (device_vector ctx2 [1, 2, 3, 4]) 1).isNone = true := by
  decide

/-- Claim C26 (defect in the code): the reorder pre-pass of `glblasSgemm4x4` should leave
the transpose of an `n` by `n` operand, `out[n*i + l] = in[i + n*l]`, for every `n` that is
a multiple of 4.  It gathers with stride `n*n/4`, which is `n` only for `n = 4`: the 4 by 4
matrix `1..16` is transposed, but for `n = 8` and the matrix `1..64` the first eight
elements are `1, 17, 33, 49, 2, 18, 34, 50`, where the first row of the operand is
`1, 9, 17, 25, 33, 41, 49, 57`; `out[8*0 + 1]` is `in[16]`, not `in[0 + 8*1]`.  With `A` the
8 by 8 identity and `B = 1..64`, no transposition, `glblasSgemm4x4` returns `SUCCESS` and a
`C` that starts `1, 2, 3, 4, 9, 10, 11, 12`, not `B`. -/
theorem glblas_sgemm4x4_reorder_not_transpose :
    hostRead (glblas_sgemm4x4_reorder gl_repeat ctx16 16 (device_vector ctx16 iota16)
        (device_vector ctx16 zeros16)) 16
      = [1, 5, 9, 13, 2, 6, 10, 14, 3, 7, 11, 15, 4, 8, 12, 16]
    ∧ hostRead (glblas_sgemm4x4_reorder gl_repeat ctx16 64 (device_vector ctx16 iota64)
        (device_vector ctx16 zeros64)) 8
      = [1, 17, 33, 49, 2, 18, 34, 50]
    ∧ (List.range 8).map (fun l => (device_vector ctx16 iota64).data (0 + 8 * l))
      = [1, 9, 17, 25, 33, 41, 49, 57]
    ∧ (glblas_sgemm4x4_reorder gl_repeat ctx16 64 (device_vector ctx16 iota64)
        (device_vector ctx16 zeros64)).data (8 * 0 + 1)
      ≠ (device_vector ctx16 iota64).data (0 + 8 * 1)
    ∧ (glblasSgemm4x4 gl_repeat ctx16 zero_init zero_init GLBLAS_OP_N GLBLAS_OP_N 8 8 8 1
        (device_vector ctx16 ident8) 8 (device_vector ctx16 iota64) 8 0
        (device_vector ctx16 zeros64) 8).map (fun r => (r.1, hostRead r.2 8))
      = some (.SUCCESS, [1, 2, 3, 4, 9, 10, 11, 12]) := by
  decide

/-- Claim C27 (defect in the code): the flat index the elementwise kernels compute for lane
`l` of pixel `(px, py)` should be its row-major position `4*(py*W + px) + l`.  The kernels
compute `py*W + 4*px + l`: on a 2 by 2 surface lane 0 of pixel `(0, 1)`, which holds host
element 8, gets index 2, the index of lane 2 of pixel `(0, 0)`. -/
theorem frag_index_not_row_major :
    frag_index ⟨0, 1, 2, 2⟩ 2 + 0 = 2
    ∧ 4 * (1 * 2 + 0) + 0 = 8
    ∧ frag_index ⟨0, 1, 2, 2⟩ 2 + 0 = frag_index ⟨0, 0, 2, 2⟩ 2 + 2 := by
  decide

/-- Claim C28 (defect in the code): on the direct path `glblasMemcpy` should move
`byte_size` bytes.  A buffer of 48 bytes on the 2 by 2 context is not padded and has the
shape 2 by 2; a device-to-host transfer of its 48 bytes takes the direct path and writes
`width*height*16 = 64` bytes at the host pointer (host byte `dst + 50` receives device byte
50), and the host-to-device transfer reads 64 bytes (device byte 50 receives host byte
`src + 50`). -/
theorem glblasMemcpy_direct_moves_surface :
    (glblasMalloc ctx2 48 (fun j => j + 1)).map
        (fun b => (b.size, b.width, b.height, b.is_padded)) = some (48, 2, 2, false)
    ∧ (get_buffer_from_address dev_rows 4096).map
        (fun b => (b.size, b.width, b.height, b.is_padded, surface_bytes b))
      = some (48, 2, 2, false, 64)
    ∧ (glblasMemcpy dev_rows 1000 4096 48 glblasMemcpyDeviceToHost).1 = .SUCCESS
    ∧ dev_rows.host (1000 + 50) = 26
    ∧ (glblasMemcpy dev_rows 1000 4096 48 glblasMemcpyDeviceToHost).2.host (1000 + 50) = 51
    ∧ (glblasMemcpy dev_rows 4096 200 48 glblasMemcpyHostToDevice).1 = .SUCCESS
    ∧ (get_buffer_from_address dev_rows 4096).map (fun b => b.data 50) = some 51
    ∧ (get_buffer_from_address (glblasMemcpy dev_rows 4096 200 48 glblasMemcpyHostToDevice).2
        4096).map (fun b => b.data 50) = some 250 := by
  decide

/-- Claim C29 (defect in the code): a host-to-device transfer of fewer bytes than the
buffer holds should leave the device bytes from `byte_size` on as they were.  The staged
path uploads the whole staging area: after 16 of the 32 bytes of a buffer of sevens are
transferred, device byte 20 holds 0, what the staging area held there. -/
theorem glblasMemcpy_partial_overwrites :
    (get_buffer_from_address dev_partial 4096).map (fun b => b.data 20) = some 7
    ∧ (glblasMemcpy dev_partial 4096 200 16 glblasMemcpyHostToDevice).1 = .SUCCESS
    ∧ (get_buffer_from_address
        (glblasMemcpy dev_partial 4096 200 16 glblasMemcpyHostToDevice).2 4096).map
          (fun b => (b.data 3, b.data 20)) = some (203, 0) := by
  decide

end Claims

end GLBLAS
